import Mathlib

/-!
Cluster supervision: health records, status dispatch, and the main loop.

Shallow embedding of `arangod/Agency/Supervision.cpp`: the `HealthRecord`
structure with its two assignment operators and its serialisation, the
role-specific `handleOnStatus*` functions, `Supervision::check` with its
removal sweep, the upgrade of the agency, the status report, one round of the
main loop of `Supervision::run`, the shutdown handling, the reservation of job
ids, and the two job-starting parts of `handleJobs`, `shrinkCluster` and
`enforceReplication`.
-/

namespace Supervision

/-! ## VelocyPack values and the store tree -/

/-- VelocyPack value as produced by a `VPackBuilder`. The entries of an object
are listed in the order in which they were added. -/
inductive VPack where
  | null : VPack
  | bool (b : Bool) : VPack
  | uint (n : Nat) : VPack
  | str (s : String) : VPack
  | arr (xs : List VPack) : VPack
  | obj (kvs : List (String × VPack)) : VPack

/-- Modelled from the spec: the class `Node` (Agency/Node.h is not part of the
sources at hand). Spec 4.1: a read-only, path-addressed view over a snapshot,
with `has(path)`, `get(path)`, `children(path)` (an ordered mapping from names
to nodes) and typed accessors returning a `(value, present)` pair. A node is
either a leaf holding a value or an inner node holding named children. -/
inductive Node where
  | value (v : VPack) : Node
  | object (children : List (String × Node)) : Node

/-- Modelled from the spec: splitting of a `/`-separated path into its
non-empty segments (spec 3: paths are `/`-separated; spec 4.1: duplicated
separators and the leading separator carry no meaning). `cur` holds the
characters of the segment being read, in reverse. -/
def splitPathAux : List Char → List Char → List String
  | [], cur => if cur = [] then [] else [String.mk cur.reverse]
  | c :: cs, cur =>
    if c = '/' then
      (if cur = [] then [] else [String.mk cur.reverse]) ++ splitPathAux cs []
    else splitPathAux cs (c :: cur)

/-- Modelled from the spec: the segments of a path string. -/
def splitPath (path : String) : List String :=
  splitPathAux path.data []

/-- Modelled from the spec: the children of a node, in iteration order; a
leaf has none. -/
def Node.children : Node → List (String × Node)
  | .value _ => []
  | .object cs => cs

/-- Modelled from the spec: descent along a list of segments. -/
def Node.getSegs (n : Node) : List String → Option Node
  | [] => some n
  | k :: ks =>
    match n.children.lookup k with
    | some c => c.getSegs ks
    | none => none

/-- Modelled from the spec: `get(path) → Node?`. -/
def Node.get (n : Node) (path : String) : Option Node :=
  n.getSegs (splitPath path)

/-- Modelled from the spec: `has(path) → bool`. -/
def Node.has (n : Node) (path : String) : Bool :=
  (n.get path).isSome

/-- Modelled from the spec: typed accessor `hasAsString`, a `(value, present)`
pair; the value is the empty string when the path is absent or does not hold
a string. -/
def Node.hasAsString (n : Node) (path : String) : String × Bool :=
  match n.get path with
  | some (.value (.str s)) => (s, true)
  | _ => ("", false)

/-- Modelled from the spec: typed accessor `hasAsNode`; the value is an empty
inner node when the path is absent. -/
def Node.hasAsNode (n : Node) (path : String) : Node × Bool :=
  match n.get path with
  | some m => (m, true)
  | none => (.object [], false)

/-- Modelled from the spec: typed accessor `hasAsChildren`. -/
def Node.hasAsChildren (n : Node) (path : String) : List (String × Node) × Bool :=
  match n.get path with
  | some m => (m.children, true)
  | none => ([], false)

/-! ## Constants -/

/-- Modelled from the spec: `Supervision::HEALTH_STATUS_GOOD` (declared in
Supervision.h, which is not at hand); spec 3 names the status `GOOD`. -/
def HEALTH_STATUS_GOOD : String := "GOOD"

/-- Modelled from the spec: `Supervision::HEALTH_STATUS_BAD`. -/
def HEALTH_STATUS_BAD : String := "BAD"

/-- Modelled from the spec: `Supervision::HEALTH_STATUS_FAILED`. -/
def HEALTH_STATUS_FAILED : String := "FAILED"

def syncPrefix : String := "/Sync/ServerStates/"

def healthPrefix : String := "/Supervision/Health/"

def targetShortID : String := "/Target/MapUniqueToShortID/"

def currentServersRegisteredPrefix : String := "/Current/ServersRegistered"

def foxxmaster : String := "/Current/Foxxmaster"

/-- Modelled from the spec: `failedServersPrefix` (declared in Agency/Job.h,
which is not at hand); spec 3 gives the path `/Target/FailedServers/<id>`. -/
def failedServersPrefix : String := "/Target/FailedServers"

/-! ## HealthRecord -/

/-- The `HealthRecord` struct. -/
structure HealthRecord where
  shortName : String
  syncTime : String
  syncStatus : String
  status : String
  endpoint : String
  lastAcked : String
  hostId : String
  version : Nat
  deriving DecidableEq, Repr

namespace HealthRecord

/-- The default constructor `HealthRecord()`. -/
def blank : HealthRecord :=
  { shortName := "", syncTime := "", syncStatus := "", status := "",
    endpoint := "", lastAcked := "", hostId := "", version := 0 }

/-- The constructor `HealthRecord(sn, ep, ho)`. -/
def mk3 (sn ep ho : String) : HealthRecord :=
  { shortName := sn, syncTime := "", syncStatus := "", status := "",
    endpoint := ep, lastAcked := "", hostId := ho, version := 0 }

/-- The version-2 or version-1 branch of `operator=(Node const&)`, entered
when the node has a `Status` key. -/
def assignStatusPart (r : HealthRecord) (node : Node) : HealthRecord :=
  let r := { r with status := (node.hasAsString "Status").1 }
  let r :=
    if node.has "SyncStatus" then
      let r := { r with version := 2, syncStatus := (node.hasAsString "SyncStatus").1 }
      let r := if node.has "SyncTime" then
        { r with syncTime := (node.hasAsString "SyncTime").1 } else r
      if node.has "LastAcked" then
        { r with lastAcked := (node.hasAsString "LastAcked").1 } else r
    else if node.has "LastHeartbeatStatus" then
      let r := { r with version := 1,
                        syncStatus := (node.hasAsString "LastHeartbeatStatus").1 }
      let r := if node.has "LastHeartbeatSent" then
        { r with syncTime := (node.hasAsString "LastHeartbeatSent").1 } else r
      if node.has "LastHeartbeatAcked" then
        { r with lastAcked := (node.hasAsString "LastHeartbeatAcked").1 } else r
    else r
  if node.has "Host" then { r with hostId := (node.hasAsString "Host").1 } else r

/-- The assignment `HealthRecord::operator=(Node const&)`. -/
def assignNode (self : HealthRecord) (node : Node) : HealthRecord :=
  let r := { self with version := 0 }
  let r := if r.shortName = "" then
    { r with shortName := (node.hasAsString "ShortName").1 } else r
  let r := if r.endpoint = "" then
    { r with endpoint := (node.hasAsString "Endpoint").1 } else r
  if node.has "Status" then assignStatusPart r node else r

/-- The assignment `HealthRecord::operator=(HealthRecord const&)`: `syncTime`
and `lastAcked` of the target are kept. -/
def assignRecord (self other : HealthRecord) : HealthRecord :=
  { self with shortName := other.shortName, syncStatus := other.syncStatus,
              status := other.status, endpoint := other.endpoint,
              hostId := other.hostId, version := other.version }

/-- The entries `HealthRecord::toVelocyPack` adds to the open object; `now` is
the string `timepointToString(std::chrono::system_clock::now())`. -/
def toVelocyPack (r : HealthRecord) (now : String) : List (String × VPack) :=
  [("ShortName", .str r.shortName),
   ("Endpoint", .str r.endpoint),
   ("Host", .str r.hostId),
   ("SyncStatus", .str r.syncStatus),
   ("Status", .str r.status)] ++
  (if r.syncTime = "" then
    [("Timestamp", .str now)]
   else
    [("SyncTime", .str r.syncTime), ("LastAcked", .str r.lastAcked)])

/-- The method `HealthRecord::statusDiff`. -/
def statusDiff (r other : HealthRecord) : Bool :=
  r.status != other.status || r.syncStatus != other.syncStatus

end HealthRecord

/-! ## Role-specific status dispatch -/

/-- The envelopes that `FailedServer(...).create` and
`ActiveFailoverJob(...).create` write into the builder they are handed, taken
as parameters (Agency/FailedServer.cpp and Agency/ActiveFailoverJob.cpp are not
at hand). Each takes the snapshot, the job id string, the creator and the
server id. -/
structure Jobs where
  failedServerCreate : Node → String → String → String → VPack
  activeFailoverCreate : Node → String → String → String → VPack

/-- How the `envelope` builder of `handleOnStatus` was filled. -/
inductive Envelope where
  | deleteFailedServer (failedServerPath : String) : Envelope
  | failedServer (jobId creator server : String) : Envelope
  | activeFailover (jobId creator server : String) : Envelope
  deriving DecidableEq, Repr

/-- Whether the envelope was filled by a job constructor. -/
def Envelope.isJob : Envelope → Bool
  | .deleteFailedServer _ => false
  | .failedServer _ _ _ => true
  | .activeFailover _ _ _ => true

/-- The slice of a filled envelope. -/
def Envelope.slice (jobs : Jobs) (snapshot : Node) : Envelope → VPack
  | .deleteFailedServer failedServerPath =>
    .arr [.obj [(failedServerPath, .obj [("op", .str "delete")])]]
  | .failedServer jobId creator server =>
    jobs.failedServerCreate snapshot jobId creator server
  | .activeFailover jobId creator server =>
    jobs.activeFailoverCreate snapshot jobId creator server

/-- The effect of one `handleOnStatus*` call: the two records handed in by
reference as they are on return, the envelope when the call assigned it, and
the transactions the call itself sent through `singleWriteTransaction`. -/
structure StatusAction where
  persisted : HealthRecord
  transisted : HealthRecord
  envelope : Option Envelope
  writes : List VPack

/-- The test `serverID.compare(0,4,p) == 0`. -/
def hasRolePrefix (serverID p : String) : Bool :=
  serverID.data.take 4 = p.data

/-- The function `handleOnStatusDBServer`. -/
def handleOnStatusDBServer (snapshot : Node) (persisted transisted : HealthRecord)
    (serverID : String) (jobId : Nat) : StatusAction :=
  let failedServerPath := failedServersPrefix ++ "/" ++ serverID
  if transisted.status = HEALTH_STATUS_GOOD then
    if snapshot.has failedServerPath then
      ⟨persisted, transisted, some (.deleteFailedServer failedServerPath), []⟩
    else ⟨persisted, transisted, none, []⟩
  else if persisted.status = HEALTH_STATUS_GOOD ∧
      transisted.status ≠ HEALTH_STATUS_GOOD then
    ⟨persisted, { transisted with status := HEALTH_STATUS_BAD }, none, []⟩
  else if persisted.status = HEALTH_STATUS_BAD ∧
      transisted.status = HEALTH_STATUS_FAILED then
    if !snapshot.has failedServerPath then
      ⟨persisted, transisted,
        some (.failedServer (toString jobId) "supervision" serverID), []⟩
    else ⟨persisted, transisted, none, []⟩
  else ⟨persisted, transisted, none, []⟩

/-- The function `handleOnStatusCoordinator`. -/
def handleOnStatusCoordinator (snapshot : Node) (persisted transisted : HealthRecord)
    (serverID : String) : StatusAction :=
  if transisted.status = HEALTH_STATUS_FAILED then
    if (snapshot.hasAsString foxxmaster).1 = serverID then
      ⟨persisted, transisted, none, [.arr [.obj [(foxxmaster, .str "")]]]⟩
    else ⟨persisted, transisted, none, []⟩
  else ⟨persisted, transisted, none, []⟩

/-- The function `handleOnStatusSingle`. -/
def handleOnStatusSingle (snapshot : Node) (persisted transisted : HealthRecord)
    (serverID : String) (jobId : Nat) : StatusAction :=
  let failedServerPath := failedServersPrefix ++ "/" ++ serverID
  if transisted.status = HEALTH_STATUS_GOOD then
    if snapshot.has failedServerPath then
      ⟨persisted, transisted, some (.deleteFailedServer failedServerPath), []⟩
    else ⟨persisted, transisted, none, []⟩
  else if persisted.status = HEALTH_STATUS_GOOD ∧
      transisted.status ≠ HEALTH_STATUS_GOOD then
    ⟨persisted, { transisted with status := HEALTH_STATUS_BAD }, none, []⟩
  else if persisted.status = HEALTH_STATUS_BAD ∧
      transisted.status = HEALTH_STATUS_FAILED then
    if !snapshot.has failedServerPath then
      ⟨persisted, transisted,
        some (.activeFailover (toString jobId) "supervision" serverID), []⟩
    else ⟨persisted, transisted, none, []⟩
  else ⟨persisted, transisted, none, []⟩

/-- The function `handleOnStatus`; the last branch only logs. -/
def handleOnStatus (snapshot : Node) (persisted transisted : HealthRecord)
    (serverID : String) (jobId : Nat) : StatusAction :=
  if hasRolePrefix serverID "PRMR" then
    handleOnStatusDBServer snapshot persisted transisted serverID jobId
  else if hasRolePrefix serverID "CRDN" then
    handleOnStatusCoordinator snapshot persisted transisted serverID
  else if hasRolePrefix serverID "SNGL" then
    handleOnStatusSingle snapshot persisted transisted serverID jobId
  else ⟨persisted, transisted, none, []⟩

/-! ## The per-server body of `Supervision::check` -/

/-- The reply `write_ret_t` of the agent to a write. -/
structure write_ret_t where
  accepted : Bool
  indices : List Nat
  deriving DecidableEq, Repr

/-- A call into the agent. -/
inductive AgentCall where
  | singleWriteTransaction (trx : VPack) : AgentCall
  | transient (trx : VPack) : AgentCall
  | write (query : VPack) : AgentCall

/-- The members of `Supervision` that `check` reads, and the helpers it calls
whose code is not at hand. Thresholds are `double` in the source; every finite
`double` is a rational and the comparison `<=` on finite doubles is the one of
the rationals. Time points are counted in ticks of `system_clock`, of which
there are `ticksPerSecond` in a second. -/
structure Settings where
  okThreshold : ℚ
  gracePeriod : ℚ
  ticksPerSecond : Nat
  timepointToString : Int → String
  stringToTimepoint : String → Int
  jobs : Jobs

/-- What the body observes from outside while it handles one server: the
readings of `system_clock::now()` (lines 475, 482 and inside the two
`toVelocyPack` calls of lines 511 and 521), `isStopping()` and the reply of
the agent to the persistent write of line 540. -/
structure Observed where
  nowAcked : Int
  nowElapsed : Int
  nowTReport : Int
  nowPReport : Int
  stopping : Bool
  res : write_ret_t

/-- Lines 484 to 490: the status for an elapsed time. -/
def healthStatus (elapsed okThreshold gracePeriod : ℚ) : String :=
  if elapsed ≤ okThreshold then HEALTH_STATUS_GOOD
  else if elapsed ≤ gracePeriod then HEALTH_STATUS_BAD
  else HEALTH_STATUS_FAILED

/-- Lines 439 to 461: the transient and the persistent record as loaded,
in this order. -/
def loadRecords (snapshot transient : Node) (serverID shortName : String) :
    HealthRecord × HealthRecord :=
  let serversRegistered := (snapshot.hasAsNode currentServersRegisteredPrefix).1
  let epPath := serverID ++ "/endpoint"
  let endpoint :=
    if serversRegistered.has epPath then (serversRegistered.hasAsString epPath).1 else ""
  let hoPath := serverID ++ "/host"
  let hostId :=
    if serversRegistered.has hoPath then (serversRegistered.hasAsString hoPath).1 else ""
  let transist := HealthRecord.mk3 shortName endpoint hostId
  let persist := HealthRecord.mk3 shortName endpoint hostId
  let transist :=
    if transient.has (healthPrefix ++ serverID) then
      transist.assignNode (transient.hasAsNode (healthPrefix ++ serverID)).1
    else transist
  let persist :=
    if snapshot.has (healthPrefix ++ serverID) then
      persist.assignNode (snapshot.hasAsNode (healthPrefix ++ serverID)).1
    else persist
  (transist, persist)

/-- Lines 466 to 468: the heartbeat time found in the transient store. -/
def observedSyncTime (s : Settings) (transient : Node) (serverID : String) : String :=
  if transient.has (syncPrefix ++ serverID) then
    (transient.hasAsString (syncPrefix ++ serverID ++ "/time")).1
  else s.timepointToString 0

/-- Lines 469 to 470: the heartbeat status found in the transient store. -/
def observedSyncStatus (transient : Node) (serverID : String) : String :=
  if transient.has (syncPrefix ++ serverID) then
    (transient.hasAsString (syncPrefix ++ serverID ++ "/status")).1
  else "UNKNOWN"

/-- Lines 474 to 475: `lastAckedTime`. -/
def lastAckedTime (s : Settings) (transient : Node) (serverID : String)
    (transist : HealthRecord) (o : Observed) : Int :=
  if observedSyncTime s transient serverID ≠ transist.syncTime then o.nowAcked
  else s.stringToTimepoint transist.lastAcked

/-- Lines 481 to 482: `elapsed.count()`, the ticks since `lastAckedTime` as a
number of seconds; the conversion to `double` is taken as exact. -/
def elapsed (s : Settings) (transient : Node) (serverID : String)
    (transist : HealthRecord) (o : Observed) : ℚ :=
  mkRat (o.nowElapsed - lastAckedTime s transient serverID transist o) s.ticksPerSecond

/-- Lines 466 to 490: the transient record refreshed from the heartbeat, with
the status computed from the elapsed time. -/
def refreshTransist (s : Settings) (transient : Node) (serverID : String)
    (transist : HealthRecord) (o : Observed) : HealthRecord :=
  { transist with
    lastAcked := s.timepointToString (lastAckedTime s transient serverID transist o),
    syncTime := observedSyncTime s transient serverID,
    syncStatus := observedSyncStatus transient serverID,
    status := healthStatus (elapsed s transient serverID transist o)
      s.okThreshold s.gracePeriod }

/-- Lines 505 to 511: the transient report. -/
def tReportOf (s : Settings) (serverID : String) (transist : HealthRecord)
    (o : Observed) : VPack :=
  .arr [.obj [(healthPrefix ++ serverID,
    .obj (transist.toVelocyPack (s.timepointToString o.nowTReport)))]]

/-- Lines 516 to 533: the persistent report. The result is `none` where the
source fails an assertion: the envelope is not an array that starts with an
object, or its second element is not an object. -/
def pReportOf (healthKey : String) (record : List (String × VPack)) :
    Option VPack → Option VPack
  | none => some (.arr [.obj [(healthKey, .obj record)]])
  | some (.arr (.obj ops :: [])) =>
    some (.arr [.obj ((healthKey, .obj record) :: ops)])
  | some (.arr (.obj ops :: .obj precs :: _)) =>
    some (.arr [.obj ((healthKey, .obj record) :: ops), .obj precs])
  | some _ => none

/-- What the body has done for one server when it ran to its end. -/
structure CheckResult where
  transist : HealthRecord
  persist : HealthRecord
  changed : Bool
  envelope : Option Envelope
  tReport : VPack
  pReport : Option VPack
  calls : List AgentCall
  jobId : Nat

/-- How the body ended for one server: skipped for want of a short name,
stopped by a failed assertion or by `front()` of an empty vector (after the
calls listed), or run to its end. -/
inductive Outcome where
  | skipped : Outcome
  | aborted (calls : List AgentCall) : Outcome
  | done (r : CheckResult) : Outcome

/-- Lines 536 to 548: the calls to the agent and the new `_jobId`. The result
is `none` where the source has no defined behaviour: `pReport` is null though
the record changed, or `res.indices.front()` is taken of an empty vector. -/
def submit (changed : Bool) (pReport : Option VPack) (tReport : VPack) (jobId : Nat)
    (o : Observed) : Option (List AgentCall × Nat) :=
  if !o.stopping then
    if changed then
      match pReport with
      | none => none
      | some report =>
        if o.res.accepted then
          match o.res.indices with
          | [] => none
          | front :: _ =>
            if front ≠ 0 then
              some ([.singleWriteTransaction report, .transient tReport],
                (jobId + 1) % 2 ^ 64)
            else some ([.singleWriteTransaction report], jobId)
        else some ([.singleWriteTransaction report], jobId)
    else some ([.transient tReport], jobId)
  else some ([], jobId)

/-- Lines 439 to 548: the body of the monitoring loop of `check` for a server
whose short name has arrived. -/
def checkBody (s : Settings) (snapshot transient : Node) (jobId : Nat)
    (serverID shortName : String) (o : Observed) : Outcome :=
  let loaded := loadRecords snapshot transient serverID shortName
  let persist := loaded.2
  let transist := refreshTransist s transient serverID loaded.1 o
  let changed := transist.statusDiff persist
  let act : StatusAction :=
    if changed then handleOnStatus snapshot persist transist serverID jobId
    else ⟨persist, transist, none, []⟩
  let persist := act.persisted.assignRecord act.transisted
  let tReport := tReportOf s serverID act.transisted o
  let early := act.writes.map AgentCall.singleWriteTransaction
  let record := persist.toVelocyPack (s.timepointToString o.nowPReport)
  let pReport : Option (Option VPack) :=
    if changed then
      (pReportOf (healthPrefix ++ serverID) record
        (act.envelope.map (Envelope.slice s.jobs snapshot))).map some
    else some none
  match pReport with
  | none => .aborted early
  | some pReport =>
    match submit changed pReport tReport jobId o with
    | none => .aborted (early ++ pReport.toList.map AgentCall.singleWriteTransaction)
    | some (calls, jobId1) =>
      .done ⟨act.transisted, persist, changed, act.envelope, tReport, pReport,
        early ++ calls, jobId1⟩

/-- Lines 429 to 552: one round of the monitoring loop of `check`, for the
planned machine `serverID`. -/
def checkMachine (s : Settings) (snapshot transient : Node) (jobId : Nat)
    (serverID : String) (o : Observed) : Outcome :=
  let tmp_shortName := snapshot.hasAsString (targetShortID ++ serverID ++ "/ShortName")
  if tmp_shortName.2 then
    checkBody s snapshot transient jobId serverID tmp_shortName.1 o
  else .skipped

/-! ## The removal sweep and the loop of `Supervision::check` -/

/-- Line 406: `machinesPlanned`. -/
def machinesPlanned (snapshot : Node) (type : String) : List (String × Node) :=
  (snapshot.hasAsChildren ("Plan/" ++ type)).1

/-- Lines 410 to 412: the test on the role class and the first four characters
of an id under health. -/
def roleMatches (type id : String) : Bool :=
  (type == "DBServers" && hasRolePrefix id "PRMR") ||
  (type == "Coordinators" && hasRolePrefix id "CRDN") ||
  (type == "Singles" && hasRolePrefix id "SNGL")

/-- Lines 408 to 422: `todelete` as handed to `removeTransactionBuilder`. The
erase-remove of line 419 drops every element equal to the planned id. -/
def todelete (snapshot : Node) (type : String) : List String :=
  let candidates := ((snapshot.hasAsChildren healthPrefix).1.filter
    fun machine => roleMatches type machine.1).map Prod.fst
  (machinesPlanned snapshot type).foldl
    (fun acc machine => acc.filter fun srv => srv ≠ machine.1) candidates

/-- The function `removeTransactionBuilder`; `agencyPrefix` is
`Supervision::agencyPrefix()`. -/
def removeTransactionBuilder (agencyPrefix : String) (todelete : List String) : VPack :=
  .arr [.arr [.obj (todelete.map fun srv =>
    (agencyPrefix ++ healthPrefix ++ srv, .obj [("op", .str "delete")]))]]

/-- Lines 423 to 425: the write of the removal sweep. -/
def removalSweep (agencyPrefix : String) (snapshot : Node) (type : String) :
    List AgentCall :=
  if todelete snapshot type ≠ [] then
    [.write (removeTransactionBuilder agencyPrefix (todelete snapshot type))]
  else []

/-- Lines 428 to 554: the monitoring loop over the planned machines, with the
outcome of every round and the final `_jobId`. A round that ends by an
exception ends the loop. `obs` gives what the round of a server observes. -/
def checkLoop (s : Settings) (snapshot transient : Node) (obs : String → Observed) :
    List (String × Node) → Nat → List (String × Outcome) × Nat
  | [], jobId => ([], jobId)
  | machine :: rest, jobId =>
    match checkMachine s snapshot transient jobId machine.1 (obs machine.1) with
    | .skipped =>
      let tail := checkLoop s snapshot transient obs rest jobId
      ((machine.1, .skipped) :: tail.1, tail.2)
    | .aborted calls => ([(machine.1, .aborted calls)], jobId)
    | .done r =>
      let tail := checkLoop s snapshot transient obs rest r.jobId
      ((machine.1, .done r) :: tail.1, tail.2)

/-- What one call of `check(type)` has done. -/
structure CheckRun where
  type : String
  todelete : List String
  removal : List AgentCall
  rounds : List (String × Outcome)
  jobId : Nat

/-- The function `Supervision::check`. -/
def check (s : Settings) (agencyPrefix : String) (snapshot transient : Node)
    (obs : String → Observed) (jobId : Nat) (type : String) : CheckRun :=
  let loop := checkLoop s snapshot transient obs (machinesPlanned snapshot type) jobId
  ⟨type, todelete snapshot type, removalSweep agencyPrefix snapshot type, loop.1, loop.2⟩

/-- Whether a round ended by an exception. -/
def Outcome.isAborted : Outcome → Bool
  | .aborted _ => true
  | _ => false

/-- Whether a call of `check` was ended by an exception. -/
def CheckRun.isAborted (run : CheckRun) : Bool :=
  run.rounds.any fun round => round.2.isAborted

/-- The function `Supervision::doChecks`: the three calls of `check`, in their
order; an exception in one of them skips those that follow. -/
def doChecks (s : Settings) (agencyPrefix : String) (snapshot transient : Node)
    (obs : String → Observed) (jobId : Nat) : List CheckRun :=
  let primary := check s agencyPrefix snapshot transient obs jobId "DBServers"
  if primary.isAborted then [primary] else
  let coordinator :=
    check s agencyPrefix snapshot transient obs primary.jobId "Coordinators"
  if coordinator.isAborted then [primary, coordinator] else
  [primary, coordinator,
    check s agencyPrefix snapshot transient obs coordinator.jobId "Singles"]

/-- Whether a round built a persistent report for its server. -/
def Outcome.builtReport : Outcome → Bool
  | .done r => r.changed
  | _ => false

/-- Modelled from the spec: the ids under `/Supervision/Health` once the writes
of one call of `check` are applied to the store (the code of the store is not
at hand). Spec 3: a tuple is applied as a whole; the sweep deletes the keys of
`todelete`, and a persistent report sets the key of its server. `applied`
tells for which servers the persistent report, if one was built, was sent and
applied. -/
def healthIdsAfterCheck (applied : String → Bool) (ids : List String) (run : CheckRun) :
    List String :=
  ids.filter (fun id => !run.todelete.contains id) ++
    (run.rounds.filter fun round => round.2.builtReport && applied round.1).map Prod.fst

/-- Modelled from the spec: the ids under `/Supervision/Health` after a tick of
`doChecks` whose deletions are accepted. -/
def healthIdsAfter (applied : String → Bool) (snapshot : Node) (runs : List CheckRun) :
    List String :=
  runs.foldl (healthIdsAfterCheck applied) ((snapshot.hasAsChildren healthPrefix).1.map Prod.fst)

/-- The ids with an entry under `/Plan/DBServers`, `/Plan/Coordinators` or
`/Plan/Singles`. -/
def plannedIds (snapshot : Node) : List String :=
  ((machinesPlanned snapshot "DBServers") ++ (machinesPlanned snapshot "Coordinators") ++
    (machinesPlanned snapshot "Singles")).map Prod.fst

/-- The id prefix of a role class. -/
def rolePrefixOf (type : String) : String :=
  if type = "DBServers" then "PRMR" else if type = "Coordinators" then "CRDN" else "SNGL"

/-- Whether a call to the agent is a transient write. -/
def AgentCall.isTransient : AgentCall → Bool
  | .transient _ => true
  | _ => false

/-- Whether a call to the agent is a persistent write. -/
def AgentCall.isPersistent : AgentCall → Bool
  | .transient _ => false
  | _ => true

/-- A job envelope as the assertions of lines 523 and 530 demand it: an array
that starts with an object and whose second element, if any, is an object. -/
def wellFormedEnvelope : VPack → Prop
  | .arr (.obj _ :: []) => True
  | .arr (.obj _ :: .obj _ :: _) => True
  | _ => False

/-- Both job constructors yield well-formed envelopes on a snapshot. -/
def Jobs.WellFormed (jobs : Jobs) (snapshot : Node) : Prop :=
  ∀ jobId creator server : String,
    wellFormedEnvelope (jobs.failedServerCreate snapshot jobId creator server) ∧
    wellFormedEnvelope (jobs.activeFailoverCreate snapshot jobId creator server)

/-! ## The upgrade of the agency -/

/-- Modelled from the spec: `planColPrefix` (declared in Agency/Job.h, which is
not at hand); spec 3 gives the path `/Plan/Collections/<db>/<col>`. -/
def planColPrefix : String := "/Plan/Collections/"

mutual
/-- Modelled from the spec: the serialised export of a node (spec 4.1). -/
def Node.toVPack : Node → VPack
  | .value v => v
  | .object cs => .obj (Node.toVPackList cs)
/-- Modelled from the spec: the serialised export of the children of a node. -/
def Node.toVPackList : List (String × Node) → List (String × VPack)
  | [] => []
  | (k, n) :: rest => (k, Node.toVPack n) :: Node.toVPackList rest
end

/-- Modelled from the spec: typed accessor `hasAsSlice`; for an absent path the
value is the none slice, which is no array (written `null` here). -/
def Node.hasAsSlice (n : Node) (path : String) : VPack × Bool :=
  match n.get path with
  | some m => (m.toVPack, true)
  | none => (.null, false)

/-- The function `Supervision::upgradeOne`: the tuples it appends. -/
def upgradeOne (snapshot : Node) : List VPack :=
  if !snapshot.has "Agency/Definition" then
    [.arr [.obj [("/Agency/Definition", .uint 1), ("/Target/ToDo", .obj []),
                 ("/Target/Pending", .obj [])],
           .obj [("/Agency/Definition", .obj [("oldEmpty", .bool true)])]]]
  else []

/-- The calls `fail.copyString()` of line 211 over the elements of the array;
`none` where an element is no string and the call throws. -/
def copyStrings : List VPack → Option (List String)
  | [] => some []
  | .str name :: rest => (copyStrings rest).map fun names => name :: names
  | _ :: _ => none

/-- The function `Supervision::upgradeZero`: the tuples it appends, or `none`
where it throws. -/
def upgradeZero (snapshot : Node) : Option (List VPack) :=
  match (snapshot.hasAsSlice failedServersPrefix).1 with
  | .arr fails =>
    (copyStrings fails).map fun names =>
      [.arr [.obj [(failedServersPrefix, .obj (names.map fun name => (name, .obj [])))]]]
  | _ => some []

/-- Lines 904 to 909 of `resolve`: the string `s`. -/
def prototypeOf (snap : Node) (db col : String) : String :=
  let tmp_n := snap.hasAsNode (planColPrefix ++ db ++ "/" ++ col)
  if tmp_n.2 then (tmp_n.1.hasAsString "distributeShardsLike").1 else ""

/-- The recursive lambda `resolve` of `fixPrototypeChain`, with fuel for the
depth of the recursion; `none` when the fuel runs out. -/
def resolve (snap : Node) (db : String) : Nat → String → Option String
  | 0, _ => none
  | fuel + 1, col =>
    if prototypeOf snap db col = "" then some col
    else resolve snap db fuel (prototypeOf snap db col)

/-- The tuple of lines 923 to 932. -/
def prototypeTuple (db coll u prototype : String) : VPack :=
  .arr [.obj [(planColPrefix ++ db ++ "/" ++ coll ++ "/" ++ "distributeShardsLike", .str u)],
        .obj [(planColPrefix ++ db ++ "/" ++ coll ++ "/" ++ "distributeShardsLike",
          .str prototype)]]

/-- Lines 915 to 935: the body of the inner loop of `fixPrototypeChain` for one
collection; `none` when `resolve` runs out of fuel. -/
def fixCollection (fuel : Nat) (snap : Node) (db : String) (collection : String × Node) :
    Option (List VPack) :=
  if collection.2.has "distributeShardsLike" then
    if (collection.2.hasAsString "distributeShardsLike").1 ≠ "" then
      match resolve snap db fuel (collection.2.hasAsString "distributeShardsLike").1 with
      | none => none
      | some u =>
        if u ≠ (collection.2.hasAsString "distributeShardsLike").1 then
          some [prototypeTuple db collection.1 u
            (collection.2.hasAsString "distributeShardsLike").1]
        else some []
    else some []
  else some []

/-- The outputs of the rounds of a loop, one after the other; `none` if a
round does not return. -/
def concatRounds {α : Type} : List (Option (List α)) → Option (List α)
  | [] => some []
  | none :: _ => none
  | some a :: rest => (concatRounds rest).map fun b => a ++ b

/-- Lines 914 to 936: the inner loop of `fixPrototypeChain` for one database. -/
def fixDatabase (fuel : Nat) (snap : Node) (database : String × Node) : Option (List VPack) :=
  concatRounds (database.2.children.map (fixCollection fuel snap database.1))

/-- The function `Supervision::fixPrototypeChain`: the tuples it appends, or
`none` when the fuel does not suffice for a call of `resolve`. -/
def fixPrototypeChain (fuel : Nat) (snapshot : Node) : Option (List VPack) :=
  concatRounds ((snapshot.hasAsChildren planColPrefix).1.map (fixDatabase fuel snapshot))

/-- Lines 228 to 241: the entries that the loop of `upgradeHealthRecords` adds
to the object of the local builder `b`. The record `hr` is declared before the
loop and is assigned every node in turn. `now` gives the time string for the
record of an id. -/
def upgradeHealthLoop (now : String → String) :
    List (String × Node) → HealthRecord → List (String × VPack)
  | [], _ => []
  | recPair :: rest, hr =>
    if recPair.2.has "ShortName" && recPair.2.has "Endpoint" then
      if (hr.assignNode recPair.2).version = 1 then
        (recPair.1, .obj ((hr.assignNode recPair.2).toVelocyPack (now recPair.1))) ::
          upgradeHealthLoop now rest (hr.assignNode recPair.2)
      else upgradeHealthLoop now rest (hr.assignNode recPair.2)
    else upgradeHealthLoop now rest hr

/-- What `upgradeHealthRecords` has built: the entries of the object of its
local builder `b`, and the tuples appended to the builder it was handed. -/
structure HealthUpgrade where
  records : List (String × VPack)
  appended : List VPack

/-- The function `Supervision::upgradeHealthRecords`. Line 248 adds the slice
of `b` to `b` itself, so the object opened in `builder` at line 247 stays
empty; what that call does to the closed builder `b` is not modelled, and it
is taken not to throw. -/
def upgradeHealthRecords (snapshot : Node) (now : String → String) : HealthUpgrade :=
  let records :=
    if snapshot.has healthPrefix then
      upgradeHealthLoop now (snapshot.hasAsChildren healthPrefix).1 HealthRecord.blank
    else []
  ⟨records, if records.length > 0 then [.arr [.obj []]] else []⟩

/-- Lines 259 to 266 of `Supervision::upgradeAgency`: the tuples of the
envelope, or `none` where a step throws or does not return. -/
def upgradeAgency (fuel : Nat) (snapshot : Node) (now : String → String) :
    Option (List VPack) :=
  match upgradeZero snapshot, fixPrototypeChain fuel snapshot with
  | some zero, some chain =>
    some (zero ++ chain ++ upgradeOne snapshot ++ (upgradeHealthRecords snapshot now).appended)
  | _, _ => none

/-- Lines 271 to 273 of `Supervision::upgradeAgency`: the envelope handed to
`generalTransaction`, if any. -/
def upgradeTransaction (fuel : Nat) (snapshot : Node) (now : String → String) :
    Option VPack :=
  match upgradeAgency fuel snapshot now with
  | some tuples => if tuples.length > 0 then some (.arr tuples) else none
  | none => none

/-! ## The status report -/

/-- The function `Supervision::reportStatus`: its calls to the agent; `now` is
the time string of line 614. -/
def reportStatus (snapshot : Node) (status now : String) : List AgentCall :=
  let persist := decide ((snapshot.hasAsString "/Supervision/State/Mode").1 ≠ status)
  let report : VPack :=
    .arr [.obj [("/Supervision/State",
      .obj [("Mode", .str status), ("Timestamp", .str now)])]]
  (if status ≠ "Maintenance" then [AgentCall.transient report] else []) ++
    (if persist then [AgentCall.singleWriteTransaction report] else [])

/-! ## Observations on outcomes, and the spec's wording of the single role -/

/-- The calls to the agent made for one server, however the body ended. -/
def Outcome.calls : Outcome → List AgentCall
  | .skipped => []
  | .aborted calls => calls
  | .done r => r.calls

/-- The value that a transaction handed to `singleWriteTransaction` sets at
`key` in its operations object. -/
def writtenAt (key : String) : AgentCall → Option VPack
  | .singleWriteTransaction (.arr (.obj ops :: _)) => ops.lookup key
  | _ => none

/-- The `Status` entry of a serialised health record. -/
def statusOf : VPack → Option String
  | .obj kvs =>
    match kvs.lookup "Status" with
    | some (.str st) => some st
    | _ => none
  | _ => none

/-- The statuses that the persistent writes of one round set in the health
record of `serverID`, in the order of the writes. -/
def Outcome.persistedStatuses (out : Outcome) (serverID : String) : List String :=
  out.calls.filterMap fun c => (writtenAt (healthPrefix ++ serverID) c).bind statusOf

/-- One round of `check` for `serverID` that finds the persisted status `p`
and sends a persistent write setting the status `w`. -/
def tickWrites (serverID p w : String) : Prop :=
  ∃ (s : Settings) (snapshot transient : Node) (jobId : Nat) (shortName : String)
    (o : Observed),
    snapshot.hasAsString (targetShortID ++ serverID ++ "/ShortName") = (shortName, true) ∧
    (loadRecords snapshot transient serverID shortName).2.status = p ∧
    w ∈ (checkMachine s snapshot transient jobId serverID o).persistedStatuses serverID

/-- The persisted status of `serverID` from one round to the next: it stays,
or it becomes what the round wrote. -/
def statusStep (serverID p q : String) : Prop :=
  q = p ∨ tickWrites serverID p q

/-- The order of the three statuses by severity. -/
def severity (st : String) : Nat :=
  if st = HEALTH_STATUS_GOOD then 0 else if st = HEALTH_STATUS_BAD then 1 else 2

/-- The spec's wording for the single role, on envelopes: an ActiveFailover
job where the DB server path builds a FailedServer job. -/
def asActiveFailover : Envelope → Envelope
  | .failedServer jobId creator server => .activeFailover jobId creator server
  | e => e

/-- The spec's wording for the single role: as DB server, but builds an
ActiveFailover job instead of FailedServer. -/
def handleOnStatusSingleSpec (snapshot : Node) (persisted transisted : HealthRecord)
    (serverID : String) (jobId : Nat) : StatusAction :=
  let a := handleOnStatusDBServer snapshot persisted transisted serverID jobId
  { a with envelope := a.envelope.map asActiveFailover }

/-- The persistent record of a round that ran to its end. -/
def Outcome.persisted : Outcome → Option HealthRecord
  | .done r => some r.persist
  | _ => none

/-- The first non-empty string of a list, or the empty string. -/
def firstNonEmpty : List String → String
  | [] => ""
  | x :: rest => if x = "" then firstNonEmpty rest else x

/-- The chain of `distributeShardsLike` that starts at collection `col` of
database `db` ends at `e`: `e` is the first collection reached that is missing
or has no or an empty `distributeShardsLike`. -/
inductive ChainEnd (snap : Node) (db : String) : String → String → Prop where
  | stop (col : String) (h : prototypeOf snap db col = "") : ChainEnd snap db col col
  | step (col e : String) (h : prototypeOf snap db col ≠ "")
      (rest : ChainEnd snap db (prototypeOf snap db col) e) : ChainEnd snap db col e

/-- The tuples the spec asks of `fixPrototypeChain` for one collection, given
the end `endOf db p` of the chain of every prototype `p`: for a collection
whose non-empty `distributeShardsLike` value differs from the end of its
chain, one tuple whose operations set
`/Plan/Collections/<db>/<collection>/distributeShardsLike` to that end and
whose preconditions ask that the same key holds the old value. -/
def expectedTuples (endOf : String → String → String) (db : String)
    (collection : String × Node) : List VPack :=
  if collection.2.has "distributeShardsLike" = true ∧
      (collection.2.hasAsString "distributeShardsLike").1 ≠ "" ∧
      endOf db (collection.2.hasAsString "distributeShardsLike").1 ≠
        (collection.2.hasAsString "distributeShardsLike").1 then
    [.arr [
      .obj [("/Plan/Collections/" ++ db ++ "/" ++ collection.1 ++ "/distributeShardsLike",
        .str (endOf db (collection.2.hasAsString "distributeShardsLike").1))],
      .obj [("/Plan/Collections/" ++ db ++ "/" ++ collection.1 ++ "/distributeShardsLike",
        .str (collection.2.hasAsString "distributeShardsLike").1)]]]
  else []

/-- The tuples the spec asks of `fixPrototypeChain` for a plan. -/
def expectedChainFix (endOf : String → String → String) (snapshot : Node) : List VPack :=
  ((snapshot.hasAsChildren planColPrefix).1.map fun database =>
    (database.2.children.map (expectedTuples endOf database.1)).flatten).flatten

/-! ## Shutdown and the reservation of job ids -/

/-- Modelled from the spec: typed accessor `hasAsBool`; the value is `false`
when the path is absent or does not hold a boolean. -/
def Node.hasAsBool (n : Node) (path : String) : Bool × Bool :=
  match n.get path with
  | some (.value (.bool b)) => (b, true)
  | _ => (false, false)

/-- Modelled from the spec: typed accessor `hasAsUInt`; the value is `0` when
the path is absent or does not hold an unsigned integer. -/
def Node.hasAsUInt (n : Node) (path : String) : Nat × Bool :=
  match n.get path with
  | some (.value (.uint k)) => (k, true)
  | _ => (0, false)

mutual
/-- Modelled from the spec: the tree that the store holds after a value was
written at a path (spec 3: values are structured); an object becomes an inner
node with one child for every key. -/
def Node.ofVPack : VPack → Node
  | .obj kvs => .object (Node.ofVPackList kvs)
  | .null => .value .null
  | .bool b => .value (.bool b)
  | .uint k => .value (.uint k)
  | .str s => .value (.str s)
  | .arr xs => .value (.arr xs)
/-- Modelled from the spec: the children stored for the entries of an
object. -/
def Node.ofVPackList : List (String × VPack) → List (String × Node)
  | [] => []
  | (k, v) :: rest => (k, Node.ofVPack v) :: Node.ofVPackList rest
end

/-- The function `Supervision::isShuttingDown`. -/
def isShuttingDown (snapshot : Node) : Bool :=
  (snapshot.hasAsBool "Shutdown").1

/-- The function `Supervision::serverHealth`. -/
def serverHealth (snapshot : Node) (serverName : String) : String :=
  let serverStatus := healthPrefix ++ serverName ++ "/Status"
  if snapshot.has serverStatus then (snapshot.hasAsString serverStatus).1 else ""

/-- Lines 753 to 768 of `handleShutdown`: the flag `serversCleared` after the
loop over the registered servers. -/
def serversCleared (snapshot : Node) : Bool :=
  (snapshot.hasAsChildren currentServersRegisteredPrefix).1.foldl
    (fun cleared server =>
      if server.1 = "Version" then cleared
      else if serverHealth snapshot server.1 ≠ HEALTH_STATUS_GOOD then cleared
      else false)
    true

/-- The transaction built at lines 772 to 778. -/
def shutdownDeletion (agencyPrefix : String) : VPack :=
  .arr [.arr [.obj [(agencyPrefix ++ "/Shutdown", .obj [("op", .str "delete")])]]]

/-- What one call of `handleShutdown` has done: the member `_selfShutdown` on
return and the calls to the agent. -/
structure ShutdownRun where
  selfShutdown : Bool
  calls : List AgentCall

/-- The function `Supervision::handleShutdown`; `leading` is what
`_agent->leading()` answers at line 771. The wait for the written index sends
nothing. -/
def handleShutdown (agencyPrefix : String) (snapshot : Node) (leading : Bool) :
    ShutdownRun :=
  ⟨true,
    if serversCleared snapshot then
      if leading then [.write (shutdownDeletion agencyPrefix)] else []
    else []⟩

/-- The reply `trans_ret_t` of the agent to `transact`, with the slice of its
result builder. -/
structure trans_ret_t where
  accepted : Bool
  result : VPack

/-- The access `slice[i]`: `none` where it throws, on a value that is no array
or for an index out of range. -/
def VPack.at? : VPack → Nat → Option VPack
  | .arr xs, i => xs.get? i
  | _, _ => none

/-- The access `slice.get(attributes)` along a list of keys; `none` where it
throws or yields the none slice, on which `getUInt` throws. -/
def VPack.getPath : VPack → List String → Option VPack
  | v, [] => some v
  | .obj kvs, k :: ks =>
    match kvs.lookup k with
    | some v => v.getPath ks
    | none => none
  | _, _ :: _ => none

/-- The access `slice.getUInt()`; `none` where it throws. A slice of type UInt
holds a value below `2 ^ 64`. -/
def VPack.getUInt : VPack → Option Nat
  | .uint k => some k
  | _ => none

/-- The members `_jobId` and `_jobIdMax`. -/
structure Counter where
  jobId : Nat
  jobIdMax : Nat
  deriving DecidableEq, Repr

/-- Lines 1046 to 1061 of `getUniqueIds`: the query handed to `transact`. -/
def uniqueIdsQuery (agencyPrefix : String) : VPack :=
  let path := agencyPrefix ++ "/Sync/LatestID"
  .arr [.arr [.obj [(path, .obj [("op", .str "increment"), ("step", .uint 10000)])]],
        .arr [.str path]]

/-- Lines 1066 to 1068: the value read from the result, `none` where one of
the three accesses throws. -/
def latestId (result : VPack) : Option Nat :=
  ((result.at? 1).bind fun v => v.getPath ["arango", "Sync", "LatestID"]).bind
    VPack.getUInt

/-- Lines 1064 to 1075 of `getUniqueIds`: the two counters after the reply
`ret` of the agent. The subtraction of line 1069 is the one of `uint64_t`. -/
def getUniqueIds (c : Counter) (ret : trans_ret_t) : Counter :=
  if ret.accepted then
    match latestId ret.result with
    | some v => ⟨(v + (2 ^ 64 - 10000)) % 2 ^ 64, v⟩
    | none => c
  else c

/-- Modelled from the spec: the value `inner` wrapped in one object for every
segment of a path, as the store answers a read of that path. -/
def nestPath : List String → VPack → VPack
  | [], inner => inner
  | k :: ks, inner => .obj [(k, nestPath ks inner)]

/-- Modelled from the spec: the result of the store for the query of
`getUniqueIds` when the counter is `v` after the increment: the index of the
write, then the tree read at `agencyPrefix ++ "/Sync/LatestID"`. -/
def latestIdReply (agencyPrefix : String) (index v : Nat) : VPack :=
  .arr [.uint index, nestPath (splitPath (agencyPrefix ++ "/Sync/LatestID")) (.uint v)]

/-! ## The jobs started by `handleJobs` -/

/-- Modelled from the spec: `toDoPrefix` (declared in Agency/Job.h, which is
not at hand); spec 3 gives the path `/Target/ToDo/<jobId>`. -/
def toDoPrefix : String := "/Target/ToDo/"

/-- Modelled from the spec: `pendingPrefix`; spec 3 gives the path
`/Target/Pending/<jobId>`. -/
def pendingPrefix : String := "/Target/Pending/"

/-- What `shrinkCluster` and `enforceReplication` use of Agency/Job.h and
Agency/Job.cpp, which are not at hand, taken as parameters: the function
`Job::availableServers` and the constant `blockedShardsPrefix`. -/
structure JobEnv where
  availableServers : Node → List String
  blockedShardsPrefix : String

/-- The job classes that `handleJobs` constructs, with the arguments that
follow the creator. -/
inductive JobKind where
  | addFollower (database collection shard : String) : JobKind
  | removeFollower (database collection shard : String) : JobKind
  | cleanOutServer (server : String) : JobKind
  deriving DecidableEq, Repr

/-- A job constructed and run: `AddFollower(_snapshot, _agent, jobId, creator,
...).run()` and its likes. The code of the job classes is not at hand; what
`run` does is not modelled. -/
structure JobStart where
  kind : JobKind
  jobId : String
  creator : String
  deriving DecidableEq, Repr

/-- What a piece of `handleJobs` has done: the jobs started, in their order,
the member `_jobId` at its end, and whether it was ended by an exception. -/
structure JobRun where
  jobs : List JobStart
  jobId : Nat
  threw : Bool

/-- A `for` loop whose rounds pass on `_jobId`; a round that throws ends the
loop. -/
def runRounds {α : Type} (body : α → Nat → JobRun) : List α → Nat → JobRun
  | [], jobId => ⟨[], jobId, false⟩
  | x :: rest, jobId =>
    if (body x jobId).threw then body x jobId
    else
      ⟨(body x jobId).jobs ++ (runRounds body rest (body x jobId).jobId).jobs,
        (runRounds body rest (body x jobId).jobId).jobId,
        (runRounds body rest (body x jobId).jobId).threw⟩

/-- The call `slice.length()`; `none` where it throws, on a value that is
neither an array nor an object. -/
def VPack.length? : VPack → Option Nat
  | .arr xs => some xs.length
  | .obj kvs => some kvs.length
  | _ => none

/-- Lines 857 to 877 of `enforceReplication`: the flag `found` for a shard. -/
def shardFound (env : JobEnv) (snapshot : Node) (shard : String) : Bool :=
  ((snapshot.hasAsChildren toDoPrefix).1.any fun pair =>
    ((pair.2.hasAsString "type").1 == "addFollower" ||
      (pair.2.hasAsString "type").1 == "removeFollower" ||
      (pair.2.hasAsString "type").1 == "moveShard") &&
    (pair.2.hasAsString "shard").1 == shard) ||
  snapshot.has (env.blockedShardsPrefix ++ shard)

/-- Lines 851 to 889: the body of the loop over the planned shards of a
collection. `_jobId++` wraps at `2 ^ 64`. -/
def enforceShard (env : JobEnv) (snapshot : Node) (replicationFactor : Nat)
    (db col : String) (shard_ : String × Node) (jobId : Nat) : JobRun :=
  match shard_.2.toVPack.length? with
  | none => ⟨[], jobId, true⟩
  | some actualReplicationFactor =>
    if actualReplicationFactor ≠ replicationFactor then
      if !shardFound env snapshot shard_.1 then
        if actualReplicationFactor < replicationFactor then
          ⟨[⟨.addFollower db col shard_.1, toString jobId, "supervision"⟩],
            (jobId + 1) % 2 ^ 64, false⟩
        else
          ⟨[⟨.removeFollower db col shard_.1, toString jobId, "supervision"⟩],
            (jobId + 1) % 2 ^ 64, false⟩
      else ⟨[], jobId, false⟩
    else ⟨[], jobId, false⟩

/-- Lines 832 to 845: the replication factor that a collection asks for. -/
def wantedReplicationFactor (env : JobEnv) (snapshot : Node) (col : Node) : Nat :=
  if (col.hasAsUInt "replicationFactor").1 = 0 then (env.availableServers snapshot).length
  else (col.hasAsUInt "replicationFactor").1

/-- Lines 830 to 891: the body of the loop over the planned collections of a
database. -/
def enforceCollection (env : JobEnv) (snapshot : Node) (db : String)
    (col_ : String × Node) (jobId : Nat) : JobRun :=
  if (col_.2.hasAsUInt "replicationFactor").2 then
    if !col_.2.has "distributeShardsLike" then
      runRounds
        (enforceShard env snapshot (wantedReplicationFactor env snapshot col_.2) db col_.1)
        (col_.2.hasAsChildren "shards").1 jobId
    else ⟨[], jobId, false⟩
  else ⟨[], jobId, false⟩

/-- Lines 828 to 892: the body of the loop over the planned databases. -/
def enforceDatabase (env : JobEnv) (snapshot : Node) (db_ : String × Node)
    (jobId : Nat) : JobRun :=
  runRounds (enforceCollection env snapshot db_.1) db_.2.children jobId

/-- The function `Supervision::enforceReplication`. -/
def enforceReplication (env : JobEnv) (snapshot : Node) (jobId : Nat) : JobRun :=
  runRounds (enforceDatabase env snapshot) (snapshot.hasAsChildren planColPrefix).1 jobId

/-- Lines 989 to 1002 of `shrinkCluster`: the loop over the collections of one
database, from the maximum so far; `none` where the function returns. -/
def maxReplCollections : List (String × Node) → Nat → Option Nat
  | [], maxReplFact => some maxReplFact
  | collptr :: rest, maxReplFact =>
    if (collptr.2.hasAsUInt "replicationFactor").2 then
      if (collptr.2.hasAsUInt "replicationFactor").1 > maxReplFact then
        maxReplCollections rest (collptr.2.hasAsUInt "replicationFactor").1
      else maxReplCollections rest maxReplFact
    else none

/-- Lines 988 to 1003 of `shrinkCluster`: the loop over the databases. -/
def maxReplDatabases : List (String × Node) → Nat → Option Nat
  | [], maxReplFact => some maxReplFact
  | database :: rest, maxReplFact =>
    match maxReplCollections database.2.children maxReplFact with
    | some larger => maxReplDatabases rest larger
    | none => none

/-- The order of `std::string`: the lexicographic order of the bytes, which
for UTF-8 is the lexicographic order of the code points. -/
def StrLe (a b : String) : Prop := a.data ≤ b.data

instance StrLe.decidable : DecidableRel StrLe :=
  fun a b => inferInstanceAs (Decidable (a.data ≤ b.data))

/-- The call `std::sort(availServers.begin(), availServers.end())`: the
sorted rearrangement of the vector. -/
def sortServers (availServers : List String) : List String :=
  availServers.insertionSort StrLe

/-- The function `Supervision::shrinkCluster`. The call `back()` is made on a
vector with more than `maxReplFact` elements, so it has a last element. -/
def shrinkCluster (env : JobEnv) (snapshot : Node) (jobId : Nat) : JobRun :=
  if !(snapshot.hasAsChildren toDoPrefix).1.isEmpty ||
      !(snapshot.hasAsChildren pendingPrefix).1.isEmpty then ⟨[], jobId, false⟩
  else if (snapshot.hasAsUInt "/Target/NumberOfDBServers").2 then
    if (snapshot.hasAsUInt "/Target/NumberOfDBServers").1 <
        (env.availableServers snapshot).length then
      if (env.availableServers snapshot).length = 1 then ⟨[], jobId, false⟩
      else
        match maxReplDatabases (snapshot.hasAsChildren planColPrefix).1 1 with
        | none => ⟨[], jobId, false⟩
        | some maxReplFact =>
          if maxReplFact < (env.availableServers snapshot).length then
            if (env.availableServers snapshot).length > maxReplFact ∧
                (env.availableServers snapshot).length >
                  (snapshot.hasAsUInt "/Target/NumberOfDBServers").1 then
              match (sortServers (env.availableServers snapshot)).getLast? with
              | some server =>
                ⟨[⟨.cleanOutServer server, toString jobId, "supervision"⟩],
                  (jobId + 1) % 2 ^ 64, false⟩
              | none => ⟨[], jobId, false⟩
            else ⟨[], jobId, false⟩
          else ⟨[], jobId, false⟩
    else ⟨[], jobId, false⟩
  else ⟨[], jobId, false⟩

/-! ## One tick of `Supervision::run`, and the steps of a leader term -/

/-- What one round of the main loop of `run` reads: `_snapshot` as the round
finds it and as `updateSnapshot` leaves it, the members `_selfShutdown`,
`_jobId`, `_jobIdMax` and `_upgraded`, and the answers of the agent to
`leading()`, `getPrepareLeadership()` and `leaderFor()`. -/
structure TickView where
  snapshot : Node
  refreshed : Node
  selfShutdown : Bool
  leading : Bool
  prepareLeadership : Nat
  leaderFor : Int
  counter : Counter
  upgraded : Bool

/-- The member functions that a round of the main loop calls. -/
inductive TickStep where
  | handleShutdown : TickStep
  | getUniqueIds : TickStep
  | updateSnapshot : TickStep
  | reportStatus (status : String) : TickStep
  | upgradeAgency : TickStep
  | doChecks : TickStep
  | handleJobs : TickStep
  deriving DecidableEq, Repr

/-- Lines 674 to 720 of `run`: the calls of one round of the main loop, in
their order, and whether the round leaves the loop by `break`. -/
def runTick (v : TickView) : List TickStep × Bool :=
  if !isShuttingDown v.snapshot && v.selfShutdown then ([], true)
  else
    ((if isShuttingDown v.snapshot then [TickStep.handleShutdown] else []) ++
      (if v.leading && v.prepareLeadership == 0 then
        (if v.counter.jobId == 0 || v.counter.jobId == v.counter.jobIdMax then
          [TickStep.getUniqueIds] else []) ++
        [TickStep.updateSnapshot] ++
        (if !v.refreshed.has "Supervision/Maintenance" then
          [TickStep.reportStatus "Normal"] ++
          (if !v.upgraded then [TickStep.upgradeAgency] else []) ++
          (if v.leaderFor > 10 then [TickStep.doChecks] else []) ++
          [TickStep.handleJobs]
        else [TickStep.reportStatus "Maintenance"])
      else []),
    false)

/-- The test of line 540 on the reply to the persistent write of a round of
`check` that is not stopping. -/
def Observed.applied (o : Observed) : Bool :=
  !o.stopping && o.res.accepted &&
    (match o.res.indices with
     | front :: _ => front != 0
     | [] => false)

/-- The job id in an envelope that a job constructor filled. -/
def Envelope.jobId? : Envelope → Option String
  | .deleteFailedServer _ => none
  | .failedServer jobId _ _ => some jobId
  | .activeFailover jobId _ _ => some jobId

/-- The ids of the jobs that the rounds of `check` created: the round ran to
its end, its envelope was filled by a job constructor, and the persistent
write that carried it was applied. -/
def bookedJobs (obs : String → Observed) (rounds : List (String × Outcome)) : List String :=
  rounds.filterMap fun round =>
    match round.2 with
    | .done r =>
      if r.changed && (obs round.1).applied then r.envelope.bind Envelope.jobId? else none
    | _ => none

/-- A step of the supervisor that reads or moves `_jobId`: the reservation of
lines 687 to 689 with the reply of the agent, a call of `check`, of
`shrinkCluster` or of `enforceReplication`, each with what it reads. -/
inductive TermStep where
  | reserve (ret : trans_ret_t) : TermStep
  | check (s : Settings) (agencyPrefix : String) (snapshot transient : Node)
      (obs : String → Observed) (type : String) : TermStep
  | shrink (env : JobEnv) (snapshot : Node) : TermStep
  | enforce (env : JobEnv) (snapshot : Node) : TermStep

/-- What a step has done: the ids of the jobs it created, the two counters at
its end, and whether an exception ended it that `run` does not catch. -/
structure StepRun where
  ids : List String
  counter : Counter
  threw : Bool

/-- The effect of one step on the counters. -/
def runStep (c : Counter) : TermStep → StepRun
  | .reserve ret =>
    ⟨[], if c.jobId == 0 || c.jobId == c.jobIdMax then getUniqueIds c ret else c, false⟩
  | .check s agencyPrefix snapshot transient obs type =>
    ⟨bookedJobs obs (check s agencyPrefix snapshot transient obs c.jobId type).rounds,
      ⟨(check s agencyPrefix snapshot transient obs c.jobId type).jobId, c.jobIdMax⟩, false⟩
  | .shrink env snapshot =>
    ⟨(shrinkCluster env snapshot c.jobId).jobs.map JobStart.jobId,
      ⟨(shrinkCluster env snapshot c.jobId).jobId, c.jobIdMax⟩, false⟩
  | .enforce env snapshot =>
    ⟨(enforceReplication env snapshot c.jobId).jobs.map JobStart.jobId,
      ⟨(enforceReplication env snapshot c.jobId).jobId, c.jobIdMax⟩,
      (enforceReplication env snapshot c.jobId).threw⟩

/-- The steps of a leader term, one after the other; an exception that `run`
does not catch ends the thread. -/
def runSteps : Counter → List TermStep → List StepRun
  | _, [] => []
  | c, step :: rest =>
    runStep c step ::
      (if (runStep c step).threw then [] else runSteps (runStep c step).counter rest)

/-- The ids of all jobs created by a sequence of steps. -/
def termIds (c : Counter) (steps : List TermStep) : List String :=
  ((runSteps c steps).map StepRun.ids).flatten

/-- The values of `_jobId` along a sequence of steps, from the first on. -/
def termJobIds (c : Counter) (steps : List TermStep) : List Nat :=
  c.jobId :: (runSteps c steps).map fun run => run.counter.jobId

/-- The most increments of `_jobId` that a step can make. -/
def stepBound (c : Counter) : TermStep → Nat
  | .reserve _ => 0
  | .check _ _ snapshot _ _ type => (machinesPlanned snapshot type).length
  | .shrink _ _ => 1
  | .enforce env snapshot => (enforceReplication env snapshot c.jobId).jobs.length

/-- The reply to a reservation comes from a store whose `LatestID` only grows:
an accepted reply that can be read holds a value that is at least the last
reserved maximum plus the step, and is a `uint64_t`. -/
def replyGrows (c : Counter) : TermStep → Prop
  | .reserve ret =>
    ret.accepted = true → ∀ v, latestId ret.result = some v →
      c.jobIdMax + 10000 ≤ v ∧ v < 2 ^ 64
  | _ => True

/-- The environment of a sequence of steps is sound: every reply to a
reservation grows, and no step drives `_jobId` to `2 ^ 64`. -/
def TermSafe : Counter → List TermStep → Prop
  | _, [] => True
  | c, step :: rest =>
    replyGrows c step ∧ c.jobId + stepBound c step < 2 ^ 64 ∧
      TermSafe (runStep c step).counter rest

/-! ## The spec's wording of replication enforcement and of shrinking -/

/-- A shard of the plan with the database and collection it belongs to, the
node of the collection and the node that holds its planned servers. -/
structure PlannedShard where
  database : String
  collection : String
  col : Node
  shard : String
  servers : Node

/-- The shards of a collection of the plan. -/
def collectionShards (db : String) (col_ : String × Node) : List PlannedShard :=
  (col_.2.hasAsChildren "shards").1.map fun shard_ =>
    ⟨db, col_.1, col_.2, shard_.1, shard_.2⟩

/-- The shards of a database of the plan. -/
def databaseShards (db_ : String × Node) : List PlannedShard :=
  (db_.2.children.map (collectionShards db_.1)).flatten

/-- All shards of the plan, in the order of the databases, collections and
shards. -/
def plannedShards (snapshot : Node) : List PlannedShard :=
  ((snapshot.hasAsChildren planColPrefix).1.map databaseShards).flatten

/-- The collection has a `replicationFactor` and no `distributeShardsLike`. -/
def PlannedShard.enforced (x : PlannedShard) : Bool :=
  (x.col.hasAsUInt "replicationFactor").2 && !x.col.has "distributeShardsLike"

/-- The length `A` of the planned server list of the shard. -/
def PlannedShard.actual (x : PlannedShard) : Nat :=
  (x.servers.toVPack.length?).getD 0

/-- The number `R`: the replication factor, or the number of available servers
when the replication factor is 0. -/
def PlannedShard.wanted (env : JobEnv) (snapshot : Node) (x : PlannedShard) : Nat :=
  if (x.col.hasAsUInt "replicationFactor").1 = 0 then (env.availableServers snapshot).length
  else (x.col.hasAsUInt "replicationFactor").1

/-- The shard names that the addFollower, removeFollower and moveShard jobs in
ToDo target, one entry for every such job. -/
def todoTargets (snapshot : Node) : List String :=
  ((snapshot.hasAsChildren toDoPrefix).1.filter fun pair =>
    (pair.2.hasAsString "type").1 == "addFollower" ||
      (pair.2.hasAsString "type").1 == "removeFollower" ||
      (pair.2.hasAsString "type").1 == "moveShard").map
    fun pair => (pair.2.hasAsString "shard").1

/-- The spec's condition for a job on a shard. -/
def PlannedShard.needsJob (env : JobEnv) (snapshot : Node) (x : PlannedShard) : Bool :=
  x.enforced && x.actual != x.wanted env snapshot &&
    !decide (x.shard ∈ todoTargets snapshot) &&
    !snapshot.has (env.blockedShardsPrefix ++ x.shard)

/-- The spec's choice of the job for a shard that needs one. -/
def PlannedShard.expectedKind (env : JobEnv) (snapshot : Node) (x : PlannedShard) :
    JobKind :=
  if x.actual < x.wanted env snapshot then
    .addFollower x.database x.collection x.shard
  else .removeFollower x.database x.collection x.shard

/-- The jobs that the spec asks of `enforceReplication`, in the order of the
plan. -/
def expectedJobs (env : JobEnv) (snapshot : Node) : List JobKind :=
  ((plannedShards snapshot).filter (PlannedShard.needsJob env snapshot)).map
    (PlannedShard.expectedKind env snapshot)

/-- The shard that a job targets, if it is a job on a shard. -/
def JobKind.shard? : JobKind → Option String
  | .addFollower _ _ shard => some shard
  | .removeFollower _ _ shard => some shard
  | .cleanOutServer _ => none

/-- The shard names targeted by the jobs in ToDo together with those targeted
by the jobs that a run has started. -/
def targetsAfter (snapshot : Node) (run : JobRun) : List String :=
  todoTargets snapshot ++ run.jobs.filterMap fun job => job.kind.shard?

/-- The collections of the plan. -/
def plannedCollections (snapshot : Node) : List (String × Node) :=
  ((snapshot.hasAsChildren planColPrefix).1.map fun database => database.2.children).flatten

/-- The spec's `maxReplFactor`: the largest replication factor among the
planned collections, and at least 1. -/
def maxReplFactor (snapshot : Node) : Nat :=
  ((plannedCollections snapshot).map fun col => (col.2.hasAsUInt "replicationFactor").1).foldl
    max 1

/-- The spec's condition for shrinking, with `n` the number of available
servers. -/
def shrinkWanted (env : JobEnv) (snapshot : Node) : Prop :=
  (snapshot.hasAsChildren toDoPrefix).1 = [] ∧ (snapshot.hasAsChildren pendingPrefix).1 = [] ∧
  (snapshot.hasAsUInt "/Target/NumberOfDBServers").2 = true ∧
  (env.availableServers snapshot).length > (snapshot.hasAsUInt "/Target/NumberOfDBServers").1 ∧
  (env.availableServers snapshot).length > 1 ∧
  (env.availableServers snapshot).length > maxReplFactor snapshot

/-- The jobs of a run carry the consecutive values of `_jobId` from `j` on,
each consumes one value, and the creator is the supervision. -/
def JobRun.Numbered (j : Nat) (run : JobRun) : Prop :=
  run.jobs.map JobStart.jobId =
    (List.range run.jobs.length).map (fun i => toString ((j + i) % 2 ^ 64)) ∧
  run.jobId = (j + run.jobs.length) % 2 ^ 64 ∧
  ∀ job ∈ run.jobs, job.creator = "supervision"

/-- The number that a string of decimal digits denotes. -/
def decimalValue (str : String) : Nat :=
  str.data.foldl (fun acc c => acc * 10 + (c.toNat - 48)) 0

/-- The two counters after a sequence of steps. -/
def termCounter (c : Counter) (steps : List TermStep) : Counter :=
  (runSteps c steps).foldl (fun _ run => run.counter) c

/-- The number lies in the batch reserved last: from `jobIdMax - 10000` up to,
but not including, `jobIdMax`. -/
def Counter.inBatch (c : Counter) (n : Nat) : Prop :=
  c.jobIdMax - 10000 ≤ n ∧ n < c.jobIdMax

instance Counter.inBatch.decidable (c : Counter) (n : Nat) : Decidable (c.inBatch n) :=
  inferInstanceAs (Decidable (_ ∧ _))

/-! ## The store, as far as the upgrade writes to it -/

/-- Modelled from the spec: the children of an inner node after a child was
written under the name `k`: the entry of that name is replaced in its place,
or a new entry is added at the end (spec 4.1: the children are an ordered
mapping from names to nodes). -/
def setChild (k : String) (c : Node) : List (String × Node) → List (String × Node)
  | [] => [(k, c)]
  | entry :: rest =>
    if entry.1 = k then (k, c) :: rest else entry :: setChild k c rest

/-- Modelled from the spec: the tree after the node `v` was written at a path
of segments; inner nodes that are missing on the way are created, and a leaf on
the way is replaced by an inner node. -/
def Node.setSegs : List String → Node → Node → Node
  | [], _, v => v
  | k :: ks, n, v =>
    .object (setChild k (Node.setSegs ks ((n.children.lookup k).getD (.object [])) v)
      n.children)

/-- Modelled from the spec: the operation `set(path, value)` of spec 4.2. -/
def Node.set (n : Node) (path : String) (value : VPack) : Node :=
  Node.setSegs (splitPath path) n (Node.ofVPack value)

/-- Whether the value of an entry of an operations object names an operation
(`delete`, `increment` and their likes) instead of a value to set. -/
def VPack.isOperation : VPack → Bool
  | .obj kvs => (kvs.lookup "op").isSome
  | _ => false

/-- Modelled from the spec: the store after the entries of an operations
object were applied in their order. Only `set` is modelled; the result is
`none` for an entry that names an operation. -/
def applyOps : Node → List (String × VPack) → Option Node
  | n, [] => some n
  | n, entry :: rest =>
    if entry.2.isOperation then none else applyOps (n.set entry.1 entry.2) rest

/-- Modelled from the spec: whether a precondition holds on the store. The
preconditions modelled are `old_empty(path)`, written `{"oldEmpty": b}`, and
`eq(path, value)` for a string, written as the plain string; any other
precondition counts as failed. -/
def holdsPrecondition (n : Node) (prec : String × VPack) : Bool :=
  match prec.2 with
  | .obj [(k, .bool b)] => k == "oldEmpty" && (n.has prec.1 != b)
  | .str old => (n.hasAsString prec.1).2 && (n.hasAsString prec.1).1 == old
  | _ => false

/-- Modelled from the spec: the store after one tuple of an envelope, `none`
when the tuple is not applied (spec 3: a tuple is applied atomically and only
if all its preconditions hold). -/
def applyTuple (n : Node) : VPack → Option Node
  | .arr [.obj ops] => applyOps n ops
  | .arr (.obj ops :: .obj precs :: _) =>
    if precs.all (holdsPrecondition n) then applyOps n ops else none
  | _ => none

/-- Modelled from the spec: the store after every tuple of an envelope was
applied in its order; `none` if one of them is not applied. -/
def applyEnvelope : Node → List VPack → Option Node
  | n, [] => some n
  | n, tuple :: rest =>
    match applyTuple n tuple with
    | some m => applyEnvelope m rest
    | none => none

/-- The string held at a path of segments, or the empty string. -/
def Node.strAt (n : Node) (segs : List String) : String :=
  match n.getSegs segs with
  | some (.value (.str s)) => s
  | _ => ""

/-- Modelled from the spec: the names under `/Plan/Collections` are names of
a tree of maps: the databases carry pairwise different names, so do the
collections of a database, and every name is one path segment (not empty and
without a separator). -/
def PlanKeyed (n : Node) : Prop :=
  ((n.hasAsChildren planColPrefix).1.map Prod.fst).Nodup ∧
  ∀ database ∈ (n.hasAsChildren planColPrefix).1,
    splitPath database.1 = [database.1] ∧
    (database.2.children.map Prod.fst).Nodup ∧
    ∀ collection ∈ database.2.children, splitPath collection.1 = [collection.1]

instance PlanKeyed.decidable (n : Node) : Decidable (PlanKeyed n) :=
  inferInstanceAs (Decidable
    (((n.hasAsChildren planColPrefix).1.map Prod.fst).Nodup ∧
      ∀ database ∈ (n.hasAsChildren planColPrefix).1,
        splitPath database.1 = [database.1] ∧
        (database.2.children.map Prod.fst).Nodup ∧
        ∀ collection ∈ database.2.children, splitPath collection.1 = [collection.1]))

/-- The segments of the path of the `distributeShardsLike` entry of collection
`col` of database `db`. -/
def dslPath (db col : String) : List String :=
  "Plan" :: "Collections" :: (splitPath db ++ splitPath col ++ ["distributeShardsLike"])

/-- The names of the children of a node. -/
def Node.keys (n : Node) : List String :=
  n.children.map Prod.fst

/-- A tuple that sets the key `path` to the string `new` under the
precondition that it holds the string `old`. -/
def rewriteTuple (path new old : String) : VPack :=
  .arr [.obj [(path, .str new)], .obj [(path, .str old)]]

/-! ## Sample data -/

/-- A blank record with status `BAD`. -/
def recBad : HealthRecord := { HealthRecord.blank with status := "BAD" }

/-- A blank record with status `FAILED`. -/
def recFailed : HealthRecord := { HealthRecord.blank with status := "FAILED" }

/-- Sample job constructors: a FailedServer job with operations and
preconditions, an ActiveFailover job with operations only. -/
def sampleJobs : Jobs :=
  { failedServerCreate := fun _ jobId creator server =>
      .arr [.obj [("/Target/ToDo/" ++ jobId,
                    .obj [("type", .str "failedServer"), ("server", .str server),
                          ("jobId", .str jobId), ("creator", .str creator)]),
                  ("/Target/FailedServers/" ++ server, .arr [])],
            .obj [("/Target/FailedServers/" ++ server, .obj [("oldEmpty", .bool true)])]],
    activeFailoverCreate := fun _ jobId creator server =>
      .arr [.obj [("/Target/ToDo/" ++ jobId,
                    .obj [("type", .str "activeFailover"), ("server", .str server),
                          ("jobId", .str jobId), ("creator", .str creator)])]] }

/-- Sample settings: the default thresholds of 1.5 and 5 seconds, a clock of
one tick per second, and time strings for the time points 0 and 10. -/
def sampleSettings : Settings :=
  { okThreshold := mkRat 3 2, gracePeriod := 5, ticksPerSecond := 1,
    timepointToString := fun t =>
      if t = 0 then "1970-01-01T00:00:00Z" else
      if t = 10 then "1970-01-01T00:00:10Z" else "1970-01-01T00:00:03Z",
    stringToTimepoint := fun str =>
      if str = "1970-01-01T00:00:10Z" then 10 else
      if str = "1970-01-01T00:00:03Z" then 3 else 0,
    jobs := sampleJobs }

/-- A version-2 health node with the given status, heartbeat time and time of
the last acknowledged heartbeat. -/
def sampleHealth (status syncTime lastAcked : String) : Node :=
  .object [("ShortName", .value (.str "Server0001")),
    ("Endpoint", .value (.str "tcp://host:8529")),
    ("Host", .value (.str "host")), ("SyncStatus", .value (.str "SERVING")),
    ("Status", .value (.str status)), ("SyncTime", .value (.str syncTime)),
    ("LastAcked", .value (.str lastAcked))]

/-- A snapshot in which `id` has a short name and a health record with the
given status, and `/Target/FailedServers` has the given children. -/
def sampleSnapshot (id status : String) (failed : List (String × Node)) : Node :=
  .object [("Target", .object [("MapUniqueToShortID",
      .object [(id, .object [("ShortName", .value (.str "Server0001"))])]),
      ("FailedServers", .object failed)]),
    ("Supervision", .object [("Health",
      .object [(id, sampleHealth status "1970-01-01T00:00:00Z" "1970-01-01T00:00:00Z")])])]

/-- A transient store in which the heartbeat of `id` has the given time and
the transient health record was last acknowledged at time point 0. -/
def sampleTransient (id syncTime : String) : Node :=
  .object [("Sync", .object [("ServerStates", .object [(id,
      .object [("time", .value (.str syncTime)), ("status", .value (.str "SERVING"))])])]),
    ("Supervision", .object [("Health",
      .object [(id, sampleHealth "GOOD" "1970-01-01T00:00:00Z" "1970-01-01T00:00:00Z")])])]

/-- The clock reads `now` at every reading, the thread is not stopping and the
agent accepts the write at index 7. -/
def sampleObserved (now : Int) : Observed :=
  ⟨now, now, now, now, false, ⟨true, [7]⟩⟩

/-- The clock reads `now` at every reading, the thread is stopping (the test
of line 536 fails) and the agent would accept a write at index 7. -/
def stoppingObserved (now : Int) : Observed :=
  ⟨now, now, now, now, true, ⟨true, [7]⟩⟩

/-- A snapshot with six health records, of which `PRMR-a` and `CRDN-a` are
planned. -/
def sweepSnapshot : Node :=
  .object [("Plan", .object [("DBServers", .object [("PRMR-a", .value (.str "none"))]),
      ("Coordinators", .object [("CRDN-a", .value (.str "none"))])]),
    ("Supervision", .object [("Health", .object [
      ("CRDN-a", sampleHealth "GOOD" "t" "t"), ("CRDN-b", sampleHealth "GOOD" "t" "t"),
      ("PRMR-a", sampleHealth "GOOD" "t" "t"), ("PRMR-b", sampleHealth "GOOD" "t" "t"),
      ("PRMR-c", sampleHealth "GOOD" "t" "t"), ("XXXX-a", sampleHealth "GOOD" "t" "t")])])]

/-- A snapshot in which `id` is planned as a DB server and has a short name,
and there is no health record yet. -/
def plannedSnapshot (id : String) : Node :=
  .object [("Plan", .object [("DBServers", .object [(id, .value (.str "none"))])]),
    ("Target", .object [("MapUniqueToShortID",
      .object [(id, .object [("ShortName", .value (.str "Server0001"))])])])]

/-- A snapshot in which `id` has a health record and nothing is planned. -/
def unplannedSnapshot (id : String) : Node :=
  .object [("Plan", .object [("DBServers", .object [])]),
    ("Supervision", .object [("Health", .object [(id, sampleHealth "GOOD" "t" "t")])])]

/-- A plan with the chain `a`, `b`, `c` of `distributeShardsLike` in `db1`. -/
def chainSnapshot : Node :=
  .object [("Plan", .object [("Collections", .object [("db1", .object [
    ("a", .object [("distributeShardsLike", .value (.str "b"))]),
    ("b", .object [("distributeShardsLike", .value (.str "c"))]),
    ("c", .object [("replicationFactor", .value (.uint 2))]),
    ("d", .object [("distributeShardsLike", .value (.str ""))])])])])]

/-- A version-1 health node. -/
def oldHealth (shortName status : String) : Node :=
  .object [("ShortName", .value (.str shortName)),
    ("Endpoint", .value (.str ("tcp://" ++ shortName ++ ":8529"))),
    ("Status", .value (.str status)), ("LastHeartbeatStatus", .value (.str "SERVING")),
    ("LastHeartbeatSent", .value (.str "1970-01-01T00:00:10Z")),
    ("LastHeartbeatAcked", .value (.str "1970-01-01T00:00:10Z"))]

/-- A snapshot with `/Agency/Definition` set, no collections, and two
version-1 health records. -/
def oldSnapshot : Node :=
  .object [("Agency", .object [("Definition", .value (.uint 1))]),
    ("Supervision", .object [("Health", .object [
      ("PRMR-a", oldHealth "DBServer0001" "GOOD"),
      ("PRMR-b", oldHealth "DBServer0002" "BAD")])])]

/-- The sample settings with an `okThreshold` of zero. -/
def strictSettings : Settings := { sampleSettings with okThreshold := 0 }

/-- The clock reads `first` at line 475 and `second` from then on; the thread
is not stopping and the agent accepts the write at index 7. -/
def tickingObserved (first second : Int) : Observed :=
  ⟨first, second, second, second, false, ⟨true, [7]⟩⟩

/-- A version-1 record with a heartbeat time. -/
def recSynced : HealthRecord :=
  { shortName := "DBServer0001", syncTime := "1970-01-01T00:00:10Z", syncStatus := "SERVING",
    status := "GOOD", endpoint := "tcp://host:8529", lastAcked := "1970-01-01T00:00:10Z",
    hostId := "host", version := 1 }

/-- A plan in which `a` and `b` of `db1` name each other as prototype. -/
def cycleSnapshot : Node :=
  .object [("Plan", .object [("Collections", .object [("db1", .object [
    ("a", .object [("distributeShardsLike", .value (.str "b"))]),
    ("b", .object [("distributeShardsLike", .value (.str "a"))])])])])]

/-- Sample job environment: the available servers are the planned DB servers,
and blocked shards are listed under `/Supervision/Shards/`. -/
def sampleEnv : JobEnv :=
  { availableServers := fun snapshot =>
      (snapshot.hasAsChildren "/Plan/DBServers").1.map Prod.fst,
    blockedShardsPrefix := "/Supervision/Shards/" }

/-- A plan with one collection of replication factor 2 whose shard `s1` has
one planned server; nothing in ToDo. -/
def replSnapshot : Node :=
  .object [("Plan", .object [("Collections", .object [("db1", .object [
      ("coll1", .object [("replicationFactor", .value (.uint 2)),
        ("shards", .object [("s1", .value (.arr [.str "PRMR-a"]))])])])])]),
    ("Target", .object [("ToDo", .object [])])]

/-- A plan with two databases that each hold a collection with a shard named
`s1`, one with too few and one with too many planned servers; nothing in
ToDo. -/
def twinSnapshot : Node :=
  .object [("Plan", .object [("Collections", .object [
      ("db1", .object [
        ("coll1", .object [("replicationFactor", .value (.uint 2)),
          ("shards", .object [("s1", .value (.arr [.str "PRMR-a"]))])])]),
      ("db2", .object [
        ("coll1", .object [("replicationFactor", .value (.uint 1)),
          ("shards", .object [("s1",
            .value (.arr [.str "PRMR-a", .str "PRMR-b"]))])])])])]),
    ("Target", .object [("ToDo", .object [])])]

/-- Three planned DB servers, a target of two, and one collection of
replication factor 1; ToDo and Pending are empty. -/
def shrinkSnapshot : Node :=
  .object [("Plan", .object [
      ("DBServers", .object [("PRMR-b", .value (.str "none")),
        ("PRMR-c", .value (.str "none")), ("PRMR-a", .value (.str "none"))]),
      ("Collections", .object [("db1", .object [
        ("coll1", .object [("replicationFactor", .value (.uint 1))])])])]),
    ("Target", .object [("NumberOfDBServers", .value (.uint 2)),
      ("ToDo", .object []), ("Pending", .object [])])]

/-- A plan with one collection of replication factor 2 whose shards `s1` and
`s2` have one planned server each; nothing in ToDo. -/
def pairSnapshot : Node :=
  .object [("Plan", .object [("Collections", .object [("db1", .object [
      ("coll1", .object [("replicationFactor", .value (.uint 2)),
        ("shards", .object [("s1", .value (.arr [.str "PRMR-a"])),
          ("s2", .value (.arr [.str "PRMR-b"]))])])])])]),
    ("Target", .object [("ToDo", .object [])])]

/-- A round of the main loop on a leader that has finished its preparation
and has led for five seconds, with a batch of ids at hand and the upgrade
done. -/
def earlyTick : TickView :=
  { snapshot := replSnapshot, refreshed := replSnapshot, selfShutdown := false,
    leading := true, prepareLeadership := 0, leaderFor := 5,
    counter := ⟨10000, 20000⟩, upgraded := true }

/-- A snapshot in which the planned DB server `PRMR-a` has a short name and a
health record with the status `BAD`, and no server has failed. -/
def failingSnapshot : Node :=
  .object [("Plan", .object [("DBServers", .object [("PRMR-a", .value (.str "none"))])]),
    ("Target", .object [("MapUniqueToShortID",
      .object [("PRMR-a", .object [("ShortName", .value (.str "Server0001"))])]),
      ("FailedServers", .object [])]),
    ("Supervision", .object [("Health", .object [("PRMR-a",
      sampleHealth "BAD" "1970-01-01T00:00:00Z" "1970-01-01T00:00:00Z")])])]

/-- The steps of a sample term: a reservation answered with 20000, a call of
`check` that finds `PRMR-a` failed, a call of `shrinkCluster` and a call of
`enforceReplication`. -/
def sampleTerm : List TermStep :=
  [.reserve ⟨true, latestIdReply "/arango" 1 20000⟩,
   .check sampleSettings "/arango" failingSnapshot
     (sampleTransient "PRMR-a" "1970-01-01T00:00:00Z") (fun _ => sampleObserved 10) "DBServers",
   .shrink sampleEnv shrinkSnapshot,
   .enforce sampleEnv pairSnapshot]

/-- A tick that starts one job: the reservation test of lines 687 to 689 with
an accepted reply at hand, then `shrinkCluster` on a cluster with a server too
many. -/
def shrinkTick : List TermStep :=
  [.reserve ⟨true, latestIdReply "/arango" 2 40000⟩, .shrink sampleEnv shrinkSnapshot]

/-- A tick that starts two jobs: the reservation test, then
`enforceReplication` on a plan with two shards that lack a follower. -/
def enforceTick : List TermStep :=
  [.reserve ⟨true, latestIdReply "/arango" 2 40000⟩, .enforce sampleEnv pairSnapshot]

/-- A snapshot from before the upgrade: in `db1` the prototype of `a` is `b`
and the prototype of `b` is `c`; `/Target/FailedServers` is an array,
`/Agency/Definition` is absent, and there is one version-1 health record. -/
def upgradeSnapshot : Node :=
  .object [("Plan", .object [("Collections", .object [("db1", .object [
      ("a", .object [("distributeShardsLike", .value (.str "b"))]),
      ("b", .object [("distributeShardsLike", .value (.str "c"))]),
      ("c", .object [("replicationFactor", .value (.uint 2))])])])]),
    ("Target", .object [("FailedServers", .value (.arr [.str "PRMR-x"]))]),
    ("Supervision", .object [("Health", .object [
      ("PRMR-a", oldHealth "DBServer0001" "GOOD")])])]

/-- The envelope that `upgradeAgency` builds on `upgradeSnapshot`. -/
def upgradeEnvelope : List VPack :=
  [.arr [.obj [("/Target/FailedServers", .obj [("PRMR-x", .obj [])])]],
   .arr [.obj [("/Plan/Collections/db1/a/distributeShardsLike", .str "c")],
         .obj [("/Plan/Collections/db1/a/distributeShardsLike", .str "b")]],
   .arr [.obj [("/Agency/Definition", .uint 1), ("/Target/ToDo", .obj []),
               ("/Target/Pending", .obj [])],
         .obj [("/Agency/Definition", .obj [("oldEmpty", .bool true)])]],
   .arr [.obj []]]

/-- The store after `upgradeEnvelope` was applied to `upgradeSnapshot`. -/
def upgradedSnapshot : Node :=
  .object [("Plan", .object [("Collections", .object [("db1", .object [
      ("a", .object [("distributeShardsLike", .value (.str "c"))]),
      ("b", .object [("distributeShardsLike", .value (.str "c"))]),
      ("c", .object [("replicationFactor", .value (.uint 2))])])])]),
    ("Target", .object [("FailedServers", .object [("PRMR-x", .object [])]),
      ("ToDo", .object []), ("Pending", .object [])]),
    ("Supervision", .object [("Health", .object [
      ("PRMR-a", oldHealth "DBServer0001" "GOOD")])]),
    ("Agency", .object [("Definition", .value (.uint 1))])]

/-! ## Auxiliary facts -/

theorem status_consts :
    HEALTH_STATUS_GOOD ≠ HEALTH_STATUS_BAD ∧ HEALTH_STATUS_GOOD ≠ HEALTH_STATUS_FAILED ∧
    HEALTH_STATUS_BAD ≠ HEALTH_STATUS_FAILED ∧ HEALTH_STATUS_BAD ≠ HEALTH_STATUS_GOOD ∧
    HEALTH_STATUS_FAILED ≠ HEALTH_STATUS_GOOD ∧ HEALTH_STATUS_FAILED ≠ HEALTH_STATUS_BAD := by
  decide

theorem Node.hasAsString_of_not_has {n : Node} {p : String} (h : n.has p = false) :
    (n.hasAsString p).1 = "" := by
  unfold Node.has at h
  unfold Node.hasAsString
  cases hg : n.get p with
  | none => rfl
  | some m => simp [hg] at h

theorem Node.hasAsString_eq_iff (n : Node) (p str : String) (hs : str ≠ "") :
    (n.hasAsString p).1 = str ↔ n.get p = some (.value (.str str)) := by
  unfold Node.hasAsString
  constructor
  · intro h
    split at h
    · next t hg => simp at h; rw [hg, h]
    · simp at h; exact absurd h.symm hs
  · intro h; rw [h]

theorem hasRolePrefix_excl {serverID p q : String} (hp : hasRolePrefix serverID p = true)
    (hpq : p.data ≠ q.data) : hasRolePrefix serverID q = false := by
  unfold hasRolePrefix at *
  simp only [decide_eq_true_eq, decide_eq_false_iff_not] at *
  rw [hp]; exact hpq

theorem handleOnStatusDBServer_job (snapshot : Node) (persisted transisted : HealthRecord)
    (serverID : String) (jobId : Nat) (e : Envelope)
    (he : (handleOnStatusDBServer snapshot persisted transisted serverID jobId).envelope = some e)
    (hj : e.isJob = true) :
    persisted.status = HEALTH_STATUS_BAD ∧ transisted.status = HEALTH_STATUS_FAILED ∧
      snapshot.has (failedServersPrefix ++ "/" ++ serverID) = false := by
  unfold handleOnStatusDBServer at he
  simp only at he
  split_ifs at he with h1 h2 h3 h4 h5 <;> simp at he
  · subst he; simp [Envelope.isJob] at hj
  · simp at h5; exact ⟨h4.1, h4.2, h5⟩

theorem handleOnStatusSingle_job (snapshot : Node) (persisted transisted : HealthRecord)
    (serverID : String) (jobId : Nat) (e : Envelope)
    (he : (handleOnStatusSingle snapshot persisted transisted serverID jobId).envelope = some e)
    (hj : e.isJob = true) :
    persisted.status = HEALTH_STATUS_BAD ∧ transisted.status = HEALTH_STATUS_FAILED ∧
      snapshot.has (failedServersPrefix ++ "/" ++ serverID) = false := by
  unfold handleOnStatusSingle at he
  simp only at he
  split_ifs at he with h1 h2 h3 h4 h5 <;> simp at he
  · subst he; simp [Envelope.isJob] at hj
  · simp at h5; exact ⟨h4.1, h4.2, h5⟩

/-- The single-server path is the DB server path up to the kind of job. -/
theorem handleOnStatusSingle_eq_spec (snapshot : Node) (persisted transisted : HealthRecord)
    (serverID : String) (jobId : Nat) :
    handleOnStatusSingle snapshot persisted transisted serverID jobId =
      handleOnStatusSingleSpec snapshot persisted transisted serverID jobId := by
  unfold handleOnStatusSingleSpec handleOnStatusSingle handleOnStatusDBServer
  by_cases h1 : transisted.status = HEALTH_STATUS_GOOD <;>
    by_cases h2 : persisted.status = HEALTH_STATUS_GOOD <;>
    by_cases h3 : persisted.status = HEALTH_STATUS_BAD <;>
    by_cases h4 : transisted.status = HEALTH_STATUS_FAILED <;>
    cases h5 : snapshot.has (failedServersPrefix ++ "/" ++ serverID) <;>
    simp_all [asActiveFailover, status_consts]

/-- What the DB server path leaves in the transient record and sends itself. -/
theorem handleOnStatusDBServer_effect (snapshot : Node) (persisted transisted : HealthRecord)
    (serverID : String) (jobId : Nat) :
    (handleOnStatusDBServer snapshot persisted transisted serverID jobId).writes = [] ∧
    (handleOnStatusDBServer snapshot persisted transisted serverID jobId).persisted = persisted ∧
    ((handleOnStatusDBServer snapshot persisted transisted serverID jobId).transisted.status =
        transisted.status ∨
      (handleOnStatusDBServer snapshot persisted transisted serverID jobId).transisted.status =
        HEALTH_STATUS_BAD) ∧
    (persisted.status = HEALTH_STATUS_GOOD →
      (handleOnStatusDBServer snapshot persisted transisted serverID jobId).transisted.status ≠
        HEALTH_STATUS_FAILED) := by
  unfold handleOnStatusDBServer
  by_cases h1 : transisted.status = HEALTH_STATUS_GOOD <;>
    by_cases h2 : persisted.status = HEALTH_STATUS_GOOD <;>
    by_cases h3 : persisted.status = HEALTH_STATUS_BAD <;>
    by_cases h4 : transisted.status = HEALTH_STATUS_FAILED <;>
    cases h5 : snapshot.has (failedServersPrefix ++ "/" ++ serverID) <;>
    simp_all [status_consts]

/-- What the dispatch leaves in the transient record and sends itself, for a
DB server or a single server. -/
theorem handleOnStatus_effect (snapshot : Node) (persisted transisted : HealthRecord)
    (serverID : String) (jobId : Nat)
    (hrole : hasRolePrefix serverID "PRMR" = true ∨ hasRolePrefix serverID "SNGL" = true) :
    (handleOnStatus snapshot persisted transisted serverID jobId).writes = [] ∧
    (handleOnStatus snapshot persisted transisted serverID jobId).persisted = persisted ∧
    ((handleOnStatus snapshot persisted transisted serverID jobId).transisted.status =
        transisted.status ∨
      (handleOnStatus snapshot persisted transisted serverID jobId).transisted.status =
        HEALTH_STATUS_BAD) ∧
    (persisted.status = HEALTH_STATUS_GOOD →
      (handleOnStatus snapshot persisted transisted serverID jobId).transisted.status ≠
        HEALTH_STATUS_FAILED) := by
  have hdb := handleOnStatusDBServer_effect snapshot persisted transisted serverID jobId
  rcases hrole with h | h
  · unfold handleOnStatus
    simp only [h, if_true]
    exact hdb
  · have h1 : hasRolePrefix serverID "PRMR" = false := hasRolePrefix_excl h (by decide)
    have h2 : hasRolePrefix serverID "CRDN" = false := hasRolePrefix_excl h (by decide)
    unfold handleOnStatus
    simp only [h, h1, h2, if_true, Bool.false_eq_true, if_false]
    rw [handleOnStatusSingle_eq_spec]
    unfold handleOnStatusSingleSpec
    exact hdb

theorem healthStatus_cases (e ok grace : ℚ) :
    healthStatus e ok grace = HEALTH_STATUS_GOOD ∨ healthStatus e ok grace = HEALTH_STATUS_BAD ∨
      healthStatus e ok grace = HEALTH_STATUS_FAILED := by
  unfold healthStatus
  split_ifs <;> simp

theorem statusOf_toVelocyPack (r : HealthRecord) (now : String) :
    statusOf (.obj (r.toVelocyPack now)) = some r.status := by
  unfold statusOf HealthRecord.toVelocyPack
  simp [List.lookup]

/-- The persistent report sets the health key to the serialised record. -/
theorem writtenAt_pReportOf (key : String) (record : List (String × VPack))
    (env : Option VPack) (p : VPack) (h : pReportOf key record env = some p) :
    writtenAt key (.singleWriteTransaction p) = some (.obj record) := by
  unfold pReportOf at h
  split at h <;> simp at h <;> subst h <;> simp [writtenAt, List.lookup]

/-- Every call of lines 536 to 548 is the transient report or, for a changed
record, the persistent report. -/
theorem submit_calls_mem (changed : Bool) (pr : Option VPack) (t : VPack) (jobId : Nat)
    (o : Observed) (calls : List AgentCall) (j1 : Nat)
    (h : submit changed pr t jobId o = some (calls, j1)) (c : AgentCall) (hc : c ∈ calls) :
    c = .transient t ∨ (changed = true ∧ ∃ p, pr = some p ∧ c = .singleWriteTransaction p) := by
  unfold submit at h
  rcases hs : o.stopping with _ | _ <;> rcases changed with _ | _ <;>
    rcases pr with _ | p <;> rcases ha : o.res.accepted with _ | _ <;>
    rcases hi : o.res.indices with _ | ⟨front, rest⟩ <;>
    simp [hs, ha, hi] at h <;>
    (try split_ifs at h) <;>
    (try simp at h) <;>
    (try (obtain ⟨hc1, _⟩ := h; subst hc1; simp at hc; rcases hc with hc | hc)) <;>
    (try (obtain ⟨hc1, _⟩ := h; subst hc1; simp at hc)) <;>
    simp_all

/-- The calls of lines 536 to 548 for a changed record, when the thread is not
stopping and an accepted reply carries an index. -/
theorem submit_changed (p t : VPack) (jobId : Nat) (o : Observed)
    (hstop : o.stopping = false) (hres : o.res.accepted = true → o.res.indices ≠ []) :
    submit true (some p) t jobId o =
      some (if o.res.accepted = true ∧ o.res.indices.head? ≠ some 0 then
          ([.singleWriteTransaction p, .transient t], (jobId + 1) % 2 ^ 64)
        else ([.singleWriteTransaction p], jobId)) := by
  unfold submit
  cases ha : o.res.accepted
  · simp [hstop]
  · have := hres ha
    cases hi : o.res.indices with
    | nil => exact absurd hi this
    | cons front rest =>
      by_cases hf : front = 0 <;> simp [hstop, hf]

/-- The calls of lines 536 to 548 for a record that did not change. -/
theorem submit_unchanged (t : VPack) (jobId : Nat) (o : Observed) :
    submit false none t jobId o =
      some (if o.stopping = true then [] else [.transient t], jobId) := by
  unfold submit
  cases o.stopping <;> simp

/-- The calls of lines 536 to 548 for a changed record, when an accepted reply
carries an index. -/
theorem submit_changed_gen (p t : VPack) (jobId : Nat) (o : Observed)
    (hres : o.res.accepted = true → o.res.indices ≠ []) :
    submit true (some p) t jobId o =
      some (if o.stopping = true then ([], jobId)
        else if o.res.accepted = true ∧ o.res.indices.head? ≠ some 0 then
          ([.singleWriteTransaction p, .transient t], (jobId + 1) % 2 ^ 64)
        else ([.singleWriteTransaction p], jobId)) := by
  cases hs : o.stopping
  · simp only [Bool.false_eq_true, if_false]
    exact submit_changed p t jobId o hs hres
  · simp [submit, hs]

/-- Every status that a round writes persistently for a DB server or a single
server is the status the dispatch left in the transient record. -/
theorem mem_persistedStatuses (s : Settings) (snapshot transient : Node) (jobId : Nat)
    (serverID shortName : String) (o : Observed)
    (hsn : snapshot.hasAsString (targetShortID ++ serverID ++ "/ShortName") = (shortName, true))
    (hrole : hasRolePrefix serverID "PRMR" = true ∨ hasRolePrefix serverID "SNGL" = true)
    (w : String)
    (hw : w ∈ (checkMachine s snapshot transient jobId serverID o).persistedStatuses serverID) :
    w = (handleOnStatus snapshot (loadRecords snapshot transient serverID shortName).2
      (refreshTransist s transient serverID (loadRecords snapshot transient serverID shortName).1 o)
      serverID jobId).transisted.status := by
  obtain ⟨hwr, -, -, -⟩ := handleOnStatus_effect snapshot
    (loadRecords snapshot transient serverID shortName).2
    (refreshTransist s transient serverID (loadRecords snapshot transient serverID shortName).1 o)
    serverID jobId hrole
  unfold Outcome.persistedStatuses at hw
  rw [List.mem_filterMap] at hw
  obtain ⟨c, hc, hcw⟩ := hw
  unfold checkMachine at hc
  simp only [hsn, if_true] at hc
  unfold checkBody at hc
  cases hch : (refreshTransist s transient serverID
      (loadRecords snapshot transient serverID shortName).1 o).statusDiff
      (loadRecords snapshot transient serverID shortName).2
  · simp only [hch, Bool.false_eq_true, if_false, List.map_nil, List.nil_append] at hc
    split at hc
    · simp [Outcome.calls] at hc
    · next calls j1 hsub =>
      simp only [Outcome.calls] at hc
      rcases submit_calls_mem _ _ _ _ _ _ _ hsub c hc with h | ⟨h, -⟩
      · subst h; simp [writtenAt] at hcw
      · simp at h
  · simp only [hch, if_true, hwr, List.map_nil, List.nil_append] at hc
    cases hp : pReportOf (healthPrefix ++ serverID)
        (((handleOnStatus snapshot (loadRecords snapshot transient serverID shortName).2
          (refreshTransist s transient serverID
            (loadRecords snapshot transient serverID shortName).1 o) serverID
          jobId).persisted.assignRecord
          (handleOnStatus snapshot (loadRecords snapshot transient serverID shortName).2
          (refreshTransist s transient serverID
            (loadRecords snapshot transient serverID shortName).1 o) serverID
          jobId).transisted).toVelocyPack (s.timepointToString o.nowPReport))
        (Option.map (Envelope.slice s.jobs snapshot)
          (handleOnStatus snapshot (loadRecords snapshot transient serverID shortName).2
          (refreshTransist s transient serverID
            (loadRecords snapshot transient serverID shortName).1 o) serverID jobId).envelope)
    · simp [hp, Outcome.calls] at hc
    · next p =>
      have hwp := writtenAt_pReportOf _ _ _ _ hp
      simp only [hp, Option.map_some'] at hc
      have key : ∀ c2 : AgentCall, c2 = .singleWriteTransaction p →
          (writtenAt (healthPrefix ++ serverID) c2).bind statusOf = some w →
          w = (handleOnStatus snapshot (loadRecords snapshot transient serverID shortName).2
            (refreshTransist s transient serverID
              (loadRecords snapshot transient serverID shortName).1 o)
            serverID jobId).transisted.status := by
        intro c2 hc2 h2
        subst hc2
        rw [hwp] at h2
        simp only [Option.some_bind, statusOf_toVelocyPack, Option.some.injEq] at h2
        rw [← h2]; rfl
      split at hc
      · simp only [Outcome.calls, Option.toList, List.map_cons, List.map_nil,
          List.mem_singleton] at hc
        exact key c hc hcw
      · next calls j1 hsub =>
        simp only [Outcome.calls] at hc
        rcases submit_calls_mem _ _ _ _ _ _ _ hsub c hc with h | ⟨-, p2, hp2, h⟩
        · subst h; simp [writtenAt] at hcw
        · simp only [Option.some.injEq] at hp2
          subst hp2
          exact key c h hcw

/-- A round that finds a DB server or a single server `GOOD` writes `GOOD` or
`BAD`, if it writes a status at all. -/
theorem tickWrites_good (serverID w : String)
    (hrole : hasRolePrefix serverID "PRMR" = true ∨ hasRolePrefix serverID "SNGL" = true)
    (h : tickWrites serverID HEALTH_STATUS_GOOD w) :
    w = HEALTH_STATUS_GOOD ∨ w = HEALTH_STATUS_BAD := by
  obtain ⟨s, snapshot, transient, jobId, shortName, o, hsn, hP, hw⟩ := h
  have hmem := mem_persistedStatuses s snapshot transient jobId serverID shortName o hsn hrole w hw
  obtain ⟨-, -, hst, hnf⟩ := handleOnStatus_effect snapshot
    (loadRecords snapshot transient serverID shortName).2
    (refreshTransist s transient serverID (loadRecords snapshot transient serverID shortName).1 o)
    serverID jobId hrole
  have hnf := hnf hP
  rw [← hmem] at hst hnf
  rcases hst with hst | hst
  · have h3 := healthStatus_cases
      (elapsed s transient serverID (loadRecords snapshot transient serverID shortName).1 o)
      s.okThreshold s.gracePeriod
    have hT : (refreshTransist s transient serverID
        (loadRecords snapshot transient serverID shortName).1 o).status =
        healthStatus (elapsed s transient serverID
          (loadRecords snapshot transient serverID shortName).1 o)
          s.okThreshold s.gracePeriod := rfl
    rw [hst, hT]
    rw [hst, hT] at hnf
    rcases h3 with h3 | h3 | h3
    · exact Or.inl h3
    · exact Or.inr h3
    · exact absurd h3 hnf
  · exact Or.inr hst

/-- A record of a DB server or a single server that starts `GOOD` is `BAD`
at some round before the first round at which it is `FAILED`. -/
theorem chain_good_to_failed (serverID : String)
    (hrole : hasRolePrefix serverID "PRMR" = true ∨ hasRolePrefix serverID "SNGL" = true)
    (l : List String) :
    ∀ a, a = HEALTH_STATUS_GOOD → List.Chain (statusStep serverID) a l →
      ∀ pre post, l = pre ++ HEALTH_STATUS_FAILED :: post → HEALTH_STATUS_BAD ∈ pre := by
  induction l with
  | nil => intro a _ _ pre post h; simp at h
  | cons x l ih =>
    intro a ha hchain pre post hl
    rw [List.chain_cons] at hchain
    obtain ⟨hstep, hrest⟩ := hchain
    have hx : x = HEALTH_STATUS_GOOD ∨ x = HEALTH_STATUS_BAD := by
      rcases hstep with h | h
      · exact Or.inl (h.trans ha)
      · rw [ha] at h; exact tickWrites_good serverID x hrole h
    cases pre with
    | nil =>
      simp only [List.nil_append, List.cons.injEq] at hl
      rcases hx with hx | hx <;> rw [hl.1] at hx <;> revert hx <;> decide
    | cons y pre =>
      simp only [List.cons_append, List.cons.injEq] at hl
      rcases hx with hx | hx
      · exact List.mem_cons_of_mem _ (ih x hx hrest pre post hl.2)
      · rw [← hl.1, hx]; exact List.mem_cons_self _ _

/-! ## Hysteresis of the persisted status -/

/-- C1, as stated, fails for a coordinator and for an id of unrecognised
prefix: the short name of `CRDN-a` (of `XXXX-a`) has arrived, its persisted
status is `GOOD`, its heartbeat time has not moved for ten seconds (grace
period five), and the one persistent write of the round sets the status
`FAILED`. -/
theorem check_coordinator_good_to_failed :
    ((sampleSnapshot "CRDN-a" "GOOD" []).hasAsString
        (targetShortID ++ "CRDN-a" ++ "/ShortName") = ("Server0001", true) ∧
      (loadRecords (sampleSnapshot "CRDN-a" "GOOD" [])
        (sampleTransient "CRDN-a" "1970-01-01T00:00:00Z") "CRDN-a"
        "Server0001").2.status = HEALTH_STATUS_GOOD ∧
      (checkMachine sampleSettings (sampleSnapshot "CRDN-a" "GOOD" [])
        (sampleTransient "CRDN-a" "1970-01-01T00:00:00Z") 17 "CRDN-a"
        (sampleObserved 10)).persistedStatuses "CRDN-a" = [HEALTH_STATUS_FAILED]) ∧
    ((sampleSnapshot "XXXX-a" "GOOD" []).hasAsString
        (targetShortID ++ "XXXX-a" ++ "/ShortName") = ("Server0001", true) ∧
      (loadRecords (sampleSnapshot "XXXX-a" "GOOD" [])
        (sampleTransient "XXXX-a" "1970-01-01T00:00:00Z") "XXXX-a"
        "Server0001").2.status = HEALTH_STATUS_GOOD ∧
      (checkMachine sampleSettings (sampleSnapshot "XXXX-a" "GOOD" [])
        (sampleTransient "XXXX-a" "1970-01-01T00:00:00Z") 17 "XXXX-a"
        (sampleObserved 10)).persistedStatuses "XXXX-a" = [HEALTH_STATUS_FAILED]) := by
  decide

/-- C1, amended to DB servers and single servers (id prefix `PRMR` or `SNGL`):
in every round of `check` that finds the persisted status `GOOD`, no
persistent write sets the status of the health record to `FAILED`; and along
every run of rounds that starts from a `GOOD` record, the record is `BAD`
at some round before it is `FAILED`. -/
theorem check_no_good_to_failed (serverID : String)
    (hrole : hasRolePrefix serverID "PRMR" = true ∨ hasRolePrefix serverID "SNGL" = true) :
    (∀ (s : Settings) (snapshot transient : Node) (jobId : Nat) (shortName : String)
        (o : Observed),
      snapshot.hasAsString (targetShortID ++ serverID ++ "/ShortName") = (shortName, true) →
      (loadRecords snapshot transient serverID shortName).2.status = HEALTH_STATUS_GOOD →
      HEALTH_STATUS_FAILED ∉
        (checkMachine s snapshot transient jobId serverID o).persistedStatuses serverID) ∧
    (∀ (l pre post : List String),
      List.Chain (statusStep serverID) HEALTH_STATUS_GOOD l →
      l = pre ++ HEALTH_STATUS_FAILED :: post → HEALTH_STATUS_BAD ∈ pre) := by
  constructor
  · intro s snapshot transient jobId shortName o hsn hP hmem
    have h := tickWrites_good serverID HEALTH_STATUS_FAILED hrole
      ⟨s, snapshot, transient, jobId, shortName, o, hsn, hP, hmem⟩
    revert h
    decide
  · intro l pre post hchain hl
    exact chain_good_to_failed serverID hrole l HEALTH_STATUS_GOOD rfl hchain pre post hl

/-- Witness for C1: the DB server `PRMR-a`, persisted `GOOD`, silent for ten
seconds; the round writes `BAD`. -/
theorem check_no_good_to_failed_witness :
    hasRolePrefix "PRMR-a" "PRMR" = true ∧
    (checkMachine sampleSettings (sampleSnapshot "PRMR-a" "GOOD" [])
        (sampleTransient "PRMR-a" "1970-01-01T00:00:00Z") 17 "PRMR-a"
        (sampleObserved 10)).persistedStatuses "PRMR-a" = [HEALTH_STATUS_BAD] ∧
    HEALTH_STATUS_FAILED ∉
      (checkMachine sampleSettings (sampleSnapshot "PRMR-a" "GOOD" [])
        (sampleTransient "PRMR-a" "1970-01-01T00:00:00Z") 17 "PRMR-a"
        (sampleObserved 10)).persistedStatuses "PRMR-a" :=
  ⟨by decide, by decide,
    (check_no_good_to_failed "PRMR-a" (Or.inl (by decide))).1 sampleSettings
      (sampleSnapshot "PRMR-a" "GOOD" []) (sampleTransient "PRMR-a" "1970-01-01T00:00:00Z")
      17 "Server0001" (sampleObserved 10) (by decide) (by decide)⟩

/-! ## Job creation -/

/-- C2: whatever server id, snapshot and records `handleOnStatus` is handed,
it fills the envelope by a FailedServer or ActiveFailover job only if the
persisted status is `BAD`, the transient status is `FAILED` and the snapshot
has no entry `/Target/FailedServers/<id>`. -/
theorem handleOnStatus_job_only_if (snapshot : Node) (persisted transisted : HealthRecord)
    (serverID : String) (jobId : Nat) (e : Envelope)
    (he : (handleOnStatus snapshot persisted transisted serverID jobId).envelope = some e)
    (hj : e.isJob = true) :
    persisted.status = HEALTH_STATUS_BAD ∧ transisted.status = HEALTH_STATUS_FAILED ∧
      snapshot.has (failedServersPrefix ++ "/" ++ serverID) = false := by
  unfold handleOnStatus at he
  split_ifs at he with h1 h2 h3
  · exact handleOnStatusDBServer_job _ _ _ _ _ e he hj
  · unfold handleOnStatusCoordinator at he
    split_ifs at he
  · exact handleOnStatusSingle_job _ _ _ _ _ e he hj

/-- Witness for C2: a FailedServer job for `PRMR-a` with job id 17. -/
theorem handleOnStatus_job_only_if_witness :
    (handleOnStatus (.object []) recBad recFailed "PRMR-a" 17).envelope =
      some (.failedServer "17" "supervision" "PRMR-a") ∧
    (recBad.status = HEALTH_STATUS_BAD ∧ recFailed.status = HEALTH_STATUS_FAILED ∧
      (Node.object []).has (failedServersPrefix ++ "/" ++ "PRMR-a") = false) :=
  ⟨by decide, handleOnStatus_job_only_if (.object []) recBad recFailed "PRMR-a" 17
    (.failedServer "17" "supervision" "PRMR-a") (by decide) (by decide)⟩

/-! ## Status from the elapsed time -/

/-- C3: with `okThreshold ≤ gracePeriod`, the status computed for the elapsed
time `e` is `GOOD` if `e ≤ okThreshold`, `BAD` if `okThreshold < e ≤
gracePeriod` and `FAILED` if `e > gracePeriod`; both bounds are inclusive, the
status is monotone in `e`, and it is the status `check` puts in the transient
record before the dispatch by role. -/
theorem healthStatus_by_elapsed (e e2 ok grace : ℚ) (h : ok ≤ grace) :
    (e ≤ ok → healthStatus e ok grace = HEALTH_STATUS_GOOD) ∧
    (ok < e → e ≤ grace → healthStatus e ok grace = HEALTH_STATUS_BAD) ∧
    (grace < e → healthStatus e ok grace = HEALTH_STATUS_FAILED) ∧
    healthStatus ok ok grace = HEALTH_STATUS_GOOD ∧
    (ok < grace → healthStatus grace ok grace = HEALTH_STATUS_BAD) ∧
    (e ≤ e2 → severity (healthStatus e ok grace) ≤ severity (healthStatus e2 ok grace)) ∧
    (∀ (s : Settings) (transient : Node) (serverID : String) (transist : HealthRecord)
        (o : Observed), s.okThreshold = ok → s.gracePeriod = grace →
      (refreshTransist s transient serverID transist o).status =
        healthStatus (elapsed s transient serverID transist o) ok grace) := by
  refine ⟨?_, ?_, ?_, ?_, ?_, ?_, ?_⟩
  · intro h1; simp [healthStatus, h1]
  · intro h1 h2; simp [healthStatus, not_le.mpr h1, h2]
  · intro h1
    have h2 : ¬ e ≤ ok := not_le.mpr (lt_of_le_of_lt h h1)
    simp [healthStatus, not_le.mpr h1, h2]
  · simp [healthStatus]
  · intro h1; simp [healthStatus, not_le.mpr h1]
  · intro h12
    unfold healthStatus
    by_cases a1 : e ≤ ok <;> by_cases a2 : e ≤ grace <;> by_cases b1 : e2 ≤ ok <;>
      by_cases b2 : e2 ≤ grace <;> simp [a1, a2, b1, b2, severity, status_consts] <;>
      linarith
  · intro s transient serverID transist o h1 h2
    subst h1 h2
    rfl

/-- Witness for C3: thresholds 1 and 5, elapsed times 2 and 6. -/
theorem healthStatus_by_elapsed_witness :
    (1 : ℚ) ≤ 5 ∧ healthStatus 2 1 5 = HEALTH_STATUS_BAD ∧
      healthStatus 6 1 5 = HEALTH_STATUS_FAILED :=
  ⟨by decide, (healthStatus_by_elapsed 2 6 1 5 (by decide)).2.1 (by decide) (by decide),
    (healthStatus_by_elapsed 6 6 1 5 (by decide)).2.2.1 (by decide)⟩

/-! ## The persistent report of a DB server -/

/-- C4, as stated, fails in a round in which the thread is stopping: for the
DB server `PRMR-a`, persisted `GOOD` and silent for ten seconds, the computed
status is `FAILED` and the records in memory get the status `BAD`, but the
test of line 536 fails and the round sends nothing, so no status is
persisted. -/
theorem check_good_to_bad_stopping :
    hasRolePrefix "PRMR-a" "PRMR" = true ∧
    (loadRecords (sampleSnapshot "PRMR-a" "GOOD" [])
      (sampleTransient "PRMR-a" "1970-01-01T00:00:00Z") "PRMR-a" "Server0001").2.status =
      HEALTH_STATUS_GOOD ∧
    (refreshTransist sampleSettings (sampleTransient "PRMR-a" "1970-01-01T00:00:00Z") "PRMR-a"
      (loadRecords (sampleSnapshot "PRMR-a" "GOOD" [])
        (sampleTransient "PRMR-a" "1970-01-01T00:00:00Z") "PRMR-a" "Server0001").1
      (stoppingObserved 10)).status = HEALTH_STATUS_FAILED ∧
    ((checkMachine sampleSettings (sampleSnapshot "PRMR-a" "GOOD" [])
      (sampleTransient "PRMR-a" "1970-01-01T00:00:00Z") 17 "PRMR-a"
      (stoppingObserved 10)).persisted.map HealthRecord.status) = some HEALTH_STATUS_BAD ∧
    (checkMachine sampleSettings (sampleSnapshot "PRMR-a" "GOOD" [])
      (sampleTransient "PRMR-a" "1970-01-01T00:00:00Z") 17 "PRMR-a"
      (stoppingObserved 10)).calls.length = 0 ∧
    (checkMachine sampleSettings (sampleSnapshot "PRMR-a" "GOOD" [])
      (sampleTransient "PRMR-a" "1970-01-01T00:00:00Z") 17 "PRMR-a"
      (stoppingObserved 10)).persistedStatuses "PRMR-a" = [] := by
  decide

/-- C4, amended by the test of line 536: for a DB server (id prefix `PRMR`)
whose short name has arrived, whose persisted status is `GOOD` and whose
computed status is `BAD` or `FAILED`, a round of `check` sets the status `BAD`
in the persistent and in the transient record and report and fills no
envelope: the persistent tuple holds the health record alone and no
preconditions. If the thread is not stopping the round sends that tuple as its
one persistent write, followed by the transient report when the write was
applied; if the thread is stopping it sends nothing. An accepted reply is
taken to carry an index. -/
theorem check_dbserver_good_to_bad (s : Settings) (snapshot transient : Node) (jobId : Nat)
    (serverID shortName : String) (o : Observed)
    (hsn : snapshot.hasAsString (targetShortID ++ serverID ++ "/ShortName") = (shortName, true))
    (hrole : hasRolePrefix serverID "PRMR" = true)
    (hP : (loadRecords snapshot transient serverID shortName).2.status = HEALTH_STATUS_GOOD)
    (hT : (refreshTransist s transient serverID
        (loadRecords snapshot transient serverID shortName).1 o).status = HEALTH_STATUS_BAD ∨
      (refreshTransist s transient serverID
        (loadRecords snapshot transient serverID shortName).1 o).status = HEALTH_STATUS_FAILED)
    (hres : o.res.accepted = true → o.res.indices ≠ []) :
    ∃ r, checkMachine s snapshot transient jobId serverID o = .done r ∧
      r.persist.status = HEALTH_STATUS_BAD ∧ r.transist.status = HEALTH_STATUS_BAD ∧
      r.envelope = none ∧
      r.pReport = some (.arr [.obj [(healthPrefix ++ serverID,
        .obj (r.persist.toVelocyPack (s.timepointToString o.nowPReport)))]]) ∧
      r.tReport = .arr [.obj [(healthPrefix ++ serverID,
        .obj (r.transist.toVelocyPack (s.timepointToString o.nowTReport)))]] ∧
      r.calls =
        (if o.stopping = true then []
        else
          AgentCall.singleWriteTransaction (.arr [.obj [(healthPrefix ++ serverID,
              .obj (r.persist.toVelocyPack (s.timepointToString o.nowPReport)))]]) ::
            (if o.res.accepted = true ∧ o.res.indices.head? ≠ some 0 then
              [AgentCall.transient r.tReport] else [])) := by
  have hT1 : (refreshTransist s transient serverID
      (loadRecords snapshot transient serverID shortName).1 o).status ≠ HEALTH_STATUS_GOOD := by
    rcases hT with h | h <;> rw [h] <;> decide
  have hch : (refreshTransist s transient serverID
      (loadRecords snapshot transient serverID shortName).1 o).statusDiff
      (loadRecords snapshot transient serverID shortName).2 = true := by
    simp [HealthRecord.statusDiff, hP, hT1]
  unfold checkMachine
  simp only [hsn, if_true]
  unfold checkBody
  simp only [hch, if_true, handleOnStatus, hrole, handleOnStatusDBServer, hT1, if_false, hP,
    true_and, ne_eq, not_false_eq_true, Option.map_none', pReportOf, Option.map_some',
    List.map_nil, List.nil_append]
  rw [submit_changed_gen _ _ _ _ hres]
  cases hs : o.stopping
  · by_cases hc : o.res.accepted = true ∧ o.res.indices.head? ≠ some 0 <;>
      simp [hc, HealthRecord.assignRecord, tReportOf]
  · simp [HealthRecord.assignRecord, tReportOf]

/-- Witness for C4: `PRMR-a`, persisted `GOOD`, silent for ten seconds, in a
round that is not stopping and whose write is applied. -/
theorem check_dbserver_good_to_bad_witness :
    ∃ r, checkMachine sampleSettings (sampleSnapshot "PRMR-a" "GOOD" [])
        (sampleTransient "PRMR-a" "1970-01-01T00:00:00Z") 17 "PRMR-a" (sampleObserved 10) =
        .done r ∧
      r.persist.status = HEALTH_STATUS_BAD ∧ r.transist.status = HEALTH_STATUS_BAD ∧
      r.envelope = none ∧ r.calls.length = 2 :=
  let ⟨r, h1, h2, h3, h4, _, _, h7⟩ := check_dbserver_good_to_bad sampleSettings
    (sampleSnapshot "PRMR-a" "GOOD" []) (sampleTransient "PRMR-a" "1970-01-01T00:00:00Z") 17
    "PRMR-a" "Server0001" (sampleObserved 10) (by decide) (by decide) (by decide)
    (Or.inr (by decide)) (by decide)
  ⟨r, h1, h2, h3, h4, by rw [h7]; rfl⟩

/-- C5, as stated, fails in a round in which the thread is stopping: for the
DB server `PRMR-a`, persisted `BAD`, silent for ten seconds and without an
entry under `/Target/FailedServers`, the computed status is `FAILED` and the
envelope is filled by the FailedServer job of id 17, but the test of line 536
fails and the round submits no tuple at all. -/
theorem check_bad_to_failed_stopping :
    hasRolePrefix "PRMR-a" "PRMR" = true ∧
    (loadRecords (sampleSnapshot "PRMR-a" "BAD" [])
      (sampleTransient "PRMR-a" "1970-01-01T00:00:00Z") "PRMR-a" "Server0001").2.status =
      HEALTH_STATUS_BAD ∧
    (refreshTransist sampleSettings (sampleTransient "PRMR-a" "1970-01-01T00:00:00Z") "PRMR-a"
      (loadRecords (sampleSnapshot "PRMR-a" "BAD" [])
        (sampleTransient "PRMR-a" "1970-01-01T00:00:00Z") "PRMR-a" "Server0001").1
      (stoppingObserved 10)).status = HEALTH_STATUS_FAILED ∧
    (sampleSnapshot "PRMR-a" "BAD" []).has (failedServersPrefix ++ "/" ++ "PRMR-a") = false ∧
    ((checkMachine sampleSettings (sampleSnapshot "PRMR-a" "BAD" [])
      (sampleTransient "PRMR-a" "1970-01-01T00:00:00Z") 17 "PRMR-a"
      (stoppingObserved 10)).persisted.map HealthRecord.status) = some HEALTH_STATUS_FAILED ∧
    (checkMachine sampleSettings (sampleSnapshot "PRMR-a" "BAD" [])
      (sampleTransient "PRMR-a" "1970-01-01T00:00:00Z") 17 "PRMR-a"
      (stoppingObserved 10)).calls.length = 0 := by
  decide

/-- C5, amended by the test of line 536: for a DB server whose short name has
arrived, with persisted status `BAD`, computed status `FAILED` and no entry
`/Target/FailedServers/<id>`, a round of `check` builds one persistent tuple:
its operations object holds the health record with status `FAILED` followed by
every operation of the FailedServer job created with the current job id, and
the preconditions object of the job, when the job envelope has one, is the
second element of that tuple. If the thread is not stopping the round submits
exactly that tuple as its one persistent write, followed by the transient
report when the write was applied; if the thread is stopping it submits
nothing. The job envelope is taken well formed: an array that starts with the
operations object and whose second element, if any, is an object; an accepted
reply is taken to carry an index. -/
theorem check_dbserver_bad_to_failed (s : Settings) (snapshot transient : Node) (jobId : Nat)
    (serverID shortName : String) (o : Observed) (ops : List (String × VPack))
    (rest : List VPack)
    (hsn : snapshot.hasAsString (targetShortID ++ serverID ++ "/ShortName") = (shortName, true))
    (hrole : hasRolePrefix serverID "PRMR" = true)
    (hP : (loadRecords snapshot transient serverID shortName).2.status = HEALTH_STATUS_BAD)
    (hT : (refreshTransist s transient serverID
        (loadRecords snapshot transient serverID shortName).1 o).status = HEALTH_STATUS_FAILED)
    (hfs : snapshot.has (failedServersPrefix ++ "/" ++ serverID) = false)
    (hjob : s.jobs.failedServerCreate snapshot (toString jobId) "supervision" serverID =
      .arr (.obj ops :: rest))
    (hrest : rest = [] ∨ ∃ precs more, rest = .obj precs :: more)
    (hres : o.res.accepted = true → o.res.indices ≠ []) :
    ∃ r, checkMachine s snapshot transient jobId serverID o = .done r ∧
      r.persist.status = HEALTH_STATUS_FAILED ∧
      r.envelope = some (.failedServer (toString jobId) "supervision" serverID) ∧
      r.pReport = some (.arr (.obj ((healthPrefix ++ serverID,
        .obj (r.persist.toVelocyPack (s.timepointToString o.nowPReport))) :: ops) ::
          rest.take 1)) ∧
      r.calls =
        (if o.stopping = true then []
        else
          AgentCall.singleWriteTransaction (.arr (.obj ((healthPrefix ++ serverID,
              .obj (r.persist.toVelocyPack (s.timepointToString o.nowPReport))) :: ops) ::
                rest.take 1)) ::
            (if o.res.accepted = true ∧ o.res.indices.head? ≠ some 0 then
              [AgentCall.transient r.tReport] else [])) := by
  have hFG : HEALTH_STATUS_FAILED ≠ HEALTH_STATUS_GOOD := by decide
  have hBG : HEALTH_STATUS_BAD ≠ HEALTH_STATUS_GOOD := by decide
  have hch : (refreshTransist s transient serverID
      (loadRecords snapshot transient serverID shortName).1 o).statusDiff
      (loadRecords snapshot transient serverID shortName).2 = true := by
    simp [HealthRecord.statusDiff, hP, hT, status_consts]
  unfold checkMachine
  simp only [hsn, if_true]
  unfold checkBody
  simp only [hch, if_true, handleOnStatus, hrole, handleOnStatusDBServer, hT, hFG, hBG,
    if_false, hP, hfs, false_and, and_self, Bool.not_false, Option.map_some', Envelope.slice,
    hjob, List.map_nil, List.nil_append]
  rcases hrest with hr | ⟨precs, more, hr⟩ <;> subst hr <;>
    simp only [pReportOf, Option.map_some'] <;>
    rw [submit_changed_gen _ _ _ _ hres] <;>
    cases hs : o.stopping <;>
    by_cases hc : o.res.accepted = true ∧ o.res.indices.head? ≠ some 0 <;>
    simp [hc, hT, HealthRecord.assignRecord, tReportOf]

/-- Witness for C5: `PRMR-a`, persisted `BAD`, silent for ten seconds, with
the sample FailedServer job of id 17, in a round that is not stopping and
whose write is applied. -/
theorem check_dbserver_bad_to_failed_witness :
    ∃ r, checkMachine sampleSettings (sampleSnapshot "PRMR-a" "BAD" [])
        (sampleTransient "PRMR-a" "1970-01-01T00:00:00Z") 17 "PRMR-a" (sampleObserved 10) =
        .done r ∧
      r.persist.status = HEALTH_STATUS_FAILED ∧
      r.envelope = some (.failedServer "17" "supervision" "PRMR-a") ∧
      r.calls.filter AgentCall.isPersistent =
        [AgentCall.singleWriteTransaction (.arr [
          .obj [("/Supervision/Health/PRMR-a",
              .obj (r.persist.toVelocyPack "1970-01-01T00:00:10Z")),
            ("/Target/ToDo/17", .obj [("type", .str "failedServer"),
              ("server", .str "PRMR-a"), ("jobId", .str "17"),
              ("creator", .str "supervision")]),
            ("/Target/FailedServers/PRMR-a", .arr [])],
          .obj [("/Target/FailedServers/PRMR-a", .obj [("oldEmpty", .bool true)])]])] :=
  let ⟨r, h1, h2, h3, _, h5⟩ := check_dbserver_bad_to_failed sampleSettings
    (sampleSnapshot "PRMR-a" "BAD" []) (sampleTransient "PRMR-a" "1970-01-01T00:00:00Z") 17
    "PRMR-a" "Server0001" (sampleObserved 10)
    [("/Target/ToDo/17", .obj [("type", .str "failedServer"), ("server", .str "PRMR-a"),
        ("jobId", .str "17"), ("creator", .str "supervision")]),
      ("/Target/FailedServers/PRMR-a", .arr [])]
    [.obj [("/Target/FailedServers/PRMR-a", .obj [("oldEmpty", .bool true)])]]
    (by decide) (by decide) (by decide) (by decide) (by decide) rfl
    (Or.inr ⟨_, _, rfl⟩) (by decide)
  ⟨r, h1, h2, h3, by rw [h5]; rfl⟩

/-- C6: for a DB server whose short name has arrived, whose computed status is
`GOOD` and whose record changed against the persisted one, a round of `check`
that is not stopping sends one persistent tuple without preconditions and
without a job: if `/Target/FailedServers/<id>` exists in the snapshot, its
operations are the health record with status `GOOD` and a delete of
`/Target/FailedServers/<id>`; if the entry is absent, the health record
alone. -/
theorem check_dbserver_recovered (s : Settings) (snapshot transient : Node) (jobId : Nat)
    (serverID shortName : String) (o : Observed)
    (hsn : snapshot.hasAsString (targetShortID ++ serverID ++ "/ShortName") = (shortName, true))
    (hrole : hasRolePrefix serverID "PRMR" = true)
    (hT : (refreshTransist s transient serverID
        (loadRecords snapshot transient serverID shortName).1 o).status = HEALTH_STATUS_GOOD)
    (hch : (refreshTransist s transient serverID
        (loadRecords snapshot transient serverID shortName).1 o).statusDiff
        (loadRecords snapshot transient serverID shortName).2 = true)
    (hstop : o.stopping = false) (hres : o.res.accepted = true → o.res.indices ≠ []) :
    ∃ r, checkMachine s snapshot transient jobId serverID o = .done r ∧
      r.persist.status = HEALTH_STATUS_GOOD ∧
      (∀ e, r.envelope = some e → e.isJob = false) ∧
      r.pReport = some (.arr [.obj ((healthPrefix ++ serverID,
        .obj (r.persist.toVelocyPack (s.timepointToString o.nowPReport))) ::
          (if snapshot.has (failedServersPrefix ++ "/" ++ serverID) then
            [(failedServersPrefix ++ "/" ++ serverID, .obj [("op", .str "delete")])]
          else []))]) ∧
      r.calls = AgentCall.singleWriteTransaction (.arr [.obj ((healthPrefix ++ serverID,
        .obj (r.persist.toVelocyPack (s.timepointToString o.nowPReport))) ::
          (if snapshot.has (failedServersPrefix ++ "/" ++ serverID) then
            [(failedServersPrefix ++ "/" ++ serverID, .obj [("op", .str "delete")])]
          else []))]) ::
        (if o.res.accepted = true ∧ o.res.indices.head? ≠ some 0 then
          [AgentCall.transient r.tReport] else []) := by
  unfold checkMachine
  simp only [hsn, if_true]
  unfold checkBody
  simp only [hch, if_true, handleOnStatus, hrole, handleOnStatusDBServer, hT]
  cases hfs : snapshot.has (failedServersPrefix ++ "/" ++ serverID) <;>
    simp only [Bool.false_eq_true, if_false, if_true, Option.map_none', Option.map_some',
      Envelope.slice, pReportOf, List.map_nil, List.nil_append] <;>
    rw [submit_changed _ _ _ _ hstop hres] <;>
    by_cases hc : o.res.accepted = true ∧ o.res.indices.head? ≠ some 0 <;>
    simp [hc, hT, HealthRecord.assignRecord, tReportOf, Envelope.isJob]

/-- Witness for C6: `PRMR-a`, persisted `FAILED` and listed under
`/Target/FailedServers`, with a fresh heartbeat. -/
theorem check_dbserver_recovered_witness :
    ∃ r, checkMachine sampleSettings
        (sampleSnapshot "PRMR-a" "FAILED" [("PRMR-a", .object [])])
        (sampleTransient "PRMR-a" "1970-01-01T00:00:10Z") 17 "PRMR-a" (sampleObserved 10) =
        .done r ∧
      r.persist.status = HEALTH_STATUS_GOOD ∧
      r.envelope = some (.deleteFailedServer "/Target/FailedServers/PRMR-a") :=
  let ⟨r, h1, h2, _, _, _⟩ := check_dbserver_recovered sampleSettings
    (sampleSnapshot "PRMR-a" "FAILED" [("PRMR-a", .object [])])
    (sampleTransient "PRMR-a" "1970-01-01T00:00:10Z") 17
    "PRMR-a" "Server0001" (sampleObserved 10) (by decide) (by decide) (by decide) (by decide)
    (by decide) (by decide)
  ⟨r, h1, h2, by
    have h := congrArg (fun out => match out with
      | Outcome.done r => r.envelope
      | _ => none) h1
    simp only at h
    rw [← h]
    decide⟩

/-! ## Coordinators and single servers -/

/-- C7: for a coordinator id (prefix `CRDN`), `handleOnStatus` writes
`/Current/Foxxmaster` to the empty string if and only if the transient status
is `FAILED` and `/Current/Foxxmaster` in the snapshot holds that id; in every
case it fills no envelope and leaves both records as they were. -/
theorem handleOnStatus_coordinator (snapshot : Node) (persisted transisted : HealthRecord)
    (serverID : String) (jobId : Nat) (hc : hasRolePrefix serverID "CRDN" = true) :
    ((handleOnStatus snapshot persisted transisted serverID jobId).writes =
        [.arr [.obj [(foxxmaster, .str "")]]] ↔
      (transisted.status = HEALTH_STATUS_FAILED ∧
        snapshot.get foxxmaster = some (.value (.str serverID)))) ∧
    ((handleOnStatus snapshot persisted transisted serverID jobId).writes = [] ↔
      ¬ (transisted.status = HEALTH_STATUS_FAILED ∧
        snapshot.get foxxmaster = some (.value (.str serverID)))) ∧
    (handleOnStatus snapshot persisted transisted serverID jobId).envelope = none ∧
    (handleOnStatus snapshot persisted transisted serverID jobId).persisted = persisted ∧
    (handleOnStatus snapshot persisted transisted serverID jobId).transisted = transisted := by
  have hp : hasRolePrefix serverID "PRMR" = false := hasRolePrefix_excl hc (by decide)
  have hne : serverID ≠ "" := by
    intro h; subst h; revert hc; decide
  have hiff := Node.hasAsString_eq_iff snapshot foxxmaster serverID hne
  unfold handleOnStatus handleOnStatusCoordinator
  simp only [hp, hc, Bool.false_eq_true, if_false, if_true]
  by_cases h1 : transisted.status = HEALTH_STATUS_FAILED <;>
    by_cases h2 : (snapshot.hasAsString foxxmaster).1 = serverID <;>
    simp [h1, h2, ← hiff]

/-- Witness for C7: the failed coordinator `CRDN-a` is the Foxxmaster. -/
theorem handleOnStatus_coordinator_witness :
    hasRolePrefix "CRDN-a" "CRDN" = true ∧
    (handleOnStatus (.object [("Current", .object [("Foxxmaster", .value (.str "CRDN-a"))])])
      recBad recFailed "CRDN-a" 17).writes = [.arr [.obj [(foxxmaster, .str "")]]] :=
  ⟨by decide, (handleOnStatus_coordinator
    (.object [("Current", .object [("Foxxmaster", .value (.str "CRDN-a"))])])
    recBad recFailed "CRDN-a" 17 (by decide)).1.2 ⟨by decide, rfl⟩⟩

/-- C8: `handleOnStatusSingle` is `handleOnStatusDBServer` with an
ActiveFailover job in the place of the FailedServer job: the two leave the
same transient status, fill the envelope in the same cases, fill the same
delete envelope in the `GOOD` case, and differ only where the persisted status
is `BAD` and the transient status `FAILED`, by the kind of job. -/
theorem handleOnStatusSingle_refines (snapshot : Node) (persisted transisted : HealthRecord)
    (serverID : String) (jobId : Nat) :
    handleOnStatusSingle snapshot persisted transisted serverID jobId =
      handleOnStatusSingleSpec snapshot persisted transisted serverID jobId ∧
    (handleOnStatusSingle snapshot persisted transisted serverID jobId).transisted =
      (handleOnStatusDBServer snapshot persisted transisted serverID jobId).transisted ∧
    (handleOnStatusSingle snapshot persisted transisted serverID jobId).envelope.isSome =
      (handleOnStatusDBServer snapshot persisted transisted serverID jobId).envelope.isSome ∧
    (transisted.status = HEALTH_STATUS_GOOD →
      (handleOnStatusSingle snapshot persisted transisted serverID jobId).envelope =
        (handleOnStatusDBServer snapshot persisted transisted serverID jobId).envelope) ∧
    ((handleOnStatusSingle snapshot persisted transisted serverID jobId).envelope ≠
        (handleOnStatusDBServer snapshot persisted transisted serverID jobId).envelope →
      persisted.status = HEALTH_STATUS_BAD ∧ transisted.status = HEALTH_STATUS_FAILED ∧
      (handleOnStatusDBServer snapshot persisted transisted serverID jobId).envelope =
        some (.failedServer (toString jobId) "supervision" serverID) ∧
      (handleOnStatusSingle snapshot persisted transisted serverID jobId).envelope =
        some (.activeFailover (toString jobId) "supervision" serverID)) := by
  unfold handleOnStatusSingleSpec handleOnStatusSingle handleOnStatusDBServer
  by_cases h1 : transisted.status = HEALTH_STATUS_GOOD <;>
    by_cases h2 : persisted.status = HEALTH_STATUS_GOOD <;>
    by_cases h3 : persisted.status = HEALTH_STATUS_BAD <;>
    by_cases h4 : transisted.status = HEALTH_STATUS_FAILED <;>
    cases h5 : snapshot.has (failedServersPrefix ++ "/" ++ serverID) <;>
    simp_all [asActiveFailover, status_consts]

/-! ## Reading and writing health records -/

/-- C9: assigning a node to a blank record gives version 2 exactly when the
node has `Status` and `SyncStatus` (with `syncStatus`, `syncTime`, `lastAcked`
read from `SyncStatus`, `SyncTime`, `LastAcked`), version 1 exactly when it has
`Status` and `LastHeartbeatStatus` but no `SyncStatus` (read from
`LastHeartbeatStatus`, `LastHeartbeatSent`, `LastHeartbeatAcked`), and version
0 otherwise; without a `Status` key the fields `status`, `syncStatus`,
`syncTime`, `lastAcked` and `hostId` are all blank. -/
theorem assignNode_blank_version (node : Node) :
    ((HealthRecord.blank.assignNode node).version = 2 ↔
        (node.has "Status" = true ∧ node.has "SyncStatus" = true)) ∧
    ((HealthRecord.blank.assignNode node).version = 1 ↔
        (node.has "Status" = true ∧ node.has "LastHeartbeatStatus" = true ∧
          node.has "SyncStatus" = false)) ∧
    ((HealthRecord.blank.assignNode node).version = 0 ↔
        ¬ (node.has "Status" = true ∧
          (node.has "SyncStatus" = true ∨ node.has "LastHeartbeatStatus" = true))) ∧
    ((HealthRecord.blank.assignNode node).version = 2 →
        (HealthRecord.blank.assignNode node).syncStatus = (node.hasAsString "SyncStatus").1 ∧
        (HealthRecord.blank.assignNode node).syncTime = (node.hasAsString "SyncTime").1 ∧
        (HealthRecord.blank.assignNode node).lastAcked = (node.hasAsString "LastAcked").1) ∧
    ((HealthRecord.blank.assignNode node).version = 1 →
        (HealthRecord.blank.assignNode node).syncStatus =
          (node.hasAsString "LastHeartbeatStatus").1 ∧
        (HealthRecord.blank.assignNode node).syncTime =
          (node.hasAsString "LastHeartbeatSent").1 ∧
        (HealthRecord.blank.assignNode node).lastAcked =
          (node.hasAsString "LastHeartbeatAcked").1) ∧
    (node.has "Status" = false →
        (HealthRecord.blank.assignNode node).status = "" ∧
        (HealthRecord.blank.assignNode node).syncStatus = "" ∧
        (HealthRecord.blank.assignNode node).syncTime = "" ∧
        (HealthRecord.blank.assignNode node).lastAcked = "" ∧
        (HealthRecord.blank.assignNode node).hostId = "") := by
  cases h1 : node.has "Status" <;> cases h2 : node.has "SyncStatus" <;>
    cases h3 : node.has "LastHeartbeatStatus" <;>
    cases h4 : node.has "SyncTime" <;> cases h5 : node.has "LastAcked" <;>
    cases h6 : node.has "LastHeartbeatSent" <;> cases h7 : node.has "LastHeartbeatAcked" <;>
    cases h8 : node.has "Host" <;>
    simp [HealthRecord.assignNode, HealthRecord.assignStatusPart, HealthRecord.blank, h1, h2, h3,
      h4, h5, h6, h7, h8, Node.hasAsString_of_not_has]

/-- C10: for a record of any version, `toVelocyPack` emits the keys
`ShortName`, `Endpoint`, `Host`, `SyncStatus` and `Status` with the fields of
the record, followed by `Timestamp` alone when `syncTime` is empty and by
`SyncTime` and `LastAcked` alone when it is not; it never emits
`LastHeartbeatStatus`, `LastHeartbeatSent` or `LastHeartbeatAcked`. -/
theorem toVelocyPack_keys (r : HealthRecord) (now : String) :
    (r.toVelocyPack now).map Prod.fst =
      ["ShortName", "Endpoint", "Host", "SyncStatus", "Status"] ++
        (if r.syncTime = "" then ["Timestamp"] else ["SyncTime", "LastAcked"]) ∧
    (r.toVelocyPack now).map Prod.snd =
      [.str r.shortName, .str r.endpoint, .str r.hostId, .str r.syncStatus, .str r.status] ++
        (if r.syncTime = "" then [.str now] else [.str r.syncTime, .str r.lastAcked]) ∧
    (∀ k ∈ ["LastHeartbeatStatus", "LastHeartbeatSent", "LastHeartbeatAcked"],
      k ∉ (r.toVelocyPack now).map Prod.fst) := by
  unfold HealthRecord.toVelocyPack
  by_cases h : r.syncTime = "" <;> simp [h]

/-! ## Names of a health record -/

theorem assignStatusPart_names (r : HealthRecord) (node : Node) :
    (r.assignStatusPart node).shortName = r.shortName ∧
    (r.assignStatusPart node).endpoint = r.endpoint := by
  unfold HealthRecord.assignStatusPart
  simp only
  split_ifs <;> simp

theorem assignNode_names (r : HealthRecord) (node : Node) :
    (r.assignNode node).shortName =
      (if r.shortName = "" then (node.hasAsString "ShortName").1 else r.shortName) ∧
    (r.assignNode node).endpoint =
      (if r.endpoint = "" then (node.hasAsString "Endpoint").1 else r.endpoint) := by
  unfold HealthRecord.assignNode
  simp only
  split_ifs <;> simp [assignStatusPart_names]

theorem foldl_assignNode_names (nodes : List Node) :
    ∀ r : HealthRecord,
      (nodes.foldl HealthRecord.assignNode r).shortName =
        firstNonEmpty (r.shortName :: nodes.map fun node => (node.hasAsString "ShortName").1) ∧
      (nodes.foldl HealthRecord.assignNode r).endpoint =
        firstNonEmpty (r.endpoint :: nodes.map fun node => (node.hasAsString "Endpoint").1) := by
  induction nodes with
  | nil =>
    intro r
    constructor
    · by_cases h : r.shortName = "" <;> simp [firstNonEmpty, h]
    · by_cases h : r.endpoint = "" <;> simp [firstNonEmpty, h]
  | cons node rest ih =>
    intro r
    obtain ⟨h1, h2⟩ := assignNode_names r node
    obtain ⟨i1, i2⟩ := ih (r.assignNode node)
    simp only [List.foldl_cons, List.map_cons]
    rw [i1, i2, h1, h2]
    constructor
    · by_cases h : r.shortName = "" <;> simp [firstNonEmpty, h]
    · by_cases h : r.endpoint = "" <;> simp [firstNonEmpty, h]

/-- C11, as stated, fails for the assignment from another record: a record
with short name and endpoint that is assigned a blank record has neither. In
`check` this is line 502: the persisted record of `PRMR-a` has an endpoint,
the server is not registered and has no transient record, and the record that
the round persists has an empty endpoint. -/
theorem assignRecord_clears_names :
    (HealthRecord.mk3 "Server0001" "tcp://host:8529" "host").shortName ≠ "" ∧
    (HealthRecord.mk3 "Server0001" "tcp://host:8529" "host").endpoint ≠ "" ∧
    ((HealthRecord.mk3 "Server0001" "tcp://host:8529" "host").assignRecord
      HealthRecord.blank).shortName = "" ∧
    ((HealthRecord.mk3 "Server0001" "tcp://host:8529" "host").assignRecord
      HealthRecord.blank).endpoint = "" ∧
    (loadRecords (sampleSnapshot "PRMR-a" "GOOD" []) (.object []) "PRMR-a"
      "Server0001").2.endpoint = "tcp://host:8529" ∧
    ((checkMachine sampleSettings (sampleSnapshot "PRMR-a" "GOOD" []) (.object []) 17 "PRMR-a"
      (sampleObserved 10)).persisted.map fun r => r.endpoint) = some "" ∧
    (checkMachine sampleSettings (sampleSnapshot "PRMR-a" "GOOD" []) (.object []) 17 "PRMR-a"
      (sampleObserved 10)).persistedStatuses "PRMR-a" = [HEALTH_STATUS_GOOD] := by
  decide

/-- C11, amended to the assignment from store nodes: after any run of nodes
assigned into a record, a short name (an endpoint) that was non-empty is
unchanged, and in general it is the first non-empty value among the one of
the record and those of the nodes; the assignment from another record sets
short name and endpoint to those of the other record. -/
theorem assignNode_keeps_names (r : HealthRecord) (nodes : List Node) (other : HealthRecord) :
    (r.shortName ≠ "" → (nodes.foldl HealthRecord.assignNode r).shortName = r.shortName) ∧
    (r.endpoint ≠ "" → (nodes.foldl HealthRecord.assignNode r).endpoint = r.endpoint) ∧
    (nodes.foldl HealthRecord.assignNode r).shortName =
      firstNonEmpty (r.shortName :: nodes.map fun node => (node.hasAsString "ShortName").1) ∧
    (nodes.foldl HealthRecord.assignNode r).endpoint =
      firstNonEmpty (r.endpoint :: nodes.map fun node => (node.hasAsString "Endpoint").1) ∧
    (r.assignRecord other).shortName = other.shortName ∧
    (r.assignRecord other).endpoint = other.endpoint := by
  obtain ⟨h1, h2⟩ := foldl_assignNode_names nodes r
  refine ⟨?_, ?_, h1, h2, rfl, rfl⟩
  · intro h; rw [h1]; simp [firstNonEmpty, h]
  · intro h; rw [h2]; simp [firstNonEmpty, h]

/-! ## The removal sweep -/

theorem foldl_filter_planned (planned : List (String × Node)) :
    ∀ candidates : List String,
      planned.foldl (fun acc machine => acc.filter fun srv => srv ≠ machine.1) candidates =
        candidates.filter fun id => !(planned.map Prod.fst).contains id := by
  induction planned with
  | nil => intro candidates; simp
  | cons machine rest ih =>
    intro candidates
    simp only [List.foldl_cons, ih, List.filter_filter, List.map_cons]
    apply List.filter_congr
    intro x _
    by_cases h : x = machine.1 <;> simp [h]

theorem roleMatches_eq (type id : String)
    (htype : type = "DBServers" ∨ type = "Coordinators" ∨ type = "Singles") :
    roleMatches type id = hasRolePrefix id (rolePrefixOf type) := by
  rcases htype with h | h | h <;> subst h <;> simp [roleMatches, rolePrefixOf]

/-- C12: for the role types `DBServers`, `Coordinators` and `Singles`, the
removal sweep of `check(type)` deletes exactly the ids under
`/Supervision/Health` that start with the prefix of the role and have no entry
under `/Plan/<type>`; the deletions form one tuple with one delete operation
per id, sent in one write, and nothing is written when there is no such id. -/
theorem check_removal_sweep (s : Settings) (agencyPrefix : String) (snapshot transient : Node)
    (obs : String → Observed) (jobId : Nat) (type : String)
    (htype : type = "DBServers" ∨ type = "Coordinators" ∨ type = "Singles") :
    (check s agencyPrefix snapshot transient obs jobId type).todelete =
      ((snapshot.hasAsChildren healthPrefix).1.map Prod.fst).filter (fun id =>
        hasRolePrefix id (rolePrefixOf type) &&
          !((snapshot.hasAsChildren ("Plan/" ++ type)).1.map Prod.fst).contains id) ∧
    (check s agencyPrefix snapshot transient obs jobId type).removal =
      (if (check s agencyPrefix snapshot transient obs jobId type).todelete = [] then []
       else [AgentCall.write (.arr [.arr [.obj
        ((check s agencyPrefix snapshot transient obs jobId type).todelete.map fun id =>
          (agencyPrefix ++ healthPrefix ++ id, .obj [("op", .str "delete")]))]])]) := by
  constructor
  · simp only [check, todelete, machinesPlanned, foldl_filter_planned, List.filter_map,
      List.filter_filter]
    congr 1
    apply List.filter_congr
    intro x _
    simp [roleMatches_eq type x.1 htype, Bool.and_comm]
  · simp only [check, removalSweep, removeTransactionBuilder]
    by_cases h : todelete snapshot type = [] <;> simp [h]

/-- Witness for C12: of six health records, the sweep for DB servers deletes
`PRMR-b` and `PRMR-c`. -/
theorem check_removal_sweep_witness :
    (check sampleSettings "/arango" sweepSnapshot (.object []) (fun _ => sampleObserved 10) 17
      "DBServers").todelete = ["PRMR-b", "PRMR-c"] ∧
    (check sampleSettings "/arango" sweepSnapshot (.object []) (fun _ => sampleObserved 10) 17
      "DBServers").removal = [AgentCall.write (.arr [.arr [.obj
        [("/arango/Supervision/Health/PRMR-b", .obj [("op", .str "delete")]),
         ("/arango/Supervision/Health/PRMR-c", .obj [("op", .str "delete")])]]])] := by
  have h := check_removal_sweep sampleSettings "/arango" sweepSnapshot (.object [])
    (fun _ => sampleObserved 10) 17 "DBServers" (Or.inl rfl)
  have h1 : (check sampleSettings "/arango" sweepSnapshot (.object [])
      (fun _ => sampleObserved 10) 17 "DBServers").todelete = ["PRMR-b", "PRMR-c"] := by
    rw [h.1]; decide
  refine ⟨h1, ?_⟩
  rw [h.2, h1]
  rfl

/-! ## One round of the monitoring loop, in general -/

theorem wellFormed_pReportOf (key : String) (record : List (String × VPack)) (v : VPack)
    (h : wellFormedEnvelope v) : ∃ p, pReportOf key record (some v) = some p := by
  unfold wellFormedEnvelope at h
  split at h
  · exact ⟨_, rfl⟩
  · exact ⟨_, rfl⟩
  · exact absurd h id

theorem wellFormed_slice (jobs : Jobs) (snapshot : Node) (hwf : jobs.WellFormed snapshot)
    (e : Envelope) : wellFormedEnvelope (e.slice jobs snapshot) := by
  cases e with
  | deleteFailedServer path => simp [Envelope.slice, wellFormedEnvelope]
  | failedServer jobId creator server => exact (hwf jobId creator server).1
  | activeFailover jobId creator server => exact (hwf jobId creator server).2

theorem pReportOf_envelope (jobs : Jobs) (snapshot : Node) (hwf : jobs.WellFormed snapshot)
    (key : String) (record : List (String × VPack)) (e : Option Envelope) :
    ∃ p, pReportOf key record (e.map (Envelope.slice jobs snapshot)) = some p := by
  cases e with
  | none => exact ⟨_, rfl⟩
  | some e => exact wellFormed_pReportOf key record _ (wellFormed_slice jobs snapshot hwf e)

/-! ## Health records and the plan -/

/-- An id under health that matches the role class and is not deleted by the
sweep is planned in that class. -/
theorem planned_of_not_todelete (snapshot : Node) (type id : String)
    (hid : id ∈ (snapshot.hasAsChildren healthPrefix).1.map Prod.fst)
    (hrole : roleMatches type id = true) (hdel : id ∉ todelete snapshot type) :
    id ∈ (machinesPlanned snapshot type).map Prod.fst := by
  by_contra hnot
  apply hdel
  simp only [todelete, foldl_filter_planned, List.mem_filter, List.mem_map]
  refine ⟨?_, by simpa using hnot⟩
  rw [List.mem_map] at hid
  obtain ⟨m, hm, rfl⟩ := hid
  exact ⟨m, ⟨hm, hrole⟩, rfl⟩

theorem checkLoop_ids (s : Settings) (snapshot transient : Node) (obs : String → Observed)
    (machines : List (String × Node)) :
    ∀ jobId, ∀ round ∈ (checkLoop s snapshot transient obs machines jobId).1,
      round.1 ∈ machines.map Prod.fst := by
  induction machines with
  | nil => intro jobId round h; simp [checkLoop] at h
  | cons machine rest ih =>
    intro jobId round h
    unfold checkLoop at h
    split at h
    · simp only [List.mem_cons] at h
      rcases h with h | h
      · subst h; simp
      · exact List.mem_cons_of_mem _ (by simpa using ih _ round h)
    · simp only [List.mem_singleton] at h
      subst h; simp
    · simp only [List.mem_cons] at h
      rcases h with h | h
      · subst h; simp
      · exact List.mem_cons_of_mem _ (by simpa using ih _ round h)

theorem mem_healthIdsAfter (applied : String → Bool) (runs : List CheckRun) :
    ∀ (ids : List String) (x : String), x ∈ runs.foldl (healthIdsAfterCheck applied) ids →
      (x ∈ ids ∧ ∀ run ∈ runs, x ∉ run.todelete) ∨
      ∃ run ∈ runs, x ∈ run.rounds.map Prod.fst := by
  induction runs with
  | nil => intro ids x h; exact Or.inl ⟨h, by simp⟩
  | cons run rest ih =>
    intro ids x h
    rw [List.foldl_cons] at h
    rcases ih _ x h with ⟨h1, h2⟩ | ⟨r, hr, hx⟩
    · unfold healthIdsAfterCheck at h1
      rw [List.mem_append] at h1
      rcases h1 with h1 | h1
      · rw [List.mem_filter] at h1
        left
        refine ⟨h1.1, ?_⟩
        intro r hr
        rcases List.mem_cons.mp hr with hr | hr
        · subst hr; simpa using h1.2
        · exact h2 r hr
      · right
        refine ⟨run, List.mem_cons_self _ _, ?_⟩
        rw [List.mem_map] at h1 ⊢
        obtain ⟨round, hround, rfl⟩ := h1
        exact ⟨round, (List.mem_filter.mp hround).1, rfl⟩
    · exact Or.inr ⟨r, List.mem_cons_of_mem _ hr, hx⟩

theorem plannedIds_of_type (snapshot : Node) (type id : String)
    (htype : type = "DBServers" ∨ type = "Coordinators" ∨ type = "Singles")
    (h : id ∈ (machinesPlanned snapshot type).map Prod.fst) : id ∈ plannedIds snapshot := by
  unfold plannedIds
  simp only [List.map_append, List.mem_append]
  rcases htype with h1 | h1 | h1 <;> subst h1 <;> simp [h]

theorem doChecks_full (s : Settings) (agencyPrefix : String) (snapshot transient : Node)
    (obs : String → Observed) (jobId : Nat)
    (hfull : ∀ run ∈ doChecks s agencyPrefix snapshot transient obs jobId,
      run.isAborted = false) :
    ∃ j1 j2, doChecks s agencyPrefix snapshot transient obs jobId =
      [check s agencyPrefix snapshot transient obs jobId "DBServers",
       check s agencyPrefix snapshot transient obs j1 "Coordinators",
       check s agencyPrefix snapshot transient obs j2 "Singles"] := by
  unfold doChecks at hfull ⊢
  simp only at hfull ⊢
  split_ifs at hfull ⊢ with h1 h2
  · have := hfull _ (List.mem_singleton.mpr rfl)
    rw [h1] at this; exact absurd this (by decide)
  · have := hfull _ (List.mem_cons_of_mem _ (List.mem_singleton.mpr rfl))
    rw [h2] at this; exact absurd this (by decide)
  · exact ⟨_, _, rfl⟩

/-- C13, amended to the ids with a role prefix: after a full tick of `doChecks`
(no call of `check` ended by an exception) whose deletions are accepted, every
id under `/Supervision/Health` whose first four characters are `PRMR`, `CRDN`
or `SNGL` has an entry under `/Plan/DBServers`, `/Plan/Coordinators` or
`/Plan/Singles`, whichever persistent reports of the tick were applied. -/
theorem doChecks_health_planned (s : Settings) (agencyPrefix : String)
    (snapshot transient : Node) (obs : String → Observed) (jobId : Nat)
    (applied : String → Bool)
    (hfull : ∀ run ∈ doChecks s agencyPrefix snapshot transient obs jobId,
      run.isAborted = false) :
    ∀ id ∈ healthIdsAfter applied snapshot (doChecks s agencyPrefix snapshot transient obs jobId),
      (hasRolePrefix id "PRMR" = true ∨ hasRolePrefix id "CRDN" = true ∨
        hasRolePrefix id "SNGL" = true) → id ∈ plannedIds snapshot := by
  obtain ⟨j1, j2, hruns⟩ := doChecks_full s agencyPrefix snapshot transient obs jobId hfull
  intro id hid hrole
  rw [hruns] at hid
  unfold healthIdsAfter at hid
  rcases mem_healthIdsAfter applied _ _ id hid with ⟨h0, hdel⟩ | ⟨run, hrun, hx⟩
  · rcases hrole with h | h | h
    · exact plannedIds_of_type snapshot "DBServers" id (by simp)
        (planned_of_not_todelete snapshot "DBServers" id h0 (by simp [roleMatches, h])
          (hdel (check s agencyPrefix snapshot transient obs jobId "DBServers") (by simp)))
    · exact plannedIds_of_type snapshot "Coordinators" id (by simp)
        (planned_of_not_todelete snapshot "Coordinators" id h0 (by simp [roleMatches, h])
          (hdel (check s agencyPrefix snapshot transient obs j1 "Coordinators") (by simp)))
    · exact plannedIds_of_type snapshot "Singles" id (by simp)
        (planned_of_not_todelete snapshot "Singles" id h0 (by simp [roleMatches, h])
          (hdel (check s agencyPrefix snapshot transient obs j2 "Singles") (by simp)))
  · simp only [List.mem_cons, List.mem_singleton, List.not_mem_nil, or_false] at hrun
    rw [List.mem_map] at hx
    obtain ⟨round, hround, rfl⟩ := hx
    rcases hrun with h | h | h <;> subst h
    · exact plannedIds_of_type snapshot "DBServers" _ (by simp)
        (checkLoop_ids s snapshot transient obs _ _ round hround)
    · exact plannedIds_of_type snapshot "Coordinators" _ (by simp)
        (checkLoop_ids s snapshot transient obs _ _ round hround)
    · exact plannedIds_of_type snapshot "Singles" _ (by simp)
        (checkLoop_ids s snapshot transient obs _ _ round hround)

/-- C13, as stated, fails for an id of unrecognised prefix. While `XXXX-a` is
planned as a DB server, `check` builds and sends a persistent report for it
(status `GOOD`). Once `XXXX-a` has left the plan, a full tick of `doChecks`
deletes nothing and sends no removal write, and `XXXX-a` is still under
`/Supervision/Health` though no id is planned. -/
theorem doChecks_keeps_unknown_prefix :
    ((doChecks sampleSettings "/arango" (plannedSnapshot "XXXX-a") (.object [])
        (fun _ => sampleObserved 10) 17).map fun run =>
          run.rounds.map fun round =>
            (round.1, round.2.builtReport, round.2.persistedStatuses round.1)) =
      [[("XXXX-a", true, [HEALTH_STATUS_GOOD])], [], []] ∧
    (∀ run ∈ doChecks sampleSettings "/arango" (unplannedSnapshot "XXXX-a") (.object [])
        (fun _ => sampleObserved 10) 17, run.isAborted = false) ∧
    ((doChecks sampleSettings "/arango" (unplannedSnapshot "XXXX-a") (.object [])
        (fun _ => sampleObserved 10) 17).map fun run => (run.todelete, run.removal.length)) =
      [([], 0), ([], 0), ([], 0)] ∧
    healthIdsAfter (fun _ => true) (unplannedSnapshot "XXXX-a")
      (doChecks sampleSettings "/arango" (unplannedSnapshot "XXXX-a") (.object [])
        (fun _ => sampleObserved 10) 17) = ["XXXX-a"] ∧
    plannedIds (unplannedSnapshot "XXXX-a") = [] := by
  decide

/-- Witness for C13: of six health records, the planned `PRMR-a` and `CRDN-a`
and the unplanned `XXXX-a` are left after the tick. -/
theorem doChecks_health_planned_witness :
    (∀ run ∈ doChecks sampleSettings "/arango" sweepSnapshot (.object [])
        (fun _ => sampleObserved 10) 17, run.isAborted = false) ∧
    healthIdsAfter (fun _ => true) sweepSnapshot
      (doChecks sampleSettings "/arango" sweepSnapshot (.object [])
        (fun _ => sampleObserved 10) 17) = ["CRDN-a", "PRMR-a", "XXXX-a"] ∧
    "PRMR-a" ∈ plannedIds sweepSnapshot :=
  ⟨by decide, by decide,
    doChecks_health_planned sampleSettings "/arango" sweepSnapshot (.object [])
      (fun _ => sampleObserved 10) 17 (fun _ => true) (by decide) "PRMR-a" (by decide)
      (Or.inl (by decide))⟩

/-! ## A fresh heartbeat -/

/-- C14, as stated, fails: lines 475 and 482 read the clock twice. With an
`okThreshold` of zero and clock readings one tick apart, the fresh heartbeat of
`PRMR-a` (persisted `GOOD`) gives the status `BAD`, and the round sends a
persistent write with status `BAD`; with the threshold of 1.5 seconds and
readings two seconds apart the status is `BAD` as well. And in a round in
which the thread is stopping, with both readings at the same time point, the
status is `GOOD` and the record did not change, but the test of line 536
fails and the round sends no transient write. -/
theorem check_fresh_heartbeat_not_good :
    ((0 : ℚ) ≤ strictSettings.okThreshold ∧
      (sampleSnapshot "PRMR-a" "GOOD" []).hasAsString
        (targetShortID ++ "PRMR-a" ++ "/ShortName") = ("Server0001", true) ∧
      observedSyncTime strictSettings (sampleTransient "PRMR-a" "1970-01-01T00:00:10Z") "PRMR-a" ≠
        (loadRecords (sampleSnapshot "PRMR-a" "GOOD" [])
          (sampleTransient "PRMR-a" "1970-01-01T00:00:10Z") "PRMR-a" "Server0001").1.syncTime ∧
      (refreshTransist strictSettings (sampleTransient "PRMR-a" "1970-01-01T00:00:10Z") "PRMR-a"
        (loadRecords (sampleSnapshot "PRMR-a" "GOOD" [])
          (sampleTransient "PRMR-a" "1970-01-01T00:00:10Z") "PRMR-a" "Server0001").1
        (tickingObserved 10 11)).status = HEALTH_STATUS_BAD ∧
      (checkMachine strictSettings (sampleSnapshot "PRMR-a" "GOOD" [])
        (sampleTransient "PRMR-a" "1970-01-01T00:00:10Z") 17 "PRMR-a"
        (tickingObserved 10 11)).persistedStatuses "PRMR-a" = [HEALTH_STATUS_BAD]) ∧
    ((0 : ℚ) ≤ sampleSettings.okThreshold ∧
      (refreshTransist sampleSettings (sampleTransient "PRMR-a" "1970-01-01T00:00:10Z") "PRMR-a"
        (loadRecords (sampleSnapshot "PRMR-a" "GOOD" [])
          (sampleTransient "PRMR-a" "1970-01-01T00:00:10Z") "PRMR-a" "Server0001").1
        (tickingObserved 10 12)).status = HEALTH_STATUS_BAD) ∧
    ((refreshTransist sampleSettings (sampleTransient "PRMR-a" "1970-01-01T00:00:10Z") "PRMR-a"
        (loadRecords (sampleSnapshot "PRMR-a" "GOOD" [])
          (sampleTransient "PRMR-a" "1970-01-01T00:00:10Z") "PRMR-a" "Server0001").1
        (stoppingObserved 10)).status = HEALTH_STATUS_GOOD ∧
      (refreshTransist sampleSettings (sampleTransient "PRMR-a" "1970-01-01T00:00:10Z") "PRMR-a"
        (loadRecords (sampleSnapshot "PRMR-a" "GOOD" [])
          (sampleTransient "PRMR-a" "1970-01-01T00:00:10Z") "PRMR-a" "Server0001").1
        (stoppingObserved 10)).statusDiff
        (loadRecords (sampleSnapshot "PRMR-a" "GOOD" [])
          (sampleTransient "PRMR-a" "1970-01-01T00:00:10Z") "PRMR-a" "Server0001").2 = false ∧
      (checkMachine sampleSettings (sampleSnapshot "PRMR-a" "GOOD" [])
        (sampleTransient "PRMR-a" "1970-01-01T00:00:10Z") 17 "PRMR-a"
        (stoppingObserved 10)).isAborted = false ∧
      (checkMachine sampleSettings (sampleSnapshot "PRMR-a" "GOOD" [])
        (sampleTransient "PRMR-a" "1970-01-01T00:00:10Z") 17 "PRMR-a"
        (stoppingObserved 10)).calls.length = 0) := by
  decide

/-- C14, amended by the time between the two clock readings and by the test
of line 536: for a planned server with a short name whose observed heartbeat
time differs from the `syncTime` of its transient record, `check` sets
`lastAcked` to the reading of line 475 and, if the time from that reading to
the reading of line 482 is at most `okThreshold`, computes the status `GOOD`;
if in addition the persisted record has status `GOOD` and the observed
`syncStatus`, the round sends exactly one transient write when the thread is
not stopping and nothing when it is stopping, and in either case builds no
persistent report and no envelope and leaves `jobId` as it was. -/
theorem check_fresh_heartbeat (s : Settings) (snapshot transient : Node) (jobId : Nat)
    (serverID shortName : String) (o : Observed)
    (hsn : snapshot.hasAsString (targetShortID ++ serverID ++ "/ShortName") = (shortName, true))
    (hfresh : observedSyncTime s transient serverID ≠
      (loadRecords snapshot transient serverID shortName).1.syncTime)
    (hclock : mkRat (o.nowElapsed - o.nowAcked) s.ticksPerSecond ≤ s.okThreshold) :
    (refreshTransist s transient serverID
      (loadRecords snapshot transient serverID shortName).1 o).lastAcked =
        s.timepointToString o.nowAcked ∧
    (refreshTransist s transient serverID
      (loadRecords snapshot transient serverID shortName).1 o).status = HEALTH_STATUS_GOOD ∧
    ((loadRecords snapshot transient serverID shortName).2.status = HEALTH_STATUS_GOOD →
      (loadRecords snapshot transient serverID shortName).2.syncStatus =
        observedSyncStatus transient serverID →
      ∃ r, checkMachine s snapshot transient jobId serverID o = .done r ∧
        r.transist.status = HEALTH_STATUS_GOOD ∧
        r.transist.lastAcked = s.timepointToString o.nowAcked ∧
        r.tReport = .arr [.obj [(healthPrefix ++ serverID,
          .obj (r.transist.toVelocyPack (s.timepointToString o.nowTReport)))]] ∧
        r.calls = (if o.stopping = true then [] else [AgentCall.transient r.tReport]) ∧
        r.pReport = none ∧ r.envelope = none ∧ r.jobId = jobId) := by
  have hl : lastAckedTime s transient serverID
      (loadRecords snapshot transient serverID shortName).1 o = o.nowAcked := by
    simp [lastAckedTime, hfresh]
  have hT : (refreshTransist s transient serverID
      (loadRecords snapshot transient serverID shortName).1 o).status = HEALTH_STATUS_GOOD := by
    simp [refreshTransist, healthStatus, elapsed, hl, hclock]
  refine ⟨by simp [refreshTransist, hl], hT, ?_⟩
  intro hP hsync
  have hch : (refreshTransist s transient serverID
      (loadRecords snapshot transient serverID shortName).1 o).statusDiff
      (loadRecords snapshot transient serverID shortName).2 = false := by
    simp only [HealthRecord.statusDiff, hT, hP]
    simp [refreshTransist, hsync]
  unfold checkMachine
  simp only [hsn, if_true]
  unfold checkBody
  simp only [hch, Bool.false_eq_true, if_false, List.map_nil, List.nil_append,
    submit_unchanged]
  exact ⟨_, rfl, hT, by simp [refreshTransist, hl], rfl, rfl, rfl, rfl, rfl⟩

/-- Witness for C14: `PRMR-a`, persisted `GOOD`, with a fresh heartbeat and both
clock readings at time point 10, in a round that is not stopping. -/
theorem check_fresh_heartbeat_witness :
    ∃ r, checkMachine sampleSettings (sampleSnapshot "PRMR-a" "GOOD" [])
        (sampleTransient "PRMR-a" "1970-01-01T00:00:10Z") 17 "PRMR-a" (sampleObserved 10) =
        .done r ∧
      r.transist.status = HEALTH_STATUS_GOOD ∧ r.calls = [AgentCall.transient r.tReport] ∧
      r.jobId = 17 :=
  let ⟨r, h1, h2, _, _, h5, _, _, h8⟩ := (check_fresh_heartbeat sampleSettings
    (sampleSnapshot "PRMR-a" "GOOD" []) (sampleTransient "PRMR-a" "1970-01-01T00:00:10Z") 17
    "PRMR-a" "Server0001" (sampleObserved 10) (by decide) (by decide) (by decide)).2.2
    (by decide) (by decide)
  ⟨r, h1, h2, h5.trans (if_neg (by decide)), h8⟩

/-! ## Persistent and transient writes of a changed record -/

theorem filter_isTransient_writes (writes : List VPack) :
    (writes.map AgentCall.singleWriteTransaction).filter AgentCall.isTransient = [] := by
  induction writes with
  | nil => rfl
  | cons w rest ih => simp [List.filter_cons, AgentCall.isTransient, ih]

/-- C15: for a server whose short name has arrived and whose record changed,
in a round that is not stopping, with well-formed job envelopes: the round
sends the persistent report, which sets the health key of the server; it sends
a transient write, of the health record of that server, exactly when the
persistent write was accepted with a non-zero index, and exactly then `jobId`
grows by one (modulo `2 ^ 64`); otherwise no transient write is sent and
`jobId` is unchanged. -/
theorem check_changed_writes (s : Settings) (snapshot transient : Node) (jobId : Nat)
    (serverID shortName : String) (o : Observed)
    (hsn : snapshot.hasAsString (targetShortID ++ serverID ++ "/ShortName") = (shortName, true))
    (hwf : s.jobs.WellFormed snapshot)
    (hch : (refreshTransist s transient serverID
        (loadRecords snapshot transient serverID shortName).1 o).statusDiff
        (loadRecords snapshot transient serverID shortName).2 = true)
    (hstop : o.stopping = false) (hres : o.res.accepted = true → o.res.indices ≠ []) :
    ∃ r p, checkMachine s snapshot transient jobId serverID o = .done r ∧
      r.changed = true ∧ r.pReport = some p ∧
      writtenAt (healthPrefix ++ serverID) (.singleWriteTransaction p) =
        some (.obj (r.persist.toVelocyPack (s.timepointToString o.nowPReport))) ∧
      r.tReport = .arr [.obj [(healthPrefix ++ serverID,
        .obj (r.transist.toVelocyPack (s.timepointToString o.nowTReport)))]] ∧
      r.calls.filter AgentCall.isPersistent =
        (handleOnStatus snapshot (loadRecords snapshot transient serverID shortName).2
          (refreshTransist s transient serverID
            (loadRecords snapshot transient serverID shortName).1 o)
          serverID jobId).writes.map AgentCall.singleWriteTransaction ++
          [AgentCall.singleWriteTransaction p] ∧
      r.calls.filter AgentCall.isTransient =
        (if o.res.accepted = true ∧ o.res.indices.head? ≠ some 0 then
          [AgentCall.transient r.tReport] else []) ∧
      r.jobId =
        (if o.res.accepted = true ∧ o.res.indices.head? ≠ some 0 then
          (jobId + 1) % 2 ^ 64 else jobId) ∧
      (o.res.accepted = true ∧ o.res.indices.head? ≠ some 0 → jobId + 1 < 2 ^ 64 →
        r.jobId = jobId + 1) := by
  obtain ⟨p, hp⟩ := pReportOf_envelope s.jobs snapshot hwf (healthPrefix ++ serverID)
    (((handleOnStatus snapshot (loadRecords snapshot transient serverID shortName).2
        (refreshTransist s transient serverID
          (loadRecords snapshot transient serverID shortName).1 o) serverID
        jobId).persisted.assignRecord
      (handleOnStatus snapshot (loadRecords snapshot transient serverID shortName).2
        (refreshTransist s transient serverID
          (loadRecords snapshot transient serverID shortName).1 o) serverID
        jobId).transisted).toVelocyPack (s.timepointToString o.nowPReport))
    (handleOnStatus snapshot (loadRecords snapshot transient serverID shortName).2
      (refreshTransist s transient serverID
        (loadRecords snapshot transient serverID shortName).1 o) serverID jobId).envelope
  have hw := writtenAt_pReportOf _ _ _ _ hp
  have hpers : ∀ writes : List VPack,
      (writes.map AgentCall.singleWriteTransaction).filter AgentCall.isPersistent =
        writes.map AgentCall.singleWriteTransaction := by
    intro writes
    induction writes with
    | nil => rfl
    | cons w rest ih => simp [List.filter_cons, AgentCall.isPersistent, ih]
  unfold checkMachine
  simp only [hsn, if_true]
  unfold checkBody
  simp only [hch, if_true, hp, Option.map_some', submit_changed _ _ _ _ hstop hres]
  refine ⟨_, p, rfl, rfl, rfl, hw, rfl, ?_, ?_, ?_, ?_⟩
  · by_cases hc : o.res.accepted = true ∧ o.res.indices.head? ≠ some 0 <;>
      simp [hc, List.filter_append, hpers, List.filter_cons, AgentCall.isPersistent]
  · by_cases hc : o.res.accepted = true ∧ o.res.indices.head? ≠ some 0 <;>
      simp [hc, List.filter_append, filter_isTransient_writes, List.filter_cons,
        AgentCall.isTransient, tReportOf]
  · by_cases hc : o.res.accepted = true ∧ o.res.indices.head? ≠ some 0 <;> simp [hc]
  · intro hc hlt
    rw [if_pos hc]
    exact Nat.mod_eq_of_lt hlt

/-- The sample job constructors yield well-formed envelopes. -/
theorem sampleJobs_wellFormed (snapshot : Node) : sampleJobs.WellFormed snapshot := by
  intro jobId creator server
  simp [sampleJobs, wellFormedEnvelope]

/-- Witness for C15: `PRMR-a`, persisted `BAD`, silent for ten seconds; the
write is accepted at index 7. -/
theorem check_changed_writes_witness :
    ∃ r, checkMachine sampleSettings (sampleSnapshot "PRMR-a" "BAD" [])
        (sampleTransient "PRMR-a" "1970-01-01T00:00:00Z") 17 "PRMR-a" (sampleObserved 10) =
        .done r ∧
      r.calls.filter AgentCall.isTransient = [AgentCall.transient r.tReport] ∧
      r.jobId = 18 :=
  let ⟨r, _, h1, _, _, _, _, _, h7, _, h9⟩ := check_changed_writes sampleSettings
    (sampleSnapshot "PRMR-a" "BAD" []) (sampleTransient "PRMR-a" "1970-01-01T00:00:00Z") 17
    "PRMR-a" "Server0001" (sampleObserved 10) (by decide) (sampleJobs_wellFormed _) (by decide)
    (by decide) (by decide)
  ⟨r, h1, h7.trans (if_pos (by decide)), h9 (by decide) (by decide)⟩

/-! ## The upgrade steps -/

/-- C16: `upgradeOne` appends one tuple if `/Agency/Definition` does not exist
and nothing otherwise; the tuple sets `/Agency/Definition` to 1 and
`/Target/ToDo` and `/Target/Pending` to empty objects, with the one
precondition `oldEmpty = true` on `/Agency/Definition`. -/
theorem upgradeOne_spec (snapshot : Node) :
    (snapshot.get "/Agency/Definition" = none →
      upgradeOne snapshot =
        [.arr [.obj [("/Agency/Definition", .uint 1), ("/Target/ToDo", .obj []),
                     ("/Target/Pending", .obj [])],
               .obj [("/Agency/Definition", .obj [("oldEmpty", .bool true)])]]]) ∧
    (snapshot.get "/Agency/Definition" ≠ none → upgradeOne snapshot = []) := by
  have hpath : snapshot.has "Agency/Definition" = (snapshot.get "/Agency/Definition").isSome := rfl
  unfold upgradeOne
  rw [hpath]
  cases h : snapshot.get "/Agency/Definition" <;> simp

/-! ## The chain of prototypes -/

theorem resolve_of_chainEnd (snap : Node) (db col e : String) (h : ChainEnd snap db col e) :
    ∃ n, ∀ fuel, n ≤ fuel → resolve snap db fuel col = some e := by
  induction h with
  | stop col h =>
    refine ⟨1, ?_⟩
    intro fuel hf
    obtain ⟨f, rfl⟩ : ∃ f, fuel = f + 1 := ⟨fuel - 1, by omega⟩
    simp [resolve, h]
  | step col e h _ ih =>
    obtain ⟨n, hn⟩ := ih
    refine ⟨n + 1, ?_⟩
    intro fuel hf
    obtain ⟨f, rfl⟩ : ∃ f, fuel = f + 1 := ⟨fuel - 1, by omega⟩
    simp only [resolve, h, if_false]
    exact hn f (by omega)

theorem chainEnd_of_resolve (snap : Node) (db : String) :
    ∀ (fuel : Nat) (col e : String), resolve snap db fuel col = some e →
      ChainEnd snap db col e := by
  intro fuel
  induction fuel with
  | zero => intro col e h; simp [resolve] at h
  | succ f ih =>
    intro col e h
    unfold resolve at h
    split_ifs at h with hp
    · simp only [Option.some.injEq] at h
      subst h
      exact ChainEnd.stop col hp
    · exact ChainEnd.step col e hp (ih _ _ h)

theorem chainEnd_unique (snap : Node) (db col e e2 : String) (h : ChainEnd snap db col e)
    (h2 : ChainEnd snap db col e2) : e = e2 := by
  obtain ⟨n, hn⟩ := resolve_of_chainEnd snap db col e h
  obtain ⟨m, hm⟩ := resolve_of_chainEnd snap db col e2 h2
  have a := hn (max n m) (le_max_left _ _)
  have b := hm (max n m) (le_max_right _ _)
  rw [a] at b
  exact Option.some.inj b

theorem concatRounds_uniform {α β : Type} (f : Nat → β → Option (List α)) (g : β → List α)
    (l : List β) (h : ∀ x ∈ l, ∃ n, ∀ fuel, n ≤ fuel → f fuel x = some (g x)) :
    ∃ N, ∀ fuel, N ≤ fuel → concatRounds (l.map (f fuel)) = some ((l.map g).flatten) := by
  induction l with
  | nil => exact ⟨0, fun _ _ => rfl⟩
  | cons x rest ih =>
    obtain ⟨n, hn⟩ := h x (List.mem_cons_self _ _)
    obtain ⟨N, hN⟩ := ih (fun y hy => h y (List.mem_cons_of_mem _ hy))
    refine ⟨max n N, ?_⟩
    intro fuel hf
    have h1 := hn fuel (le_trans (le_max_left _ _) hf)
    have h2 := hN fuel (le_trans (le_max_right _ _) hf)
    simp [concatRounds, h1, h2]

theorem prototypeTuple_eq (db coll u prototype : String) :
    prototypeTuple db coll u prototype =
      .arr [.obj [("/Plan/Collections/" ++ db ++ "/" ++ coll ++ "/distributeShardsLike",
              .str u)],
            .obj [("/Plan/Collections/" ++ db ++ "/" ++ coll ++ "/distributeShardsLike",
              .str prototype)]] := by
  have hp : planColPrefix ++ db ++ "/" ++ coll ++ "/" ++ "distributeShardsLike" =
      "/Plan/Collections/" ++ db ++ "/" ++ coll ++ "/distributeShardsLike" := by
    rw [String.append_assoc _ "/" "distributeShardsLike"]
    rfl
  unfold prototypeTuple
  rw [hp]

theorem fixCollection_uniform (snap : Node) (db : String) (collection : String × Node)
    (endOf : String → String → String)
    (h : collection.2.has "distributeShardsLike" = true →
      (collection.2.hasAsString "distributeShardsLike").1 ≠ "" →
      ChainEnd snap db (collection.2.hasAsString "distributeShardsLike").1
        (endOf db (collection.2.hasAsString "distributeShardsLike").1)) :
    ∃ n, ∀ fuel, n ≤ fuel →
      fixCollection fuel snap db collection = some (expectedTuples endOf db collection) := by
  by_cases h1 : collection.2.has "distributeShardsLike" = true
  · by_cases h2 : (collection.2.hasAsString "distributeShardsLike").1 = ""
    · exact ⟨0, fun fuel _ => by simp [fixCollection, expectedTuples, h1, h2]⟩
    · obtain ⟨n, hn⟩ := resolve_of_chainEnd snap db _ _ (h h1 h2)
      refine ⟨n, fun fuel hf => ?_⟩
      simp only [fixCollection, expectedTuples, h1, h2, hn fuel hf, if_true, ne_eq,
        not_false_eq_true, true_and, prototypeTuple_eq]
      split_ifs <;> rfl
  · exact ⟨0, fun fuel _ => by simp [fixCollection, expectedTuples, h1]⟩

/-- C17: for a plan in which the chain of every non-empty
`distributeShardsLike` value reaches an end, `fixPrototypeChain` returns for
every sufficient fuel, and it emits, in the order of the databases and
collections, one tuple for exactly those collections whose non-empty
`distributeShardsLike` value `P` differs from the end of the chain of `P`; the
tuple sets `<collection>/distributeShardsLike` to that end, with the
precondition that the old value is `P`. The end of a chain is unique. -/
theorem fixPrototypeChain_spec (snapshot : Node)
    (hac : ∀ database ∈ (snapshot.hasAsChildren planColPrefix).1,
      ∀ collection ∈ database.2.children,
        collection.2.has "distributeShardsLike" = true →
        (collection.2.hasAsString "distributeShardsLike").1 ≠ "" →
        ∃ e, ChainEnd snapshot database.1
          (collection.2.hasAsString "distributeShardsLike").1 e) :
    ∃ (endOf : String → String → String) (fuel0 : Nat),
      (∀ database ∈ (snapshot.hasAsChildren planColPrefix).1,
        ∀ collection ∈ database.2.children,
          collection.2.has "distributeShardsLike" = true →
          (collection.2.hasAsString "distributeShardsLike").1 ≠ "" →
          ChainEnd snapshot database.1 (collection.2.hasAsString "distributeShardsLike").1
            (endOf database.1 (collection.2.hasAsString "distributeShardsLike").1)) ∧
      (∀ db col e e2, ChainEnd snapshot db col e → ChainEnd snapshot db col e2 → e = e2) ∧
      ∀ fuel, fuel0 ≤ fuel →
        fixPrototypeChain fuel snapshot = some (expectedChainFix endOf snapshot) := by
  classical
  let endOf : String → String → String := fun db p =>
    if h : ∃ e, ChainEnd snapshot db p e then Classical.choose h else ""
  have hend : ∀ database ∈ (snapshot.hasAsChildren planColPrefix).1,
      ∀ collection ∈ database.2.children,
        collection.2.has "distributeShardsLike" = true →
        (collection.2.hasAsString "distributeShardsLike").1 ≠ "" →
        ChainEnd snapshot database.1 (collection.2.hasAsString "distributeShardsLike").1
          (endOf database.1 (collection.2.hasAsString "distributeShardsLike").1) := by
    intro database hd collection hc h1 h2
    have hex := hac database hd collection hc h1 h2
    simp only [endOf, hex, dite_true]
    exact Classical.choose_spec hex
  have hdb : ∀ database ∈ (snapshot.hasAsChildren planColPrefix).1,
      ∃ n, ∀ fuel, n ≤ fuel → fixDatabase fuel snapshot database =
        some ((database.2.children.map (expectedTuples endOf database.1)).flatten) := by
    intro database hd
    exact concatRounds_uniform (fun fuel => fixCollection fuel snapshot database.1)
      (expectedTuples endOf database.1) database.2.children
      (fun collection hc => fixCollection_uniform snapshot database.1 collection endOf
        (hend database hd collection hc))
  obtain ⟨N, hN⟩ := concatRounds_uniform (fun fuel => fixDatabase fuel snapshot)
    (fun database => (database.2.children.map (expectedTuples endOf database.1)).flatten)
    (snapshot.hasAsChildren planColPrefix).1 hdb
  exact ⟨endOf, N, hend, chainEnd_unique snapshot, fun fuel hf => hN fuel hf⟩

theorem chainEnd_of_isSome (snap : Node) (db col : String) (fuel : Nat)
    (h : (resolve snap db fuel col).isSome = true) : ∃ e, ChainEnd snap db col e := by
  obtain ⟨e, he⟩ := Option.isSome_iff_exists.mp h
  exact ⟨e, chainEnd_of_resolve snap db fuel col e he⟩

/-- Witness for C17: in the chain `a`, `b`, `c` only `a` gets a tuple, which
sets its `distributeShardsLike` to `c` under the precondition that it holds
`b`. -/
theorem fixPrototypeChain_spec_witness :
    fixPrototypeChain 2 chainSnapshot =
      some [.arr [.obj [("/Plan/Collections/db1/a/distributeShardsLike", .str "c")],
                  .obj [("/Plan/Collections/db1/a/distributeShardsLike", .str "b")]]] ∧
    ∃ (endOf : String → String → String) (fuel0 : Nat),
      ∀ fuel, fuel0 ≤ fuel →
        fixPrototypeChain fuel chainSnapshot = some (expectedChainFix endOf chainSnapshot) :=
  ⟨rfl,
    let ⟨endOf, fuel0, _, _, h⟩ := fixPrototypeChain_spec chainSnapshot
      (fun database hd collection hc _ _ =>
        chainEnd_of_isSome chainSnapshot database.1 _ 3
          ((by decide : ∀ database ∈ (chainSnapshot.hasAsChildren planColPrefix).1,
            ∀ collection ∈ database.2.children,
              (resolve chainSnapshot database.1 3
                (collection.2.hasAsString "distributeShardsLike").1).isSome = true)
            database hd collection hc))
    ⟨endOf, fuel0, h⟩⟩

/-! ## The upgrade of health records -/

/-- C18 fails on the code: whatever the snapshot, the tuple that
`upgradeHealthRecords` appends has an empty operations object (line 248 adds
the records to the local builder). For the snapshot with the version-1 records
`PRMR-a` and `PRMR-b` the appended tuple is `[{}]`; and the record built for
`PRMR-b` in the local builder carries the short name and endpoint of
`PRMR-a`. -/
theorem upgradeHealthRecords_writes_nothing :
    (∀ (snapshot : Node) (now : String → String),
      (upgradeHealthRecords snapshot now).appended = [] ∨
      (upgradeHealthRecords snapshot now).appended = [.arr [.obj []]]) ∧
    (upgradeHealthRecords oldSnapshot fun _ => "1970-01-01T00:00:20Z").appended =
      [.arr [.obj []]] ∧
    (upgradeHealthRecords oldSnapshot fun _ => "1970-01-01T00:00:20Z").records =
      [("PRMR-a", .obj [("ShortName", .str "DBServer0001"),
          ("Endpoint", .str "tcp://DBServer0001:8529"), ("Host", .str ""),
          ("SyncStatus", .str "SERVING"), ("Status", .str "GOOD"),
          ("SyncTime", .str "1970-01-01T00:00:10Z"),
          ("LastAcked", .str "1970-01-01T00:00:10Z")]),
       ("PRMR-b", .obj [("ShortName", .str "DBServer0001"),
          ("Endpoint", .str "tcp://DBServer0001:8529"), ("Host", .str ""),
          ("SyncStatus", .str "SERVING"), ("Status", .str "BAD"),
          ("SyncTime", .str "1970-01-01T00:00:10Z"),
          ("LastAcked", .str "1970-01-01T00:00:10Z")])] := by
  refine ⟨?_, rfl, rfl⟩
  intro snapshot now
  unfold upgradeHealthRecords
  simp only
  split_ifs <;> simp

/-- For the snapshot with two version-1 health records, `/Agency/Definition`
set and no collections, `upgradeAgency` builds the envelope `[[{}]]` and hands
it to `generalTransaction`, whatever the fuel and the clock: one tuple, whose
operations object is empty. -/
theorem upgradeAgency_repeats_tuple (fuel : Nat) (now : String → String) :
    upgradeAgency fuel oldSnapshot now = some [.arr [.obj []]] ∧
    upgradeTransaction fuel oldSnapshot now = some (.arr [.arr [.obj []]]) := by
  have h : upgradeAgency fuel oldSnapshot now = some [.arr [.obj []]] := by
    cases fuel <;> rfl
  refine ⟨h, ?_⟩
  unfold upgradeTransaction
  rw [h]
  rfl

/-! ## The status report, by mode -/

/-- C20, as stated, fails for the empty status string: `/Supervision/State/Mode`
is absent from the snapshot, and `reportStatus` sends the transient write but
no persistent write. -/
theorem reportStatus_empty_status :
    (Node.object []).get "/Supervision/State/Mode" = none ∧
    (reportStatus (.object []) "" "1970-01-01T00:00:10Z").filter AgentCall.isPersistent = [] ∧
    (reportStatus (.object []) "" "1970-01-01T00:00:10Z").length = 1 := by
  refine ⟨rfl, rfl, rfl⟩

/-- C20, amended to non-empty status strings: for every snapshot and non-empty
status `s`, `reportStatus` sends the report `{Mode: s, Timestamp}` on
`/Supervision/State` to the persistent store if and only if
`/Supervision/State/Mode` in the snapshot is not the string `s` (which
includes its absence), and to the transient store if and only if `s` is not
`Maintenance`. -/
theorem reportStatus_spec (snapshot : Node) (status now : String) (hs : status ≠ "") :
    ((reportStatus snapshot status now).filter AgentCall.isPersistent =
        [.singleWriteTransaction (.arr [.obj [("/Supervision/State",
          .obj [("Mode", .str status), ("Timestamp", .str now)])]])] ↔
      snapshot.get "/Supervision/State/Mode" ≠ some (.value (.str status))) ∧
    ((reportStatus snapshot status now).filter AgentCall.isPersistent = [] ↔
      snapshot.get "/Supervision/State/Mode" = some (.value (.str status))) ∧
    ((reportStatus snapshot status now).filter AgentCall.isTransient =
        [.transient (.arr [.obj [("/Supervision/State",
          .obj [("Mode", .str status), ("Timestamp", .str now)])]])] ↔
      status ≠ "Maintenance") ∧
    ((reportStatus snapshot status now).filter AgentCall.isTransient = [] ↔
      status = "Maintenance") := by
  have hiff := Node.hasAsString_eq_iff snapshot "/Supervision/State/Mode" status hs
  have key :
      ((reportStatus snapshot status now).filter AgentCall.isPersistent =
          [.singleWriteTransaction (.arr [.obj [("/Supervision/State",
            .obj [("Mode", .str status), ("Timestamp", .str now)])]])] ↔
        (snapshot.hasAsString "/Supervision/State/Mode").1 ≠ status) ∧
      ((reportStatus snapshot status now).filter AgentCall.isPersistent = [] ↔
        (snapshot.hasAsString "/Supervision/State/Mode").1 = status) ∧
      ((reportStatus snapshot status now).filter AgentCall.isTransient =
          [.transient (.arr [.obj [("/Supervision/State",
            .obj [("Mode", .str status), ("Timestamp", .str now)])]])] ↔
        status ≠ "Maintenance") ∧
      ((reportStatus snapshot status now).filter AgentCall.isTransient = [] ↔
        status = "Maintenance") := by
    unfold reportStatus
    by_cases h1 : status = "Maintenance"
    · subst h1
      by_cases h2 : (snapshot.hasAsString "/Supervision/State/Mode").1 = "Maintenance" <;>
        simp [h2, List.filter_cons, AgentCall.isPersistent, AgentCall.isTransient]
    · by_cases h2 : (snapshot.hasAsString "/Supervision/State/Mode").1 = status <;>
        simp [h1, h2, List.filter_cons, AgentCall.isPersistent, AgentCall.isTransient]
  rw [ne_eq, hiff] at key
  exact key

/-- Witness for C20: the status `Normal` on an empty snapshot. -/
theorem reportStatus_spec_witness :
    "Normal" ≠ "" ∧
    (reportStatus (.object []) "Normal" "1970-01-01T00:00:10Z").filter AgentCall.isPersistent =
      [.singleWriteTransaction (.arr [.obj [("/Supervision/State",
        .obj [("Mode", .str "Normal"), ("Timestamp", .str "1970-01-01T00:00:10Z")])]])] :=
  ⟨by decide, (reportStatus_spec (.object []) "Normal" "1970-01-01T00:00:10Z" (by decide)).1.2
    (by simp [Node.get, Node.getSegs, Node.children, splitPath, splitPathAux])⟩

/-! ## The main loop, shutdown and the reservation of ids -/

/-- Counterexample for C21: a leader that has finished its preparation but
has led for only five seconds runs the tick body all the same: it refreshes
the snapshot, reports the status `Normal` (two writes) and handles jobs, where
replication enforcement starts an AddFollower job. Only `doChecks` is left
out. -/
theorem runTick_before_ten_seconds :
    earlyTick.leading = true ∧ earlyTick.prepareLeadership = 0 ∧ earlyTick.leaderFor < 10 ∧
    runTick earlyTick =
      ([.updateSnapshot, .reportStatus "Normal", .handleJobs], false) ∧
    (reportStatus earlyTick.refreshed "Normal" "1970-01-01T00:00:05Z").length = 2 ∧
    (enforceReplication sampleEnv earlyTick.refreshed earlyTick.counter.jobId).jobs =
      [⟨.addFollower "db1" "coll1" "s1", "10000", "supervision"⟩] := by
  refine ⟨rfl, rfl, by decide, by decide, rfl, by decide⟩

/-- C21, amended: in every tick of the main loop, every call other than the
shutdown handling (job-id reservation, snapshot refresh, status report,
upgrade, health checks, job handling) is made only if the agent is leading and
has finished leadership preparation; the health checks are made only if, in
addition, the agent has led for more than 10 seconds and the refreshed
snapshot has no maintenance entry. When the agent is not leading or not
prepared, the only call the tick can make is the shutdown handling, and the
shutdown handling of an agent that is not leading writes nothing. -/
theorem runTick_gates (v : TickView) :
    (∀ step ∈ (runTick v).1, step ≠ .handleShutdown →
      v.leading = true ∧ v.prepareLeadership = 0) ∧
    (TickStep.doChecks ∈ (runTick v).1 →
      v.leading = true ∧ v.prepareLeadership = 0 ∧ v.leaderFor > 10 ∧
        v.refreshed.has "Supervision/Maintenance" = false) ∧
    (TickStep.handleShutdown ∈ (runTick v).1 → isShuttingDown v.snapshot = true) ∧
    ((v.leading = false ∨ v.prepareLeadership ≠ 0) →
      ∀ step ∈ (runTick v).1, step = .handleShutdown) ∧
    (∀ agencyPrefix : String, (handleShutdown agencyPrefix v.snapshot false).calls = []) := by
  have key : ∀ step ∈ (runTick v).1, step ≠ .handleShutdown →
      v.leading = true ∧ v.prepareLeadership = 0 := by
    intro step hmem hne
    unfold runTick at hmem
    by_cases hg : (v.leading && v.prepareLeadership == 0) = true
    · simpa using hg
    · exfalso
      split_ifs at hmem <;> simp_all
  refine ⟨key, ?_, ?_, ?_, ?_⟩
  · intro hmem
    obtain ⟨h1, h2⟩ := key _ hmem (by decide)
    refine ⟨h1, h2, ?_⟩
    unfold runTick at hmem
    split_ifs at hmem <;> simp_all
  · intro hmem
    unfold runTick at hmem
    split_ifs at hmem <;> simp_all
  · intro hno step hmem
    by_contra hne
    obtain ⟨h1, h2⟩ := key step hmem hne
    rcases hno with h | h
    · rw [h1] at h; exact absurd h (by decide)
    · exact h h2
  · intro agencyPrefix
    cases hc : serversCleared v.snapshot <;> simp [handleShutdown, hc]

theorem serversCleared_foldl (snapshot : Node) (servers : List (String × Node)) (init : Bool) :
    servers.foldl
      (fun cleared server =>
        if server.1 = "Version" then cleared
        else if serverHealth snapshot server.1 ≠ HEALTH_STATUS_GOOD then cleared
        else false) init = true ↔
    init = true ∧ ∀ server ∈ servers, server.1 ≠ "Version" →
      serverHealth snapshot server.1 ≠ HEALTH_STATUS_GOOD := by
  induction servers generalizing init with
  | nil => simp
  | cons server rest ih =>
    rw [List.foldl_cons, ih]
    by_cases hv : server.1 = "Version"
    · simp [hv]
    · by_cases hg : serverHealth snapshot server.1 = HEALTH_STATUS_GOOD
      · simp [hv, hg]
      · simp [hv, hg]

theorem serversCleared_iff (snapshot : Node) :
    serversCleared snapshot = true ↔
      ∀ server ∈ (snapshot.hasAsChildren currentServersRegisteredPrefix).1,
        server.1 ≠ "Version" → serverHealth snapshot server.1 ≠ HEALTH_STATUS_GOOD := by
  unfold serversCleared
  rw [serversCleared_foldl]
  simp

theorem splitPathAux_slash (a b cur : List Char) :
    splitPathAux (a ++ '/' :: b) cur = splitPathAux a cur ++ splitPathAux b [] := by
  induction a generalizing cur with
  | nil => simp [splitPathAux]
  | cons c cs ih =>
    by_cases hc : c = '/'
    · simp only [List.cons_append, splitPathAux, hc, if_true]
      rw [List.append_assoc]
      exact congrArg _ (ih [])
    · simp only [List.cons_append, splitPathAux, hc, if_false]
      exact ih (c :: cur)

theorem splitPath_slash (p q : String) :
    splitPath (p ++ "/" ++ q) = splitPath p ++ splitPath q := by
  unfold splitPath
  have h : (p ++ "/" ++ q).data = p.data ++ '/' :: q.data := by
    simp [String.data_append]
  rw [h, splitPathAux_slash]

theorem Node.getSegs_append (n : Node) (a b : List String) :
    n.getSegs (a ++ b) = (n.getSegs a).bind fun m => m.getSegs b := by
  induction a generalizing n with
  | nil => rfl
  | cons k ks ih =>
    simp only [List.cons_append, Node.getSegs]
    cases n.children.lookup k with
    | none => rfl
    | some c => exact ih c

theorem Node.get_none_of_parent (n : Node) (p q : String) (h : n.get p = none) :
    n.get (p ++ "/" ++ q) = none := by
  unfold Node.get at h ⊢
  rw [splitPath_slash, Node.getSegs_append, h]
  rfl

theorem serverHealth_good_iff (snapshot : Node) (name : String) :
    serverHealth snapshot name = HEALTH_STATUS_GOOD ↔
      snapshot.get (healthPrefix ++ name ++ "/Status") = some (.value (.str "GOOD")) := by
  unfold serverHealth
  simp only
  cases hh : snapshot.has (healthPrefix ++ name ++ "/Status")
  · have hg : snapshot.get (healthPrefix ++ name ++ "/Status") = none := by
      unfold Node.has at hh
      cases hg : snapshot.get (healthPrefix ++ name ++ "/Status") with
      | none => rfl
      | some m => simp [hg] at hh
    simp [hg, HEALTH_STATUS_GOOD]
  · simp only [if_true]
    exact Node.hasAsString_eq_iff snapshot _ "GOOD" (by decide)

/-- C22: `handleShutdown` always sets the self-shutdown flag; it sends the
single-tuple deletion of `agencyPrefix ++ "/Shutdown"` if and only if the
agent is leading and for every child of `/Current/ServersRegistered` other
than `Version` the snapshot does not hold the string `GOOD` at
`/Supervision/Health/<id>/Status`; otherwise it sends nothing, so a registered
server whose stored status is `GOOD` blocks the deletion; a server without a
health record does not hold `GOOD` there and counts as cleared. -/
theorem handleShutdown_spec (agencyPrefix : String) (snapshot : Node) (leading : Bool) :
    (handleShutdown agencyPrefix snapshot leading).selfShutdown = true ∧
    ((handleShutdown agencyPrefix snapshot leading).calls =
        [.write (.arr [.arr [.obj [(agencyPrefix ++ "/Shutdown",
          .obj [("op", .str "delete")])]]])] ↔
      (leading = true ∧
        ∀ server ∈ (snapshot.hasAsChildren "/Current/ServersRegistered").1,
          server.1 ≠ "Version" →
          snapshot.get ("/Supervision/Health/" ++ server.1 ++ "/Status") ≠
            some (.value (.str "GOOD")))) ∧
    (¬ (leading = true ∧
        ∀ server ∈ (snapshot.hasAsChildren "/Current/ServersRegistered").1,
          server.1 ≠ "Version" →
          snapshot.get ("/Supervision/Health/" ++ server.1 ++ "/Status") ≠
            some (.value (.str "GOOD"))) →
      (handleShutdown agencyPrefix snapshot leading).calls = []) ∧
    ((∃ server ∈ (snapshot.hasAsChildren "/Current/ServersRegistered").1,
        server.1 ≠ "Version" ∧
        snapshot.get ("/Supervision/Health/" ++ server.1 ++ "/Status") =
          some (.value (.str "GOOD"))) →
      (handleShutdown agencyPrefix snapshot leading).calls = []) ∧
    (∀ name : String, snapshot.get ("/Supervision/Health/" ++ name) = none →
      snapshot.get ("/Supervision/Health/" ++ name ++ "/Status") ≠
        some (.value (.str "GOOD"))) := by
  have hiff : serversCleared snapshot = true ↔
      ∀ server ∈ (snapshot.hasAsChildren "/Current/ServersRegistered").1,
        server.1 ≠ "Version" →
        snapshot.get ("/Supervision/Health/" ++ server.1 ++ "/Status") ≠
          some (.value (.str "GOOD")) := by
    rw [serversCleared_iff]
    constructor
    · intro h server hmem hv hg
      exact h server hmem hv ((serverHealth_good_iff snapshot server.1).mpr hg)
    · intro h server hmem hv hg
      exact h server hmem hv ((serverHealth_good_iff snapshot server.1).mp hg)
  have hnot : ¬ (leading = true ∧
        ∀ server ∈ (snapshot.hasAsChildren "/Current/ServersRegistered").1,
          server.1 ≠ "Version" →
          snapshot.get ("/Supervision/Health/" ++ server.1 ++ "/Status") ≠
            some (.value (.str "GOOD"))) →
      (handleShutdown agencyPrefix snapshot leading).calls = [] := by
    rw [← hiff]
    cases hc : serversCleared snapshot <;> cases leading <;>
      simp [handleShutdown, hc]
  refine ⟨rfl, ?_, hnot, ?_, ?_⟩
  · rw [← hiff]
    cases hc : serversCleared snapshot <;> cases leading <;>
      simp [handleShutdown, hc, shutdownDeletion]
  · rintro ⟨server, hmem, hv, hg⟩
    apply hnot
    rintro ⟨-, hall⟩
    exact hall server hmem hv hg
  · intro name hn
    have hp : "/Supervision/Health/" ++ name ++ "/Status" =
        "/Supervision/Health/" ++ name ++ "/" ++ "Status" := by
      rw [String.append_assoc _ "/" "Status"]
      rfl
    rw [hp, Node.get_none_of_parent snapshot _ "Status" hn]
    simp

theorem sub_batch_mod (v : Nat) (h1 : 10000 ≤ v) (h2 : v < 2 ^ 64) :
    (v + (2 ^ 64 - 10000)) % 2 ^ 64 = v - 10000 := by
  have h : v + (2 ^ 64 - 10000) = (v - 10000) + 2 ^ 64 := by
    have : (10000 : Nat) ≤ 2 ^ 64 := by norm_num
    omega
  rw [h, Nat.add_mod_right]
  exact Nat.mod_eq_of_lt (by omega)

/-- C23 fails on the code for an agency prefix other than `/arango`.
`getUniqueIds` submits the increment of `agencyPrefix ++ "/Sync/LatestID"` by
10000 followed by a read of it; a rejected reply and a reply that cannot be
read leave both counters as they are; for the prefix `/arango` an accepted
reply with the value `v`, at least 10000, sets `jobIdMax` to `v` and `jobId`
to `v - 10000`. For the prefix `/myagency` the accepted reply holds the value
under the key `myagency`, the read under the fixed key `arango` of line 1068
fails, and both counters stay as they are. -/
theorem getUniqueIds_reads_arango (c : Counter) (index v : Nat) :
    (∀ agencyPrefix : String, uniqueIdsQuery agencyPrefix =
      .arr [.arr [.obj [(agencyPrefix ++ "/Sync/LatestID",
              .obj [("op", .str "increment"), ("step", .uint 10000)])]],
            .arr [.str (agencyPrefix ++ "/Sync/LatestID")]]) ∧
    (∀ ret : trans_ret_t, ret.accepted = false → getUniqueIds c ret = c) ∧
    (∀ ret : trans_ret_t, latestId ret.result = none → getUniqueIds c ret = c) ∧
    (10000 ≤ v → v < 2 ^ 64 →
      getUniqueIds c ⟨true, latestIdReply "/arango" index v⟩ = ⟨v - 10000, v⟩) ∧
    getUniqueIds c ⟨true, latestIdReply "/myagency" index v⟩ = c := by
  refine ⟨fun _ => rfl, ?_, ?_, ?_, ?_⟩
  · intro ret h
    simp [getUniqueIds, h]
  · intro ret h
    simp [getUniqueIds, h]
  · intro h1 h2
    have hl : latestId (latestIdReply "/arango" index v) = some v := rfl
    simp only [getUniqueIds, hl, if_true, sub_batch_mod v h1 h2]
  · have hl : latestId (latestIdReply "/myagency" index v) = none := rfl
    simp [getUniqueIds, hl]

/-! ## Serialisation and parsing of health records, and `resolve` -/

/-- C29: for every record with a non-empty `syncTime`, assigning the stored
form of its serialisation to a blank record gives the record itself with
version 2: the same shortName, endpoint, hostId, status, syncStatus, syncTime
and lastAcked, whatever the version was. -/
theorem toVelocyPack_roundtrip (r : HealthRecord) (now : String) (h : r.syncTime ≠ "") :
    HealthRecord.blank.assignNode (Node.ofVPack (.obj (r.toVelocyPack now))) =
      { r with version := 2 } := by
  simp [HealthRecord.toVelocyPack, h, Node.ofVPack, Node.ofVPackList, HealthRecord.assignNode,
    HealthRecord.assignStatusPart, HealthRecord.blank, Node.has, Node.hasAsString, Node.get,
    Node.getSegs, Node.children, splitPath, splitPathAux, List.lookup]

/-- Witness for C29: a version-1 record with a heartbeat time. -/
theorem toVelocyPack_roundtrip_witness :
    recSynced.syncTime ≠ "" ∧
    HealthRecord.blank.assignNode (Node.ofVPack (.obj (recSynced.toVelocyPack "now"))) =
      { recSynced with version := 2 } :=
  ⟨by decide, toVelocyPack_roundtrip recSynced "now" (by decide)⟩

theorem resolve_none_of_no_chainEnd (snap : Node) (db col : String)
    (h : ∀ e, ¬ ChainEnd snap db col e) (fuel : Nat) : resolve snap db fuel col = none := by
  cases hr : resolve snap db fuel col with
  | none => rfl
  | some e => exact absurd (chainEnd_of_resolve snap db fuel col e hr) (h e)

theorem resolve_cycle (fuel : Nat) :
    resolve cycleSnapshot "db1" fuel "a" = none ∧
      resolve cycleSnapshot "db1" fuel "b" = none := by
  have ha : prototypeOf cycleSnapshot "db1" "a" = "b" := by decide
  have hb : prototypeOf cycleSnapshot "db1" "b" = "a" := by decide
  induction fuel with
  | zero => exact ⟨rfl, rfl⟩
  | succ f ih =>
    constructor
    · simp only [resolve, ha]; simpa using ih.2
    · simp only [resolve, hb]; simpa using ih.1

/-- C30: if following the `distributeShardsLike` links from `col` reaches the
end `e` (a collection that is missing or has no or an empty link), then
`resolve` returns `e` for every recursion depth allowed from some bound on,
and it never returns anything else; for a collection `other` from which no end
is reached, `resolve` returns for no depth at all. -/
theorem resolve_terminates (snap : Node) (db col e other : String)
    (h : ChainEnd snap db col e) :
    (∃ n, ∀ fuel, n ≤ fuel → resolve snap db fuel col = some e) ∧
    (∀ fuel e2, resolve snap db fuel col = some e2 → e2 = e) ∧
    ((∀ e2, ¬ ChainEnd snap db other e2) → ∀ fuel, resolve snap db fuel other = none) := by
  refine ⟨resolve_of_chainEnd snap db col e h, ?_, ?_⟩
  · intro fuel e2 h2
    exact chainEnd_unique snap db col e2 e (chainEnd_of_resolve snap db fuel col e2 h2) h
  · intro hno fuel
    exact resolve_none_of_no_chainEnd snap db other hno fuel

/-- Witness for C30: the chain `a`, `b`, `c` ends at `c`, and in the plan
where `a` and `b` name each other `resolve` returns for no depth. -/
theorem resolve_terminates_witness :
    ChainEnd chainSnapshot "db1" "a" "c" ∧
    (∃ n, ∀ fuel, n ≤ fuel → resolve chainSnapshot "db1" fuel "a" = some "c") ∧
    (∀ fuel, resolve cycleSnapshot "db1" fuel "a" = none) :=
  have hc : ChainEnd chainSnapshot "db1" "a" "c" :=
    chainEnd_of_resolve chainSnapshot "db1" 3 "a" "c" (by decide)
  ⟨hc, (resolve_terminates chainSnapshot "db1" "a" "c" "a" hc).1,
    fun fuel => (resolve_cycle fuel).1⟩

/-! ## The loops of `handleJobs` -/

theorem runRounds_kinds {α : Type} (body : α → Nat → JobRun) (g : α → List JobKind)
    (xs : List α)
    (h : ∀ x ∈ xs, ∀ j, (body x j).threw = false ∧ (body x j).jobs.map JobStart.kind = g x)
    (j : Nat) :
    (runRounds body xs j).threw = false ∧
      (runRounds body xs j).jobs.map JobStart.kind = (xs.map g).flatten := by
  induction xs generalizing j with
  | nil => exact ⟨rfl, rfl⟩
  | cons x rest ih =>
    obtain ⟨h1, h2⟩ := h x (List.mem_cons_self _ _) j
    obtain ⟨h3, h4⟩ := ih (fun y hy => h y (List.mem_cons_of_mem _ hy)) (body x j).jobId
    simp only [runRounds, h1, Bool.false_eq_true, if_false, List.map_append, List.map_cons,
      List.flatten_cons, h2, h3, h4, and_self]

theorem numbered_nil (j : Nat) (hj : j < 2 ^ 64) (threw : Bool) :
    JobRun.Numbered j ⟨[], j, threw⟩ :=
  ⟨rfl, (Nat.mod_eq_of_lt hj).symm, fun _ h => absurd h (List.not_mem_nil _)⟩

theorem numbered_one (j : Nat) (hj : j < 2 ^ 64) (kind : JobKind) :
    JobRun.Numbered j ⟨[⟨kind, toString j, "supervision"⟩], (j + 1) % 2 ^ 64, false⟩ := by
  refine ⟨?_, rfl, ?_⟩
  · show [toString j] = [toString ((j + 0) % 2 ^ 64)]
    rw [Nat.add_zero, Nat.mod_eq_of_lt hj]
  · intro job h
    rw [List.mem_singleton.mp h]

theorem numbered_lt (j : Nat) (run : JobRun) (h : run.Numbered j) : run.jobId < 2 ^ 64 := by
  rw [h.2.1]
  exact Nat.mod_lt _ (by norm_num)

theorem runRounds_numbered {α : Type} (body : α → Nat → JobRun) (xs : List α)
    (h : ∀ x ∈ xs, ∀ j, j < 2 ^ 64 → (body x j).Numbered j) (j : Nat) (hj : j < 2 ^ 64) :
    (runRounds body xs j).Numbered j := by
  induction xs generalizing j with
  | nil => exact numbered_nil j hj false
  | cons x rest ih =>
    have hx := h x (List.mem_cons_self _ _) j hj
    have hrest := ih (fun y hy => h y (List.mem_cons_of_mem _ hy)) (body x j).jobId
      (numbered_lt j _ hx)
    unfold runRounds
    split_ifs with ht
    · exact hx
    · obtain ⟨a1, a2, a3⟩ := hx
      obtain ⟨b1, b2, b3⟩ := hrest
      generalize runRounds body rest (body x j).jobId = tail at b1 b2 b3 ⊢
      refine ⟨?_, ?_, ?_⟩
      · show ((body x j).jobs ++ tail.jobs).map JobStart.jobId =
          (List.range ((body x j).jobs ++ tail.jobs).length).map
            (fun i => toString ((j + i) % 2 ^ 64))
        rw [List.map_append, List.length_append, List.range_add, List.map_append, a1, b1,
          List.map_map]
        congr 1
        apply List.map_congr_left
        intro i _
        simp only [Function.comp, a2, Nat.mod_add_mod, Nat.add_assoc]
      · show tail.jobId = (j + ((body x j).jobs ++ tail.jobs).length) % 2 ^ 64
        rw [b2, a2, Nat.mod_add_mod, List.length_append, Nat.add_assoc]
      · intro job hjob
        rcases List.mem_append.mp hjob with hm | hm
        · exact a3 job hm
        · exact b3 job hm

theorem runRounds_sublist {α β : Type} (body : α → Nat → JobRun) (f : JobStart → Option β)
    (g : α → List β) (xs : List α)
    (h : ∀ x ∈ xs, ∀ j, ((body x j).jobs.filterMap f).Sublist (g x)) (j : Nat) :
    ((runRounds body xs j).jobs.filterMap f).Sublist (xs.map g).flatten := by
  induction xs generalizing j with
  | nil => exact List.Sublist.refl _
  | cons x rest ih =>
    have hx := h x (List.mem_cons_self _ _) j
    have hrest := ih (fun y hy => h y (List.mem_cons_of_mem _ hy)) (body x j).jobId
    unfold runRounds
    split_ifs with ht
    · simp only [List.map_cons, List.flatten_cons]
      exact List.sublist_append_of_sublist_left hx
    · simp only [List.map_cons, List.flatten_cons, List.filterMap_append]
      exact List.Sublist.append hx hrest

theorem runRounds_forall {α : Type} (body : α → Nat → JobRun) (P : JobStart → Prop)
    (xs : List α) (h : ∀ x ∈ xs, ∀ j, ∀ job ∈ (body x j).jobs, P job) (j : Nat) :
    ∀ job ∈ (runRounds body xs j).jobs, P job := by
  induction xs generalizing j with
  | nil => intro job hjob; exact absurd hjob (List.not_mem_nil _)
  | cons x rest ih =>
    have hx := h x (List.mem_cons_self _ _) j
    have hrest := ih (fun y hy => h y (List.mem_cons_of_mem _ hy)) (body x j).jobId
    unfold runRounds
    split_ifs with ht
    · exact hx
    · intro job hjob
      rcases List.mem_append.mp hjob with hm | hm
      · exact hx job hm
      · exact hrest job hm

theorem shardFound_eq (env : JobEnv) (snapshot : Node) (shard : String) :
    shardFound env snapshot shard =
      (decide (shard ∈ todoTargets snapshot) ||
        snapshot.has (env.blockedShardsPrefix ++ shard)) := by
  unfold shardFound todoTargets
  congr 1
  rw [Bool.eq_iff_iff]
  simp only [List.any_eq_true, Bool.and_eq_true, Bool.or_eq_true, beq_iff_eq,
    decide_eq_true_eq, List.mem_map, List.mem_filter]
  constructor
  · rintro ⟨pair, hmem, htype, hshard⟩
    exact ⟨pair, ⟨hmem, htype⟩, hshard⟩
  · rintro ⟨pair, ⟨hmem, htype⟩, hshard⟩
    exact ⟨pair, hmem, htype, hshard⟩

/-! ## Shrinking the cluster -/

theorem maxReplCollections_eq (cols : List (String × Node)) (m : Nat)
    (h : ∀ col ∈ cols, (col.2.hasAsUInt "replicationFactor").2 = true) :
    maxReplCollections cols m =
      some ((cols.map fun col => (col.2.hasAsUInt "replicationFactor").1).foldl max m) := by
  induction cols generalizing m with
  | nil => rfl
  | cons col rest ih =>
    have hc := h col (List.mem_cons_self _ _)
    have hr : ∀ c ∈ rest, (c.2.hasAsUInt "replicationFactor").2 = true :=
      fun c hmem => h c (List.mem_cons_of_mem _ hmem)
    simp only [maxReplCollections, hc, if_true, List.map_cons, List.foldl_cons]
    split_ifs with hgt
    · rw [ih _ hr, Nat.max_eq_right (Nat.le_of_lt hgt)]
    · rw [ih _ hr, Nat.max_eq_left (Nat.le_of_not_lt hgt)]

theorem maxReplDatabases_eq (dbs : List (String × Node)) (m : Nat)
    (h : ∀ col ∈ (dbs.map fun database => database.2.children).flatten,
      (col.2.hasAsUInt "replicationFactor").2 = true) :
    maxReplDatabases dbs m =
      some ((((dbs.map fun database => database.2.children).flatten).map
        fun col => (col.2.hasAsUInt "replicationFactor").1).foldl max m) := by
  induction dbs generalizing m with
  | nil => rfl
  | cons database rest ih =>
    simp only [List.map_cons, List.flatten_cons, List.mem_append] at h
    have h1 := maxReplCollections_eq database.2.children m (fun c hc => h c (Or.inl hc))
    simp only [maxReplDatabases, h1, List.map_cons, List.flatten_cons, List.map_append,
      List.foldl_append]
    exact ih _ (fun c hc => h c (Or.inr hc))

theorem StrLe.total (a b : String) : StrLe a b ∨ StrLe b a := le_total a.data b.data

theorem StrLe.trans (a b c : String) (h1 : StrLe a b) (h2 : StrLe b c) : StrLe a c :=
  le_trans (α := List Char) h1 h2

theorem sortServers_last (servers : List String) (server : String)
    (h : (sortServers servers).getLast? = some server) :
    server ∈ servers ∧ ∀ other ∈ servers, StrLe other server := by
  haveI : IsTotal String StrLe := ⟨StrLe.total⟩
  haveI : IsTrans String StrLe := ⟨StrLe.trans⟩
  have hperm : (sortServers servers).Perm servers := List.perm_insertionSort StrLe servers
  have hsorted : (sortServers servers).Sorted StrLe := List.sorted_insertionSort StrLe servers
  obtain ⟨ys, hys⟩ := List.getLast?_eq_some_iff.mp h
  rw [hys] at hperm hsorted
  refine ⟨hperm.subset (by simp), ?_⟩
  intro other hother
  have hmem : other ∈ ys ++ [server] := hperm.symm.subset hother
  rcases List.mem_append.mp hmem with hy | hy
  · exact (List.pairwise_append.mp hsorted).2.2 other hy server (by simp)
  · rw [List.mem_singleton.mp hy]
    exact le_refl (α := List Char) _

theorem sortServers_nonempty (servers : List String) (h : servers ≠ []) :
    ∃ server, (sortServers servers).getLast? = some server := by
  have hperm : (sortServers servers).Perm servers := List.perm_insertionSort StrLe servers
  have hne : sortServers servers ≠ [] := by
    intro he
    rw [he] at hperm
    exact h hperm.symm.eq_nil
  exact ⟨(sortServers servers).getLast hne, List.getLast?_eq_getLast _ hne⟩

/-- C27: for every snapshot in which every planned collection has a
replicationFactor, `shrinkCluster` starts a job if and only if ToDo and
Pending are empty, `/Target/NumberOfDBServers` is set to some `T`, and the
number `n` of available servers exceeds `T`, 1 and the largest replication
factor (at least 1). It then starts exactly one CleanOutServer job, created by
the supervision under the current job id, on an available server that is
lexicographically not below any other, consumes one job id, and `n - 1` is at
least `max(T, maxReplFactor, 1)`. Otherwise it starts nothing. -/
theorem shrinkCluster_spec (env : JobEnv) (snapshot : Node) (jobId : Nat)
    (hrf : ∀ col ∈ plannedCollections snapshot,
      (col.2.hasAsUInt "replicationFactor").2 = true) :
    ((shrinkCluster env snapshot jobId).jobs ≠ [] ↔ shrinkWanted env snapshot) ∧
    (shrinkWanted env snapshot →
      ∃ server, server ∈ env.availableServers snapshot ∧
        (∀ other ∈ env.availableServers snapshot, StrLe other server) ∧
        (shrinkCluster env snapshot jobId).jobs =
          [⟨.cleanOutServer server, toString jobId, "supervision"⟩] ∧
        (shrinkCluster env snapshot jobId).jobId = (jobId + 1) % 2 ^ 64 ∧
        (env.availableServers snapshot).length - 1 ≥
          max (snapshot.hasAsUInt "/Target/NumberOfDBServers").1
            (max (maxReplFactor snapshot) 1)) ∧
    (¬ shrinkWanted env snapshot →
      (shrinkCluster env snapshot jobId).jobs = [] ∧
        (shrinkCluster env snapshot jobId).jobId = jobId) := by
  have hmax : maxReplDatabases (snapshot.hasAsChildren planColPrefix).1 1 =
      some (maxReplFactor snapshot) :=
    maxReplDatabases_eq (snapshot.hasAsChildren planColPrefix).1 1 hrf
  have hwanted : shrinkWanted env snapshot →
      ∃ server, server ∈ env.availableServers snapshot ∧
        (∀ other ∈ env.availableServers snapshot, StrLe other server) ∧
        (shrinkCluster env snapshot jobId).jobs =
          [⟨.cleanOutServer server, toString jobId, "supervision"⟩] ∧
        (shrinkCluster env snapshot jobId).jobId = (jobId + 1) % 2 ^ 64 ∧
        (env.availableServers snapshot).length - 1 ≥
          max (snapshot.hasAsUInt "/Target/NumberOfDBServers").1
            (max (maxReplFactor snapshot) 1) := by
    rintro ⟨h1, h2, h3, h4, h5, h6⟩
    have hne : env.availableServers snapshot ≠ [] := by
      intro he; rw [he] at h5; simp at h5
    obtain ⟨server, hs⟩ := sortServers_nonempty _ hne
    obtain ⟨hmem, hle⟩ := sortServers_last _ _ hs
    have h6' : maxReplFactor snapshot < (env.availableServers snapshot).length := h6
    refine ⟨server, hmem, hle, ?_, ?_, ?_⟩
    · simp [shrinkCluster, h1, h2, h3, h4, Nat.ne_of_gt h5, hmax, h6', hs]
    · simp [shrinkCluster, h1, h2, h3, h4, Nat.ne_of_gt h5, hmax, h6', hs]
    · omega
  have hnot : ¬ shrinkWanted env snapshot →
      (shrinkCluster env snapshot jobId).jobs = [] ∧
        (shrinkCluster env snapshot jobId).jobId = jobId := by
    intro hno
    unfold shrinkCluster
    simp only [hmax]
    split_ifs with a1 a2 a3 a4 a5 a6
    all_goals first
      | exact ⟨rfl, rfl⟩
      | skip
    exfalso
    apply hno
    simp only [Bool.or_eq_true, Bool.not_eq_true', List.isEmpty_eq_false, not_or,
      Bool.not_eq_false, List.isEmpty_iff] at a1
    refine ⟨?_, ?_, a2, a3, ?_, a5⟩
    · simpa using a1.1
    · simpa using a1.2
    · have := a6.1
      have hpos : 0 < (env.availableServers snapshot).length := by omega
      omega
  refine ⟨⟨?_, ?_⟩, hwanted, hnot⟩
  · intro hne
    by_contra hno
    exact hne (hnot hno).1
  · intro hw
    obtain ⟨server, -, -, hj, -⟩ := hwanted hw
    rw [hj]
    simp

/-- Witness for C27: of the three available servers `PRMR-b`, `PRMR-c` and
`PRMR-a` with a target of two, `PRMR-c` is cleaned out. -/
theorem shrinkCluster_spec_witness :
    shrinkWanted sampleEnv shrinkSnapshot ∧
    (shrinkCluster sampleEnv shrinkSnapshot 10000).jobs =
      [⟨.cleanOutServer "PRMR-c", "10000", "supervision"⟩] :=
  ⟨(shrinkCluster_spec sampleEnv shrinkSnapshot 10000 (by decide)).1.mp (by decide),
    by decide⟩

/-! ## Replication enforcement -/

theorem flatten_map_ite {α β γ : Type} (f : α → β) (p : β → Bool) (k : β → γ) (xs : List α) :
    (xs.map fun x => if p (f x) = true then [k (f x)] else []).flatten =
      ((xs.map f).filter p).map k := by
  induction xs with
  | nil => rfl
  | cons x rest ih =>
    simp only [List.map_cons, List.flatten_cons, ih, List.filter_cons]
    split_ifs <;> simp

theorem enforceShard_numbered (env : JobEnv) (snapshot : Node) (r : Nat) (db col : String)
    (shard_ : String × Node) (j : Nat) (hj : j < 2 ^ 64) :
    (enforceShard env snapshot r db col shard_ j).Numbered j := by
  unfold enforceShard
  split
  · exact numbered_nil j hj true
  · split_ifs
    · exact numbered_one j hj _
    · exact numbered_one j hj _
    · exact numbered_nil j hj false
    · exact numbered_nil j hj false

theorem enforceCollection_numbered (env : JobEnv) (snapshot : Node) (db : String)
    (col_ : String × Node) (j : Nat) (hj : j < 2 ^ 64) :
    (enforceCollection env snapshot db col_ j).Numbered j := by
  unfold enforceCollection
  split_ifs
  · exact runRounds_numbered _ _ (fun x _ i hi => enforceShard_numbered env snapshot _ db _ x i hi)
      j hj
  · exact numbered_nil j hj false
  · exact numbered_nil j hj false

theorem enforceReplication_numbered (env : JobEnv) (snapshot : Node) (j : Nat)
    (hj : j < 2 ^ 64) : (enforceReplication env snapshot j).Numbered j :=
  runRounds_numbered _ _
    (fun db_ _ i hi => runRounds_numbered _ _
      (fun col_ _ i2 hi2 => enforceCollection_numbered env snapshot db_.1 col_ i2 hi2) i hi)
    j hj

theorem enforceShard_kinds (env : JobEnv) (snapshot : Node) (db : String)
    (col_ shard_ : String × Node) (j : Nat)
    (hlen : (shard_.2.toVPack.length?).isSome = true)
    (henf : (col_.2.hasAsUInt "replicationFactor").2 = true)
    (hclone : col_.2.has "distributeShardsLike" = false) :
    (enforceShard env snapshot (wantedReplicationFactor env snapshot col_.2) db col_.1
        shard_ j).threw = false ∧
    (enforceShard env snapshot (wantedReplicationFactor env snapshot col_.2) db col_.1
        shard_ j).jobs.map JobStart.kind =
      if PlannedShard.needsJob env snapshot ⟨db, col_.1, col_.2, shard_.1, shard_.2⟩ = true then
        [PlannedShard.expectedKind env snapshot ⟨db, col_.1, col_.2, shard_.1, shard_.2⟩]
      else [] := by
  obtain ⟨actual, ha⟩ := Option.isSome_iff_exists.mp hlen
  have hw : PlannedShard.wanted env snapshot ⟨db, col_.1, col_.2, shard_.1, shard_.2⟩ =
      wantedReplicationFactor env snapshot col_.2 := rfl
  simp only [enforceShard, ha, PlannedShard.needsJob, PlannedShard.enforced,
    PlannedShard.expectedKind, PlannedShard.actual, hw, henf, hclone, shardFound_eq,
    Option.getD_some]
  by_cases h1 : actual = wantedReplicationFactor env snapshot col_.2
  · simp [h1]
  · by_cases h2 : shard_.1 ∈ todoTargets snapshot
    · simp [h1, h2]
    · cases h3 : snapshot.has (env.blockedShardsPrefix ++ shard_.1)
      · by_cases h4 : actual < wantedReplicationFactor env snapshot col_.2
        · simp [h1, h2, h3, h4]
        · simp [h1, h2, h3, h4]
      · simp [h1, h2, h3]

theorem enforceCollection_kinds (env : JobEnv) (snapshot : Node) (db : String)
    (col_ : String × Node) (j : Nat)
    (hlen : ∀ x ∈ collectionShards db col_, x.enforced = true →
      (x.servers.toVPack.length?).isSome = true) :
    (enforceCollection env snapshot db col_ j).threw = false ∧
    (enforceCollection env snapshot db col_ j).jobs.map JobStart.kind =
      ((collectionShards db col_).filter (PlannedShard.needsJob env snapshot)).map
        (PlannedShard.expectedKind env snapshot) := by
  by_cases henf : (col_.2.hasAsUInt "replicationFactor").2 = true ∧
      col_.2.has "distributeShardsLike" = false
  · obtain ⟨h1, h2⟩ := henf
    have hshards : ∀ shard_ ∈ (col_.2.hasAsChildren "shards").1,
        (shard_.2.toVPack.length?).isSome = true := by
      intro shard_ hmem
      exact hlen ⟨db, col_.1, col_.2, shard_.1, shard_.2⟩
        (List.mem_map.mpr ⟨shard_, hmem, rfl⟩) (by simp [PlannedShard.enforced, h1, h2])
    have h := runRounds_kinds
      (enforceShard env snapshot (wantedReplicationFactor env snapshot col_.2) db col_.1)
      (fun shard_ =>
        if PlannedShard.needsJob env snapshot ⟨db, col_.1, col_.2, shard_.1, shard_.2⟩ = true
        then [PlannedShard.expectedKind env snapshot ⟨db, col_.1, col_.2, shard_.1, shard_.2⟩]
        else [])
      (col_.2.hasAsChildren "shards").1
      (fun shard_ hmem i => enforceShard_kinds env snapshot db col_ shard_ i
        (hshards shard_ hmem) h1 h2) j
    simp only [enforceCollection, h1, h2, if_true, Bool.not_false]
    refine ⟨h.1, ?_⟩
    rw [h.2]
    exact flatten_map_ite (fun shard_ : String × Node =>
      (⟨db, col_.1, col_.2, shard_.1, shard_.2⟩ : PlannedShard))
      (PlannedShard.needsJob env snapshot) (PlannedShard.expectedKind env snapshot) _
  · have hnone : (collectionShards db col_).filter (PlannedShard.needsJob env snapshot) = [] := by
      rw [List.filter_eq_nil_iff]
      intro x hx
      obtain ⟨shard_, -, rfl⟩ := List.mem_map.mp hx
      simp only [PlannedShard.needsJob, PlannedShard.enforced]
      cases h1 : (col_.2.hasAsUInt "replicationFactor").2
      · simp
      · cases h2 : col_.2.has "distributeShardsLike"
        · exact absurd ⟨h1, h2⟩ henf
        · simp
    rw [hnone]
    unfold enforceCollection
    split_ifs with h1 h2
    · exact absurd ⟨h1, by simpa using h2⟩ henf
    · exact ⟨rfl, rfl⟩
    · exact ⟨rfl, rfl⟩

theorem enforceDatabase_kinds (env : JobEnv) (snapshot : Node) (db_ : String × Node) (j : Nat)
    (hlen : ∀ x ∈ databaseShards db_, x.enforced = true →
      (x.servers.toVPack.length?).isSome = true) :
    (enforceDatabase env snapshot db_ j).threw = false ∧
    (enforceDatabase env snapshot db_ j).jobs.map JobStart.kind =
      ((databaseShards db_).filter (PlannedShard.needsJob env snapshot)).map
        (PlannedShard.expectedKind env snapshot) := by
  have h := runRounds_kinds (enforceCollection env snapshot db_.1)
    (fun col_ => ((collectionShards db_.1 col_).filter (PlannedShard.needsJob env snapshot)).map
        (PlannedShard.expectedKind env snapshot))
    db_.2.children
    (fun col_ hmem i => enforceCollection_kinds env snapshot db_.1 col_ i
      (fun x hx => hlen x (List.mem_flatten.mpr ⟨_, List.mem_map.mpr ⟨col_, hmem, rfl⟩, hx⟩))) j
  refine ⟨h.1, ?_⟩
  unfold enforceDatabase
  rw [h.2]
  simp only [databaseShards, List.filter_flatten, List.map_flatten, List.map_map]
  rfl

theorem enforceReplication_kinds (env : JobEnv) (snapshot : Node) (j : Nat)
    (hlen : ∀ x ∈ plannedShards snapshot, x.enforced = true →
      (x.servers.toVPack.length?).isSome = true) :
    (enforceReplication env snapshot j).threw = false ∧
    (enforceReplication env snapshot j).jobs.map JobStart.kind = expectedJobs env snapshot := by
  have h := runRounds_kinds (enforceDatabase env snapshot)
    (fun db_ => ((databaseShards db_).filter (PlannedShard.needsJob env snapshot)).map
        (PlannedShard.expectedKind env snapshot))
    (snapshot.hasAsChildren planColPrefix).1
    (fun db_ hmem i => enforceDatabase_kinds env snapshot db_ i
      (fun x hx => hlen x (List.mem_flatten.mpr ⟨_, List.mem_map.mpr ⟨db_, hmem, rfl⟩, hx⟩))) j
  refine ⟨h.1, ?_⟩
  unfold enforceReplication
  rw [h.2]
  simp only [expectedJobs, plannedShards, List.filter_flatten, List.map_flatten, List.map_map]
  rfl

/-- C25: for every snapshot whose enforced shards hold a list of planned
servers, and every value of `_jobId`, `enforceReplication` ends without an
exception and starts, in the order of the plan, one job for exactly those
shards whose collection has a replicationFactor and no distributeShardsLike,
whose number `A` of planned servers differs from `R` (the replication factor,
or the number of available servers when it is 0), which no addFollower,
removeFollower or moveShard job in ToDo names and which are not blocked; the
job is AddFollower if `A < R` and RemoveFollower otherwise, with the database,
collection and shard; the jobs are created by the supervision under the
consecutive values of `_jobId`, which grows by the number of jobs. -/
theorem enforceReplication_spec (env : JobEnv) (snapshot : Node) (jobId : Nat)
    (hj : jobId < 2 ^ 64)
    (hlen : ∀ x ∈ plannedShards snapshot, x.enforced = true →
      (x.servers.toVPack.length?).isSome = true) :
    (enforceReplication env snapshot jobId).threw = false ∧
    (enforceReplication env snapshot jobId).jobs.map JobStart.kind =
      expectedJobs env snapshot ∧
    (enforceReplication env snapshot jobId).jobs.map JobStart.jobId =
      (List.range (expectedJobs env snapshot).length).map
        (fun i => toString ((jobId + i) % 2 ^ 64)) ∧
    (∀ job ∈ (enforceReplication env snapshot jobId).jobs, job.creator = "supervision") ∧
    (enforceReplication env snapshot jobId).jobId =
      (jobId + (expectedJobs env snapshot).length) % 2 ^ 64 := by
  obtain ⟨h1, h2⟩ := enforceReplication_kinds env snapshot jobId hlen
  obtain ⟨h3, h4, h5⟩ := enforceReplication_numbered env snapshot jobId hj
  have hl : (expectedJobs env snapshot).length =
      (enforceReplication env snapshot jobId).jobs.length := by
    rw [← h2, List.length_map]
  rw [hl]
  exact ⟨h1, h2, h3, h5, h4⟩

/-- Witness for C25: one AddFollower job for shard `s1` of `db1/coll1`, which
has one planned server and a replication factor of 2. -/
theorem enforceReplication_spec_witness :
    (enforceReplication sampleEnv replSnapshot 10000).jobs =
      [⟨.addFollower "db1" "coll1" "s1", "10000", "supervision"⟩] ∧
    (enforceReplication sampleEnv replSnapshot 10000).jobs.map JobStart.kind =
      expectedJobs sampleEnv replSnapshot ∧
    (enforceReplication sampleEnv replSnapshot 10000).jobId = 10001 :=
  have h := enforceReplication_spec sampleEnv replSnapshot 10000 (by norm_num) (by decide)
  ⟨by decide, h.2.1, by decide⟩

theorem enforceShard_targets (env : JobEnv) (snapshot : Node) (r : Nat) (db col : String)
    (shard_ : String × Node) (j : Nat) :
    ((enforceShard env snapshot r db col shard_ j).jobs.filterMap
        fun job => job.kind.shard?).Sublist [shard_.1] ∧
    ∀ job ∈ (enforceShard env snapshot r db col shard_ j).jobs,
      ∀ name, job.kind.shard? = some name → name ∉ todoTargets snapshot := by
  unfold enforceShard
  split
  · exact ⟨List.nil_sublist _, fun _ h => absurd h (List.not_mem_nil _)⟩
  · split_ifs with h1 h2 h3
    · refine ⟨List.Sublist.refl _, ?_⟩
      intro job hjob name hname
      rw [List.mem_singleton.mp hjob] at hname
      simp only [JobKind.shard?, Option.some.injEq] at hname
      rw [shardFound_eq] at h2
      simp only [Bool.not_eq_true', Bool.or_eq_false_iff, decide_eq_false_iff_not] at h2
      rw [← hname]
      exact h2.1
    · refine ⟨List.Sublist.refl _, ?_⟩
      intro job hjob name hname
      rw [List.mem_singleton.mp hjob] at hname
      simp only [JobKind.shard?, Option.some.injEq] at hname
      rw [shardFound_eq] at h2
      simp only [Bool.not_eq_true', Bool.or_eq_false_iff, decide_eq_false_iff_not] at h2
      rw [← hname]
      exact h2.1
    · exact ⟨List.nil_sublist _, fun _ h => absurd h (List.not_mem_nil _)⟩
    · exact ⟨List.nil_sublist _, fun _ h => absurd h (List.not_mem_nil _)⟩

theorem enforceCollection_targets (env : JobEnv) (snapshot : Node) (db : String)
    (col_ : String × Node) (j : Nat) :
    ((enforceCollection env snapshot db col_ j).jobs.filterMap
        fun job => job.kind.shard?).Sublist
      (((collectionShards db col_).filter PlannedShard.enforced).map PlannedShard.shard) ∧
    ∀ job ∈ (enforceCollection env snapshot db col_ j).jobs,
      ∀ name, job.kind.shard? = some name → name ∉ todoTargets snapshot := by
  unfold enforceCollection
  split_ifs with h1 h2
  · refine ⟨?_, runRounds_forall _ _ _
      (fun shard_ _ i => (enforceShard_targets env snapshot _ db col_.1 shard_ i).2) j⟩
    have h := runRounds_sublist
      (enforceShard env snapshot (wantedReplicationFactor env snapshot col_.2) db col_.1)
      (fun job => job.kind.shard?) (fun shard_ : String × Node => [shard_.1])
      (col_.2.hasAsChildren "shards").1
      (fun shard_ _ i => (enforceShard_targets env snapshot _ db col_.1 shard_ i).1) j
    have hall : (collectionShards db col_).filter PlannedShard.enforced =
        collectionShards db col_ := by
      rw [List.filter_eq_self]
      intro x hx
      obtain ⟨shard_, -, rfl⟩ := List.mem_map.mp hx
      simp only [Bool.not_eq_true'] at h2
      simp [PlannedShard.enforced, h1, h2]
    have hflat : ((col_.2.hasAsChildren "shards").1.map
        fun shard_ : String × Node => [shard_.1]).flatten =
        (collectionShards db col_).map PlannedShard.shard := by
      unfold collectionShards
      generalize (col_.2.hasAsChildren "shards").1 = shards
      induction shards with
      | nil => rfl
      | cons s rest ih => simp only [List.map_cons, List.flatten_cons, ih, List.singleton_append]
    rw [hall, ← hflat]
    exact h
  · exact ⟨List.nil_sublist _, fun _ h => absurd h (List.not_mem_nil _)⟩
  · exact ⟨List.nil_sublist _, fun _ h => absurd h (List.not_mem_nil _)⟩

theorem enforceReplication_targets (env : JobEnv) (snapshot : Node) (j : Nat) :
    ((enforceReplication env snapshot j).jobs.filterMap
        fun job => job.kind.shard?).Sublist
      (((plannedShards snapshot).filter PlannedShard.enforced).map PlannedShard.shard) ∧
    ∀ job ∈ (enforceReplication env snapshot j).jobs,
      ∀ name, job.kind.shard? = some name → name ∉ todoTargets snapshot := by
  have hdb : ∀ (db_ : String × Node) (i : Nat),
      ((enforceDatabase env snapshot db_ i).jobs.filterMap
          fun job => job.kind.shard?).Sublist
        (((databaseShards db_).filter PlannedShard.enforced).map PlannedShard.shard) ∧
      ∀ job ∈ (enforceDatabase env snapshot db_ i).jobs,
        ∀ name, job.kind.shard? = some name → name ∉ todoTargets snapshot := by
    intro db_ i
    refine ⟨?_, runRounds_forall _ _ _
      (fun col_ _ i2 => (enforceCollection_targets env snapshot db_.1 col_ i2).2) i⟩
    have h := runRounds_sublist (enforceCollection env snapshot db_.1)
      (fun job => job.kind.shard?)
      (fun col_ => ((collectionShards db_.1 col_).filter PlannedShard.enforced).map
        PlannedShard.shard)
      db_.2.children
      (fun col_ _ i2 => (enforceCollection_targets env snapshot db_.1 col_ i2).1) i
    have he : ((databaseShards db_).filter PlannedShard.enforced).map PlannedShard.shard =
        (db_.2.children.map fun col_ =>
          ((collectionShards db_.1 col_).filter PlannedShard.enforced).map
            PlannedShard.shard).flatten := by
      simp only [databaseShards, List.filter_flatten, List.map_flatten, List.map_map]
      rfl
    rw [he]
    exact h
  refine ⟨?_, runRounds_forall _ _ _ (fun db_ _ i => (hdb db_ i).2) j⟩
  have h := runRounds_sublist (enforceDatabase env snapshot) (fun job => job.kind.shard?)
    (fun db_ => ((databaseShards db_).filter PlannedShard.enforced).map PlannedShard.shard)
    (snapshot.hasAsChildren planColPrefix).1 (fun db_ _ i => (hdb db_ i).1) j
  have he : ((plannedShards snapshot).filter PlannedShard.enforced).map PlannedShard.shard =
      ((snapshot.hasAsChildren planColPrefix).1.map fun db_ =>
        ((databaseShards db_).filter PlannedShard.enforced).map PlannedShard.shard).flatten := by
    simp only [plannedShards, List.filter_flatten, List.map_flatten, List.map_map]
    rfl
  rw [he]
  exact h

/-- Counterexample for C26: ToDo is empty, two collections each have a shard
named `s1` with a wrong number of planned servers, and one run starts an
AddFollower and a RemoveFollower job that both target `s1`. -/
theorem enforceReplication_twin_shards :
    todoTargets twinSnapshot = [] ∧
    (enforceReplication sampleEnv twinSnapshot 10000).jobs =
      [⟨.addFollower "db1" "coll1" "s1", "10000", "supervision"⟩,
       ⟨.removeFollower "db2" "coll1" "s1", "10001", "supervision"⟩] ∧
    (targetsAfter twinSnapshot (enforceReplication sampleEnv twinSnapshot 10000)).count "s1" =
      2 := by
  refine ⟨by decide, by decide, by decide⟩

/-- C26, amended: for every snapshot in which each shard name has at most one
addFollower, removeFollower or moveShard job in ToDo, and in which the shards
of the collections that have a replicationFactor and no distributeShardsLike
carry pairwise different names, the jobs in ToDo together with the jobs
started by one run of `enforceReplication` contain, for every shard name, at
most one job of those types that targets it. -/
theorem enforceReplication_one_job_per_shard (env : JobEnv) (snapshot : Node) (jobId : Nat)
    (htodo : ∀ name, (todoTargets snapshot).count name ≤ 1)
    (hnames : (((plannedShards snapshot).filter PlannedShard.enforced).map
      PlannedShard.shard).Nodup) :
    ∀ name, (targetsAfter snapshot (enforceReplication env snapshot jobId)).count name ≤ 1 := by
  obtain ⟨hsub, hnot⟩ := enforceReplication_targets env snapshot jobId
  rw [← List.nodup_iff_count_le_one] at htodo ⊢
  unfold targetsAfter
  rw [List.nodup_append]
  refine ⟨htodo, hsub.nodup hnames, ?_⟩
  intro name h1 h2
  obtain ⟨job, hjob, hname⟩ := List.mem_filterMap.mp h2
  exact hnot job hjob name hname h1

/-- Witness for C26: the two shards `s1` and `s2` of one collection each get
one job. -/
theorem enforceReplication_one_job_per_shard_witness :
    (∀ name, (todoTargets pairSnapshot).count name ≤ 1) ∧
    targetsAfter pairSnapshot (enforceReplication sampleEnv pairSnapshot 10000) = ["s1", "s2"] ∧
    ∀ name,
      (targetsAfter pairSnapshot (enforceReplication sampleEnv pairSnapshot 10000)).count name ≤
        1 :=
  have htodo : ∀ name, (todoTargets pairSnapshot).count name ≤ 1 := fun name => by
    have h : todoTargets pairSnapshot = [] := by decide
    rw [h]; simp
  ⟨htodo, by decide,
    enforceReplication_one_job_per_shard sampleEnv pairSnapshot 10000 htodo (by decide)⟩

/-! ## The job ids of a leader term -/

theorem submit_jobId (changed : Bool) (pr : Option VPack) (t : VPack) (j : Nat) (o : Observed)
    (calls : List AgentCall) (j1 : Nat) (h : submit changed pr t j o = some (calls, j1)) :
    j1 = if (changed && o.applied) = true then (j + 1) % 2 ^ 64 else j := by
  obtain ⟨n1, n2, n3, n4, stopping, ⟨accepted, indices⟩⟩ := o
  unfold submit at h
  unfold Observed.applied
  cases stopping <;> cases changed <;> cases pr <;> cases accepted <;> cases indices <;>
    simp_all
  split_ifs at h <;> simp_all

theorem handleOnStatus_envelope_id (snapshot : Node) (p t : HealthRecord) (id : String)
    (j : Nat) (str : String)
    (h : (handleOnStatus snapshot p t id j).envelope.bind Envelope.jobId? = some str) :
    str = toString j := by
  unfold handleOnStatus handleOnStatusDBServer handleOnStatusCoordinator
    handleOnStatusSingle at h
  split_ifs at h <;> cases hf : snapshot.has (failedServersPrefix ++ "/" ++ id) <;>
    simp_all [Envelope.jobId?]

theorem checkMachine_done (s : Settings) (snapshot transient : Node) (j : Nat) (id : String)
    (o : Observed) (r : CheckResult)
    (h : checkMachine s snapshot transient j id o = .done r) :
    r.jobId = (if (r.changed && o.applied) = true then (j + 1) % 2 ^ 64 else j) ∧
    ∀ str, r.envelope.bind Envelope.jobId? = some str → str = toString j := by
  unfold checkMachine at h
  simp only at h
  split_ifs at h with hsn
  unfold checkBody at h
  simp only at h
  split at h
  · cases h
  · split at h
    · cases h
    · next calls j1 hsub =>
      injection h with h
      subst h
      refine ⟨submit_jobId _ _ _ _ _ _ _ hsub, ?_⟩
      intro str hstr
      simp only at hstr
      split_ifs at hstr with hch
      · exact handleOnStatus_envelope_id _ _ _ _ _ _ hstr
      · simp at hstr

theorem digitChar_value : ∀ k, k < 10 → (Nat.digitChar k).toNat - 48 = k := by decide

theorem toDigitsCore_value (fuel : Nat) : ∀ (n : Nat) (ds : List Char), n < fuel →
    (Nat.toDigitsCore 10 fuel n ds).foldl (fun acc c => acc * 10 + (c.toNat - 48)) 0 =
      ds.foldl (fun acc c => acc * 10 + (c.toNat - 48)) n := by
  induction fuel with
  | zero => intro n ds h; exact absurd h (Nat.not_lt_zero _)
  | succ fuel ih =>
    intro n ds h
    simp only [Nat.toDigitsCore]
    split_ifs with h0
    · have hn : n < 10 := by omega
      simp only [List.foldl_cons, Nat.zero_mul, Nat.zero_add, Nat.mod_eq_of_lt hn,
        digitChar_value n hn]
    · rw [ih (n / 10) _ (by omega)]
      simp only [List.foldl_cons, digitChar_value (n % 10) (Nat.mod_lt _ (by norm_num))]
      congr 1
      omega

theorem decimalValue_toString (n : Nat) : decimalValue (toString n) = n := by
  have h : (toString n).data = Nat.toDigitsCore 10 (n + 1) n [] := rfl
  unfold decimalValue
  rw [h, toDigitsCore_value (n + 1) n [] (Nat.lt_succ_self n)]
  rfl

theorem toString_injective : Function.Injective (fun n : Nat => toString n) := by
  intro a b h
  have h2 := congrArg decimalValue h
  simpa only [decimalValue_toString] using h2

theorem checkLoop_booked (s : Settings) (snapshot transient : Node) (obs : String → Observed)
    (machines : List (String × Node)) :
    ∀ j, j + machines.length < 2 ^ 64 →
      ∃ nums : List Nat,
        bookedJobs obs (checkLoop s snapshot transient obs machines j).1 =
          nums.map (fun n => toString n) ∧
        nums.Pairwise (· < ·) ∧
        (∀ n ∈ nums, j ≤ n ∧ n < (checkLoop s snapshot transient obs machines j).2) ∧
        j ≤ (checkLoop s snapshot transient obs machines j).2 := by
  induction machines with
  | nil =>
    intro j _
    exact ⟨[], rfl, List.Pairwise.nil, fun _ h => absurd h (List.not_mem_nil _), le_refl _⟩
  | cons machine rest ih =>
    intro j hj
    simp only [List.length_cons] at hj
    unfold checkLoop
    split
    · dsimp only
      obtain ⟨nums, h1, h2, h3, h4⟩ := ih j (by omega)
      exact ⟨nums, by simpa [bookedJobs] using h1, h2, h3, h4⟩
    · exact ⟨[], rfl, List.Pairwise.nil, fun _ h => absurd h (List.not_mem_nil _), le_refl _⟩
    · next r hr =>
      dsimp only
      obtain ⟨hid, henv⟩ := checkMachine_done s snapshot transient j machine.1 _ r hr
      by_cases hc : (r.changed && (obs machine.1).applied) = true
      · rw [if_pos hc, Nat.mod_eq_of_lt (by omega)] at hid
        obtain ⟨nums, h1, h2, h3, h4⟩ := ih r.jobId (by omega)
        cases he : r.envelope.bind Envelope.jobId? with
        | none =>
          refine ⟨nums, ?_, h2, ?_, by omega⟩
          · simpa [bookedJobs, hc, he] using h1
          · intro n hn
            have := h3 n hn
            omega
        | some str =>
          refine ⟨j :: nums, ?_, ?_, ?_, by omega⟩
          · have hstr := henv str he
            simp only [bookedJobs, List.filterMap_cons, hc, if_true, he, List.map_cons, ← hstr]
            congr 1
          · refine List.Pairwise.cons ?_ h2
            intro n hn
            have := h3 n hn
            omega
          · intro n hn
            rcases List.mem_cons.mp hn with h | h
            · omega
            · have := h3 n h
              omega
      · rw [if_neg hc] at hid
        obtain ⟨nums, h1, h2, h3, h4⟩ := ih r.jobId (by omega)
        refine ⟨nums, ?_, h2, ?_, by omega⟩
        · have hb : bookedJobs obs ((machine.1, Outcome.done r) ::
              (checkLoop s snapshot transient obs rest r.jobId).1) =
              bookedJobs obs (checkLoop s snapshot transient obs rest r.jobId).1 := by
            simp only [bookedJobs, List.filterMap_cons, hc, Bool.false_eq_true, if_false]
          rw [hb]
          exact h1
        · intro n hn
          have := h3 n hn
          omega

theorem numbered_ids (j : Nat) (run : JobRun) (h : run.Numbered j)
    (hb : j + run.jobs.length < 2 ^ 64) :
    ∃ nums : List Nat,
      run.jobs.map JobStart.jobId = nums.map (fun n => toString n) ∧
      nums.Pairwise (· < ·) ∧
      (∀ n ∈ nums, j ≤ n ∧ n < run.jobId) ∧ j ≤ run.jobId := by
  obtain ⟨h1, h2, -⟩ := h
  rw [Nat.mod_eq_of_lt hb] at h2
  refine ⟨(List.range run.jobs.length).map (fun i => j + i), ?_, ?_, ?_, by omega⟩
  · rw [h1, List.map_map]
    apply List.map_congr_left
    intro i hi
    have hi2 : i < run.jobs.length := List.mem_range.mp hi
    simp only [Function.comp]
    rw [Nat.mod_eq_of_lt (by omega)]
  · rw [List.pairwise_map]
    exact (List.pairwise_lt_range _).imp (fun hab => by omega)
  · intro n hn
    obtain ⟨i, hi, rfl⟩ := List.mem_map.mp hn
    have hi2 : i < run.jobs.length := List.mem_range.mp hi
    omega

theorem shrinkCluster_numbered (env : JobEnv) (snapshot : Node) (j : Nat) (hj : j < 2 ^ 64) :
    (shrinkCluster env snapshot j).Numbered j ∧ (shrinkCluster env snapshot j).jobs.length ≤ 1 := by
  unfold shrinkCluster
  split_ifs
  all_goals first
    | exact ⟨numbered_nil j hj false, Nat.zero_le _⟩
    | skip
  split
  · exact ⟨numbered_nil j hj false, Nat.zero_le _⟩
  · split_ifs
    · split
      · exact ⟨numbered_one j hj _, le_refl _⟩
      · exact ⟨numbered_nil j hj false, Nat.zero_le _⟩
    · exact ⟨numbered_nil j hj false, Nat.zero_le _⟩
    · exact ⟨numbered_nil j hj false, Nat.zero_le _⟩

theorem runStep_ids (c : Counter) (step : TermStep) (hr : replyGrows c step)
    (hb : c.jobId + stepBound c step < 2 ^ 64) :
    ∃ nums : List Nat,
      (runStep c step).ids = nums.map (fun n => toString n) ∧
      nums.Pairwise (· < ·) ∧
      (∀ n ∈ nums, c.jobId ≤ n ∧ n < (runStep c step).counter.jobId) ∧
      c.jobId ≤ (runStep c step).counter.jobId := by
  cases step with
  | reserve ret =>
    refine ⟨[], rfl, List.Pairwise.nil, fun _ h => absurd h (List.not_mem_nil _), ?_⟩
    simp only [runStep]
    split_ifs with hg
    · unfold getUniqueIds
      split_ifs with ha
      · cases hl : latestId ret.result with
        | none => exact le_refl _
        | some v =>
          obtain ⟨h1, h2⟩ := hr ha v hl
          simp only
          rw [sub_batch_mod v (by omega) h2]
          simp only [Bool.or_eq_true, beq_iff_eq] at hg
          omega
      · exact le_refl _
    · exact le_refl _
  | check s agencyPrefix snapshot transient obs type =>
    exact checkLoop_booked s snapshot transient obs (machinesPlanned snapshot type) c.jobId hb
  | shrink env snapshot =>
    have hj : c.jobId < 2 ^ 64 := by omega
    obtain ⟨h1, h2⟩ := shrinkCluster_numbered env snapshot c.jobId hj
    exact numbered_ids c.jobId _ h1 (by simp only [stepBound] at hb; omega)
  | enforce env snapshot =>
    have hj : c.jobId < 2 ^ 64 := by omega
    exact numbered_ids c.jobId _ (enforceReplication_numbered env snapshot c.jobId hj) hb

theorem runSteps_ids (steps : List TermStep) :
    ∀ c : Counter, TermSafe c steps →
      ∃ nums : List Nat,
        termIds c steps = nums.map (fun n => toString n) ∧
        nums.Pairwise (· < ·) ∧
        (∀ n ∈ nums, c.jobId ≤ n) ∧
        ((runSteps c steps).map fun run => run.counter.jobId).Pairwise (· ≤ ·) ∧
        ∀ n ∈ (runSteps c steps).map (fun run => run.counter.jobId), c.jobId ≤ n := by
  induction steps with
  | nil =>
    intro c _
    exact ⟨[], rfl, List.Pairwise.nil, fun _ h => absurd h (List.not_mem_nil _),
      List.Pairwise.nil, fun _ h => absurd h (List.not_mem_nil _)⟩
  | cons step rest ih =>
    intro c hsafe
    obtain ⟨hr, hb, hrest⟩ := hsafe
    obtain ⟨nums1, a1, a2, a3, a4⟩ := runStep_ids c step hr hb
    by_cases ht : (runStep c step).threw = true
    · refine ⟨nums1, ?_, a2, fun n hn => (a3 n hn).1, ?_, ?_⟩
      · simp [termIds, runSteps, ht, a1]
      · simp [runSteps, ht]
      · simp [runSteps, ht, a4]
    · obtain ⟨nums2, b1, b2, b3, b4, b5⟩ := ih (runStep c step).counter hrest
      refine ⟨nums1 ++ nums2, ?_, ?_, ?_, ?_, ?_⟩
      · unfold termIds at b1 ⊢
        simp only [runSteps, ht, Bool.false_eq_true, if_false, List.map_cons,
          List.flatten_cons, a1, b1, List.map_append]
      · rw [List.pairwise_append]
        refine ⟨a2, b2, ?_⟩
        intro x hx y hy
        have := (a3 x hx).2
        have := b3 y hy
        omega
      · intro n hn
        rcases List.mem_append.mp hn with h | h
        · exact (a3 n h).1
        · have := b3 n h
          omega
      · simp only [runSteps, ht, Bool.false_eq_true, if_false, List.map_cons]
        exact List.Pairwise.cons b5 b4
      · simp only [runSteps, ht, Bool.false_eq_true, if_false, List.map_cons]
        intro n hn
        rcases List.mem_cons.mp hn with h | h
        · omega
        · have := b5 n h
          omega

/-- C24: along every sequence of steps within one leader term (reservations
with their replies, calls of `check`, of `shrinkCluster` and of
`enforceReplication`) in which every reply to a reservation holds a value
that has grown by at least the step and no step drives `_jobId` to `2 ^ 64`,
the values of `_jobId` never decrease, and no two jobs that were created
(a FailedServer or ActiveFailover job whose write was applied, an AddFollower,
RemoveFollower or CleanOutServer job) carry the same id. -/
theorem jobIds_increase (c : Counter) (steps : List TermStep) (h : TermSafe c steps) :
    (termJobIds c steps).Pairwise (· ≤ ·) ∧ (termIds c steps).Nodup := by
  obtain ⟨nums, h1, h2, -, h4, h5⟩ := runSteps_ids steps c h
  refine ⟨List.Pairwise.cons h5 h4, ?_⟩
  rw [h1]
  exact List.Nodup.map toString_injective (h2.imp (fun hab => Nat.ne_of_lt hab))

theorem sampleTerm_safe : TermSafe ⟨0, 0⟩ sampleTerm := by
  refine ⟨?_, by decide, trivial, by decide, trivial, by decide, trivial, by decide, trivial⟩
  intro _ v hv
  have h : latestId (latestIdReply "/arango" 1 20000) = some 20000 := rfl
  have hv2 : some 20000 = some v := h.symm.trans hv
  simp only [Option.some.injEq] at hv2
  subst hv2
  decide

/-- Witness for C24: a reservation, a call of `check` that creates a
FailedServer job, a call of `shrinkCluster` and a call of
`enforceReplication` that starts two jobs. -/
theorem jobIds_increase_witness :
    TermSafe ⟨0, 0⟩ sampleTerm ∧
    termIds ⟨0, 0⟩ sampleTerm = ["10000", "10001", "10002", "10003"] ∧
    termJobIds ⟨0, 0⟩ sampleTerm = [0, 10000, 10001, 10002, 10004] ∧
    (termJobIds ⟨0, 0⟩ sampleTerm).Pairwise (· ≤ ·) ∧ (termIds ⟨0, 0⟩ sampleTerm).Nodup :=
  ⟨sampleTerm_safe, by decide, by decide, jobIds_increase ⟨0, 0⟩ sampleTerm sampleTerm_safe⟩

theorem shrinkTick_run (j : Nat) (h0 : 0 < j) (h1 : j < 20000) (rest : List TermStep) :
    runSteps ⟨j, 20000⟩ (shrinkTick ++ rest) =
      ⟨[], ⟨j, 20000⟩, false⟩ :: ⟨[toString j], ⟨j + 1, 20000⟩, false⟩ ::
        runSteps ⟨j + 1, 20000⟩ rest := by
  have hs : shrinkCluster sampleEnv shrinkSnapshot j =
      ⟨[⟨.cleanOutServer "PRMR-c", toString j, "supervision"⟩], (j + 1) % 2 ^ 64, false⟩ := rfl
  have hg : (j == 0 || j == 20000) = false := by
    simp only [Bool.or_eq_false_iff, beq_eq_false_iff_ne]
    omega
  have hm : (j + 1) % 2 ^ 64 = j + 1 := Nat.mod_eq_of_lt (by omega)
  simp only [shrinkTick, List.cons_append, List.nil_append, runSteps, runStep, hg, hs, hm,
    Bool.false_eq_true, if_false, List.map_cons, List.map_nil]
  rfl

theorem shrinkTicks_counter (k : Nat) : ∀ j, 0 < j → j + k ≤ 20000 →
    termCounter ⟨j, 20000⟩ (List.replicate k shrinkTick).flatten = ⟨j + k, 20000⟩ ∧
    termIds ⟨j, 20000⟩ (List.replicate k shrinkTick).flatten =
      (List.range' j k).map (fun n => toString n) := by
  induction k with
  | zero => intro j _ _; exact ⟨rfl, rfl⟩
  | succ k ih =>
    intro j h0 h1
    obtain ⟨a1, a2⟩ := ih (j + 1) (by omega) (by omega)
    have hrun := shrinkTick_run j h0 (by omega) (List.replicate k shrinkTick).flatten
    constructor
    · unfold termCounter at a1 ⊢
      rw [List.replicate_succ, List.flatten_cons, hrun]
      simp only [List.foldl_cons]
      rw [show j + (k + 1) = j + 1 + k by omega]
      exact a1
    · unfold termIds at a2 ⊢
      rw [List.replicate_succ, List.flatten_cons, hrun]
      simp only [List.map_cons, List.flatten_cons, List.nil_append, List.singleton_append, a2,
        List.range'_succ]

/-- C28 fails on the code: a run leaves the reserved batch. A reservation
answered with 20000 sets the counters to 10000 and 20000; after 9999 ticks
that each start one job `_jobId` is 19999; the next tick does not reserve, since 19999 is
neither 0 nor `_jobIdMax`, and starts two jobs with the ids 19999 and 20000,
of which 20000 is not below `_jobIdMax`; `_jobId` is then 20001, and the tick
after that again does not reserve and hands out 20001 and 20002. -/
theorem jobIds_leave_batch :
    (runStep ⟨0, 0⟩ (.reserve ⟨true, latestIdReply "/arango" 1 20000⟩)).counter =
      ⟨10000, 20000⟩ ∧
    termCounter ⟨10000, 20000⟩ (List.replicate 9999 shrinkTick).flatten = ⟨19999, 20000⟩ ∧
    termIds ⟨19999, 20000⟩ enforceTick = [toString 19999, toString 20000] ∧
    ¬ (Counter.mk 19999 20000).inBatch 20000 ∧
    termCounter ⟨19999, 20000⟩ enforceTick = ⟨20001, 20000⟩ ∧
    termIds ⟨20001, 20000⟩ enforceTick = [toString 20001, toString 20002] := by
  refine ⟨by decide, (shrinkTicks_counter 9999 10000 (by norm_num) (by norm_num)).1,
    by decide, by decide, by decide, by decide⟩

/-! ## Writes to the store tree -/

theorem Node.children_object (l : List (String × Node)) : (Node.object l).children = l := rfl

theorem lookup_setChild_self (k : String) (c : Node) (l : List (String × Node)) :
    (setChild k c l).lookup k = some c := by
  induction l with
  | nil => simp [setChild, List.lookup]
  | cons entry rest ih =>
    unfold setChild
    split_ifs with h
    · simp [List.lookup]
    · have hne : (k == entry.1) = false := by
        simp only [beq_eq_false_iff_ne, ne_eq]
        exact fun he => h he.symm
      rw [List.lookup, hne]
      exact ih

theorem lookup_setChild_ne (k k2 : String) (c : Node) (l : List (String × Node))
    (h : k2 ≠ k) : (setChild k c l).lookup k2 = l.lookup k2 := by
  induction l with
  | nil =>
    have hne : (k2 == k) = false := by simpa using h
    simp [setChild, List.lookup, hne]
  | cons entry rest ih =>
    unfold setChild
    split_ifs with he
    · have hne : (k2 == k) = false := by simpa using h
      have hne2 : (k2 == entry.1) = false := by rw [he]; exact hne
      obtain ⟨e1, e2⟩ := entry
      simp only at he hne2
      simp only [List.lookup, hne, hne2]
    · obtain ⟨e1, e2⟩ := entry
      simp only [List.lookup]
      cases hk : (k2 == e1)
      · exact ih
      · rfl

theorem keys_setChild (k : String) (c c0 : Node) (l : List (String × Node))
    (h : l.lookup k = some c0) : (setChild k c l).map Prod.fst = l.map Prod.fst := by
  induction l with
  | nil => simp [List.lookup] at h
  | cons entry rest ih =>
    obtain ⟨e1, e2⟩ := entry
    unfold setChild
    split_ifs with he
    · simp only at he
      simp [he]
    · simp only at he
      have hne : (k == e1) = false := by
        simp only [beq_eq_false_iff_ne, ne_eq]
        exact fun h2 => he h2.symm
      simp only [List.lookup, hne] at h
      simp [ih h]

/-- Reading at or below the path that was written. -/
theorem getSegs_setSegs_ext (w : List String) : ∀ (n v : Node) (r : List String),
    (Node.setSegs w n v).getSegs (w ++ r) = v.getSegs r := by
  induction w with
  | nil => intro n v r; rfl
  | cons k ks ih =>
    intro n v r
    simp only [Node.setSegs, List.cons_append, Node.getSegs, Node.children_object,
      lookup_setChild_self]
    exact ih _ v r

theorem getSegs_setSegs_self (w : List String) (n v : Node) :
    (Node.setSegs w n v).getSegs w = some v := by
  have h := getSegs_setSegs_ext w n v []
  rw [List.append_nil] at h
  exact h

/-- Reading at a path that neither starts with the written path nor is a start
of it. -/
theorem getSegs_setSegs_apart (w : List String) : ∀ (n v : Node) (q : List String),
    ¬ w <+: q → ¬ q <+: w → (Node.setSegs w n v).getSegs q = n.getSegs q := by
  induction w with
  | nil => intro n v q h1 _; exact absurd (List.nil_prefix) h1
  | cons k ks ih =>
    intro n v q h1 h2
    cases q with
    | nil => exact absurd (List.nil_prefix) h2
    | cons k2 qs =>
      by_cases hk : k2 = k
      · subst hk
        have h1' : ¬ ks <+: qs := fun h => h1 ((List.prefix_cons_inj k2).mpr h)
        have h2' : ¬ qs <+: ks := fun h => h2 ((List.prefix_cons_inj k2).mpr h)
        simp only [Node.setSegs, Node.getSegs, Node.children_object, lookup_setChild_self]
        rw [ih _ v qs h1' h2']
        cases hl : n.children.lookup k2 with
        | some c => rfl
        | none =>
          simp only [Option.getD_none]
          cases qs with
          | nil => exact absurd (List.prefix_cons_inj k2 |>.mpr List.nil_prefix) h2
          | cons k3 qs2 => simp [Node.getSegs, Node.children_object, List.lookup]
      · simp only [Node.setSegs, Node.getSegs, Node.children_object]
        rw [lookup_setChild_ne k k2 _ _ hk]

theorem Node.strAt_cons (n : Node) (k : String) (qs : List String) :
    n.strAt (k :: qs) = match n.children.lookup k with
      | some c => c.strAt qs
      | none => "" := by
  unfold Node.strAt
  simp only [Node.getSegs]
  cases n.children.lookup k <;> rfl

theorem Node.keysAt_cons (n : Node) (k : String) (qs : List String) :
    (n.getSegs (k :: qs)).map Node.keys =
      match n.children.lookup k with
      | some c => (c.getSegs qs).map Node.keys
      | none => none := by
  simp only [Node.getSegs]
  cases n.children.lookup k <;> rfl

/-- Writing a string over a leaf changes the string read at that path only. -/
theorem strAt_setSegs_leaf (w : List String) : ∀ (n : Node) (a : VPack) (u : String)
    (q : List String), n.getSegs w = some (.value a) →
    (Node.setSegs w n (.value (.str u))).strAt q = if q = w then u else n.strAt q := by
  induction w with
  | nil =>
    intro n a u q h
    simp only [Node.getSegs, Option.some.injEq] at h
    subst h
    cases q with
    | nil => rfl
    | cons k qs => rfl
  | cons k ks ih =>
    intro n a u q h
    simp only [Node.getSegs] at h
    cases hl : n.children.lookup k with
    | none => rw [hl] at h; simp at h
    | some c =>
      rw [hl] at h
      simp only at h
      cases q with
      | nil =>
        cases n with
        | value v => simp [Node.children, List.lookup] at hl
        | object cs => rfl
      | cons k2 qs =>
        by_cases hk : k2 = k
        · subst hk
          simp only [Node.setSegs, Node.strAt_cons, Node.children_object, lookup_setChild_self,
            hl, Option.getD_some, ih c a u qs h, List.cons.injEq, true_and]
        · simp only [Node.setSegs, Node.strAt_cons, Node.children_object,
            lookup_setChild_ne k k2 _ _ hk, List.cons.injEq, hk, false_and, if_false]

/-- Writing a leaf over a leaf keeps the names of the children at every path. -/
theorem keys_setSegs_leaf (w : List String) : ∀ (n : Node) (a b : VPack) (q : List String),
    n.getSegs w = some (.value a) →
    ((Node.setSegs w n (.value b)).getSegs q).map Node.keys =
      (n.getSegs q).map Node.keys := by
  induction w with
  | nil =>
    intro n a b q h
    simp only [Node.getSegs, Option.some.injEq] at h
    subst h
    cases q with
    | nil => rfl
    | cons k qs => rfl
  | cons k ks ih =>
    intro n a b q h
    simp only [Node.getSegs] at h
    cases hl : n.children.lookup k with
    | none => rw [hl] at h; simp at h
    | some c =>
      rw [hl] at h
      simp only at h
      cases q with
      | nil =>
        simp only [Node.setSegs, Node.getSegs, Option.map_some', Node.children_object,
          Option.some.injEq]
        exact keys_setChild k _ c _ hl
      | cons k2 qs =>
        by_cases hk : k2 = k
        · subst hk
          simp only [Node.setSegs, Node.keysAt_cons, Node.children_object,
            lookup_setChild_self, hl, Option.getD_some]
          exact ih c a b qs h
        · simp only [Node.setSegs, Node.keysAt_cons, Node.children_object,
            lookup_setChild_ne k k2 _ _ hk]

/-! ## The tuples of `fixPrototypeChain` on the store -/

theorem splitPath_planCol (x : String) :
    splitPath (planColPrefix ++ x) = "Plan" :: "Collections" :: splitPath x := by
  have h : planColPrefix ++ x = "/Plan/Collections" ++ "/" ++ x := by
    rw [String.append_assoc]
    rfl
  rw [h, splitPath_slash]
  rfl

theorem dslPath_eq (db col : String) :
    splitPath (planColPrefix ++ db ++ "/" ++ col ++ "/" ++ "distributeShardsLike") =
      dslPath db col := by
  rw [splitPath_slash, splitPath_slash, splitPath_planCol]
  simp only [dslPath, List.cons_append, List.append_assoc]
  rfl

theorem prototypeOf_eq_strAt (n : Node) (db col : String) :
    prototypeOf n db col = n.strAt (dslPath db col) := by
  have hp : splitPath (planColPrefix ++ db ++ "/" ++ col) =
      "Plan" :: "Collections" :: (splitPath db ++ splitPath col) := by
    rw [splitPath_slash, splitPath_planCol]
    rfl
  have hd : dslPath db col =
      ("Plan" :: "Collections" :: (splitPath db ++ splitPath col)) ++
        ["distributeShardsLike"] := by
    simp [dslPath]
  unfold prototypeOf Node.hasAsNode Node.strAt
  simp only [Node.get, hp, hd, Node.getSegs_append]
  cases n.getSegs ("Plan" :: "Collections" :: (splitPath db ++ splitPath col)) with
  | none => rfl
  | some m =>
    simp only [if_true, Option.some_bind, Node.hasAsString, Node.get]
    have hs : splitPath "distributeShardsLike" = ["distributeShardsLike"] := by decide
    rw [hs]
    cases hg : m.getSegs ["distributeShardsLike"] with
    | none => rfl
    | some c =>
      cases c with
      | value v => cases v <;> rfl
      | object cs => rfl

theorem rewriteTuple_inj (p1 u1 o1 p2 u2 o2 : String)
    (h : rewriteTuple p1 u1 o1 = rewriteTuple p2 u2 o2) : p1 = p2 ∧ u1 = u2 ∧ o1 = o2 := by
  unfold rewriteTuple at h
  simp only [VPack.arr.injEq, List.cons.injEq, VPack.obj.injEq, Prod.mk.injEq, VPack.str.injEq,
    and_true] at h
  exact ⟨h.1.1, h.1.2, h.2.2⟩

theorem prototypeTuple_rewrite (db coll u prototype : String) :
    prototypeTuple db coll u prototype =
      rewriteTuple (planColPrefix ++ db ++ "/" ++ coll ++ "/" ++ "distributeShardsLike")
        u prototype := rfl

theorem applyTuple_rewrite (n m : Node) (path new old : String)
    (h : applyTuple n (rewriteTuple path new old) = some m) :
    n.getSegs (splitPath path) = some (.value (.str old)) ∧
    m = Node.setSegs (splitPath path) n (.value (.str new)) := by
  unfold rewriteTuple applyTuple at h
  simp only [List.all_cons, List.all_nil, Bool.and_true, holdsPrecondition] at h
  split_ifs at h with hp
  simp only [applyOps, VPack.isOperation, Bool.false_eq_true, if_false, Option.some.injEq,
    Node.set, Node.ofVPack] at h
  refine ⟨?_, h.symm⟩
  simp only [Bool.and_eq_true, beq_iff_eq] at hp
  obtain ⟨h1, h2⟩ := hp
  unfold Node.hasAsString at h1 h2
  unfold Node.get at h1 h2
  cases hg : n.getSegs (splitPath path) with
  | none => rw [hg] at h1; simp at h1
  | some c =>
    rw [hg] at h1 h2
    cases c with
    | value v =>
      cases v with
      | str s => simp only at h2; rw [h2]
      | _ => simp at h1
    | object cs => simp at h1

theorem applyEnvelope_cons (k m : Node) (t : VPack) (rest : List VPack)
    (h : applyEnvelope k (t :: rest) = some m) :
    ∃ k1, applyTuple k t = some k1 ∧ applyEnvelope k1 rest = some m := by
  unfold applyEnvelope at h
  cases ht : applyTuple k t with
  | none => rw [ht] at h; simp at h
  | some k1 => rw [ht] at h; exact ⟨k1, rfl, h⟩

theorem applyEnvelope_append (k m : Node) (a b : List VPack)
    (h : applyEnvelope k (a ++ b) = some m) :
    ∃ k1, applyEnvelope k a = some k1 ∧ applyEnvelope k1 b = some m := by
  induction a generalizing k with
  | nil => exact ⟨k, rfl, h⟩
  | cons t rest ih =>
    obtain ⟨k1, h1, h2⟩ := applyEnvelope_cons k m t (rest ++ b) h
    obtain ⟨k2, h3, h4⟩ := ih k1 h2
    refine ⟨k2, ?_, h4⟩
    unfold applyEnvelope
    rw [h1]
    exact h3

theorem strAt_of_getSegs (n : Node) (q : List String) (s : String)
    (h : n.getSegs q = some (.value (.str s))) : n.strAt q = s := by
  unfold Node.strAt
  rw [h]

theorem applyEnvelope_rewrites (Good : String → String → Prop) (T : List VPack) :
    ∀ (k m : Node),
    (∀ t ∈ T, ∃ path new old, t = rewriteTuple path new old ∧ old ≠ "" ∧ Good path new) →
    applyEnvelope k T = some m →
    (∀ q, (m.getSegs q).map Node.keys = (k.getSegs q).map Node.keys) ∧
    (∀ q, (∃ path new, Good path new ∧ splitPath path = q ∧ m.strAt q = new) ∨
          ((∀ path new old, rewriteTuple path new old ∈ T → splitPath path ≠ q) ∧
            m.strAt q = k.strAt q)) ∧
    (∀ q, k.strAt q = "" → m.strAt q = "") := by
  induction T with
  | nil =>
    intro k m _ h
    simp only [applyEnvelope, Option.some.injEq] at h
    subst h
    exact ⟨fun _ => rfl, fun q => Or.inr ⟨fun _ _ _ hm => absurd hm (List.not_mem_nil _), rfl⟩,
      fun _ h => h⟩
  | cons t rest ih =>
    intro k m hT h
    obtain ⟨k1, h1, h2⟩ := applyEnvelope_cons k m t rest h
    obtain ⟨path, new, old, ht, hold, hgood⟩ := hT t (List.mem_cons_self _ _)
    subst ht
    obtain ⟨hleaf, hk1⟩ := applyTuple_rewrite k k1 path new old h1
    obtain ⟨i1, i2, i3⟩ := ih k1 m (fun t ht => hT t (List.mem_cons_of_mem _ ht)) h2
    have hstr : ∀ q, k1.strAt q = if q = splitPath path then new else k.strAt q := by
      intro q
      rw [hk1]
      exact strAt_setSegs_leaf _ k _ new q hleaf
    refine ⟨?_, ?_, ?_⟩
    · intro q
      rw [i1 q, hk1]
      exact keys_setSegs_leaf _ k _ _ q hleaf
    · intro q
      rcases i2 q with hex | ⟨hno, hsame⟩
      · exact Or.inl hex
      · by_cases hq : q = splitPath path
        · refine Or.inl ⟨path, new, hgood, hq.symm, ?_⟩
          rw [hsame, hstr q, if_pos hq]
        · refine Or.inr ⟨?_, ?_⟩
          · intro path2 new2 old2 hmem
            rcases List.mem_cons.mp hmem with heq | hrest
            · obtain ⟨hp, -, -⟩ := rewriteTuple_inj _ _ _ _ _ _ heq
              rw [hp]
              exact fun h => hq h.symm
            · exact hno path2 new2 old2 hrest
          · rw [hsame, hstr q, if_neg hq]
    · intro q hq
      apply i3
      rw [hstr q]
      split_ifs with hw
      · exfalso
        rw [hw, strAt_of_getSegs k _ old hleaf] at hq
        exact hold hq
      · exact hq

theorem concatRounds_some {α : Type} (rounds : List (Option (List α))) :
    ∀ out, concatRounds rounds = some out →
      (∀ t ∈ out, ∃ l, some l ∈ rounds ∧ t ∈ l) ∧
      (∀ r ∈ rounds, ∃ l, r = some l ∧ ∀ t ∈ l, t ∈ out) := by
  induction rounds with
  | nil =>
    intro out h
    simp only [concatRounds, Option.some.injEq] at h
    subst h
    exact ⟨fun _ h => absurd h (List.not_mem_nil _), fun _ h => absurd h (List.not_mem_nil _)⟩
  | cons r rest ih =>
    intro out h
    cases r with
    | none => simp [concatRounds] at h
    | some a =>
      simp only [concatRounds, Option.map_eq_some'] at h
      obtain ⟨b, hb, rfl⟩ := h
      obtain ⟨i1, i2⟩ := ih b hb
      constructor
      · intro t ht
        rcases List.mem_append.mp ht with h1 | h1
        · exact ⟨a, List.mem_cons_self _ _, h1⟩
        · obtain ⟨l, hl, htl⟩ := i1 t h1
          exact ⟨l, List.mem_cons_of_mem _ hl, htl⟩
      · intro r hr
        rcases List.mem_cons.mp hr with h1 | h1
        · exact ⟨a, h1, fun t ht => List.mem_append_left _ ht⟩
        · obtain ⟨l, hl, htl⟩ := i2 r h1
          exact ⟨l, hl, fun t ht => List.mem_append_right _ (htl t ht)⟩

theorem fixCollection_some (fuel : Nat) (n : Node) (db : String) (c : String × Node)
    (l : List VPack) (h : fixCollection fuel n db c = some l) :
    (∀ t ∈ l, c.2.has "distributeShardsLike" = true ∧
      (c.2.hasAsString "distributeShardsLike").1 ≠ "" ∧
      ∃ u, resolve n db fuel (c.2.hasAsString "distributeShardsLike").1 = some u ∧
        t = prototypeTuple db c.1 u (c.2.hasAsString "distributeShardsLike").1) ∧
    (c.2.has "distributeShardsLike" = true →
      (c.2.hasAsString "distributeShardsLike").1 ≠ "" →
      ∃ u, resolve n db fuel (c.2.hasAsString "distributeShardsLike").1 = some u ∧
        (u = (c.2.hasAsString "distributeShardsLike").1 ∨
          prototypeTuple db c.1 u (c.2.hasAsString "distributeShardsLike").1 ∈ l)) := by
  unfold fixCollection at h
  by_cases h1 : c.2.has "distributeShardsLike" = true
  · by_cases h2 : (c.2.hasAsString "distributeShardsLike").1 = ""
    · simp only [h1, h2, if_true, ne_eq, not_true_eq_false, if_false, Option.some.injEq] at h
      subst h
      exact ⟨fun _ ht => absurd ht (List.not_mem_nil _), fun _ hne => absurd h2 hne⟩
    · simp only [h1, if_true, ne_eq, h2, not_false_eq_true] at h
      cases hr : resolve n db fuel (c.2.hasAsString "distributeShardsLike").1 with
      | none => rw [hr] at h; simp at h
      | some u =>
        rw [hr] at h
        simp only at h
        by_cases hu : u = (c.2.hasAsString "distributeShardsLike").1
        · rw [if_neg (not_not.mpr hu)] at h
          simp only [Option.some.injEq] at h
          subst h
          exact ⟨fun _ ht => absurd ht (List.not_mem_nil _), fun _ _ => ⟨u, rfl, Or.inl hu⟩⟩
        · rw [if_pos hu] at h
          simp only [Option.some.injEq] at h
          subst h
          refine ⟨?_, fun _ _ => ⟨u, rfl, Or.inr (List.mem_singleton.mpr rfl)⟩⟩
          intro t ht
          exact ⟨h1, h2, u, rfl, List.mem_singleton.mp ht⟩
  · simp only [h1, Bool.false_eq_true, if_false, Option.some.injEq] at h
    subst h
    exact ⟨fun _ ht => absurd ht (List.not_mem_nil _), fun hh => absurd hh h1⟩

theorem fixPrototypeChain_some (fuel : Nat) (n : Node) (T : List VPack)
    (h : fixPrototypeChain fuel n = some T) :
    (∀ t ∈ T, ∃ database ∈ (n.hasAsChildren planColPrefix).1, ∃ c ∈ database.2.children,
      c.2.has "distributeShardsLike" = true ∧
      (c.2.hasAsString "distributeShardsLike").1 ≠ "" ∧
      ∃ u, resolve n database.1 fuel (c.2.hasAsString "distributeShardsLike").1 = some u ∧
        t = prototypeTuple database.1 c.1 u (c.2.hasAsString "distributeShardsLike").1) ∧
    (∀ database ∈ (n.hasAsChildren planColPrefix).1, ∀ c ∈ database.2.children,
      c.2.has "distributeShardsLike" = true →
      (c.2.hasAsString "distributeShardsLike").1 ≠ "" →
      ∃ u, resolve n database.1 fuel (c.2.hasAsString "distributeShardsLike").1 = some u ∧
        (u = (c.2.hasAsString "distributeShardsLike").1 ∨
          prototypeTuple database.1 c.1 u (c.2.hasAsString "distributeShardsLike").1 ∈ T)) := by
  unfold fixPrototypeChain at h
  obtain ⟨o1, o2⟩ := concatRounds_some _ T h
  constructor
  · intro t ht
    obtain ⟨l, hl, htl⟩ := o1 t ht
    obtain ⟨database, hdb, hfd⟩ := List.mem_map.mp hl
    unfold fixDatabase at hfd
    obtain ⟨p1, -⟩ := concatRounds_some _ l hfd
    obtain ⟨l2, hl2, htl2⟩ := p1 t htl
    obtain ⟨c, hc, hfc⟩ := List.mem_map.mp hl2
    obtain ⟨q1, -⟩ := fixCollection_some fuel n database.1 c l2 hfc
    obtain ⟨a1, a2, u, a3, a4⟩ := q1 t htl2
    exact ⟨database, hdb, c, hc, a1, a2, u, a3, a4⟩
  · intro database hdb c hc h1 h2
    obtain ⟨l, hl, htl⟩ := o2 _ (List.mem_map.mpr ⟨database, hdb, rfl⟩)
    unfold fixDatabase at hl
    obtain ⟨-, p2⟩ := concatRounds_some _ l hl
    obtain ⟨l2, hl2, htl2⟩ := p2 _ (List.mem_map.mpr ⟨c, hc, rfl⟩)
    obtain ⟨-, q2⟩ := fixCollection_some fuel n database.1 c l2 hl2
    obtain ⟨u, hu, hor⟩ := q2 h1 h2
    refine ⟨u, hu, ?_⟩
    rcases hor with h3 | h3
    · exact Or.inl h3
    · exact Or.inr (htl _ (htl2 _ h3))

theorem chainEnd_end (n : Node) (db col e : String) (h : ChainEnd n db col e) :
    prototypeOf n db e = "" := by
  induction h with
  | stop col h => exact h
  | step col e _ _ ih => exact ih

theorem resolve_self_end (n : Node) (db col : String) (fuel : Nat)
    (h : resolve n db fuel col = some col) : prototypeOf n db col = "" :=
  chainEnd_end n db col col (chainEnd_of_resolve n db fuel col col h)

theorem resolve_end (n : Node) (db col u : String) (fuel : Nat)
    (h : resolve n db fuel col = some u) : prototypeOf n db u = "" :=
  chainEnd_end n db col u (chainEnd_of_resolve n db fuel col u h)

theorem lookup_of_mem_nodup (l : List (String × Node)) (k : String) (c : Node)
    (hnd : (l.map Prod.fst).Nodup) (h : (k, c) ∈ l) : l.lookup k = some c := by
  induction l with
  | nil => exact absurd h (List.not_mem_nil _)
  | cons entry rest ih =>
    obtain ⟨e1, e2⟩ := entry
    rw [List.map_cons, List.nodup_cons] at hnd
    rcases List.mem_cons.mp h with heq | hmem
    · injection heq with h1 h2
      subst h1
      subst h2
      simp [List.lookup]
    · have hne : (k == e1) = false := by
        simp only [beq_eq_false_iff_ne, ne_eq]
        intro he
        subst he
        exact hnd.1 (List.mem_map.mpr ⟨(k, c), hmem, rfl⟩)
      rw [List.lookup, hne]
      exact ih hnd.2 hmem

theorem planDatabases_eq (n : Node) :
    (n.hasAsChildren planColPrefix).1 =
      ((n.getSegs ["Plan", "Collections"]).map Node.children).getD [] := by
  have hs : splitPath planColPrefix = ["Plan", "Collections"] := by decide
  unfold Node.hasAsChildren Node.get
  rw [hs]
  cases n.getSegs ["Plan", "Collections"] <;> rfl

theorem planNames_eq (n : Node) :
    (n.hasAsChildren planColPrefix).1.map Prod.fst =
      ((n.getSegs ["Plan", "Collections"]).map Node.keys).getD [] := by
  rw [planDatabases_eq]
  cases n.getSegs ["Plan", "Collections"] <;> rfl

theorem getSegs_single (n : Node) (k : String) (c : Node) (h : n.children.lookup k = some c) :
    n.getSegs [k] = some c := by
  simp only [Node.getSegs, h]

theorem getSegs_database (n : Node) (database : String × Node)
    (hnd : ((n.hasAsChildren planColPrefix).1.map Prod.fst).Nodup)
    (hdb : database ∈ (n.hasAsChildren planColPrefix).1) :
    n.getSegs ["Plan", "Collections", database.1] = some database.2 := by
  rw [planDatabases_eq] at hnd hdb
  have hq : ["Plan", "Collections", database.1] = ["Plan", "Collections"] ++ [database.1] := rfl
  rw [hq, Node.getSegs_append]
  cases hg : n.getSegs ["Plan", "Collections"] with
  | none => rw [hg] at hdb; exact absurd hdb (List.not_mem_nil _)
  | some X =>
    rw [hg] at hdb hnd
    simp only [Option.map_some', Option.getD_some] at hdb hnd
    simp only [Option.some_bind]
    exact getSegs_single X _ _ (lookup_of_mem_nodup _ _ _ hnd hdb)

theorem getSegs_collection (n : Node) (hk : PlanKeyed n) (database : String × Node)
    (hdb : database ∈ (n.hasAsChildren planColPrefix).1) (c : String × Node)
    (hc : c ∈ database.2.children) :
    n.getSegs ["Plan", "Collections", database.1, c.1] = some c.2 := by
  have hq : ["Plan", "Collections", database.1, c.1] =
      ["Plan", "Collections", database.1] ++ [c.1] := rfl
  rw [hq, Node.getSegs_append, getSegs_database n database hk.1 hdb]
  simp only [Option.some_bind]
  exact getSegs_single _ _ _ (lookup_of_mem_nodup _ _ _ (hk.2 database hdb).2.1 hc)

theorem dslPath_keyed (n : Node) (hk : PlanKeyed n) (database : String × Node)
    (hdb : database ∈ (n.hasAsChildren planColPrefix).1) (c : String × Node)
    (hc : c ∈ database.2.children) :
    dslPath database.1 c.1 =
      ["Plan", "Collections", database.1, c.1] ++ ["distributeShardsLike"] := by
  unfold dslPath
  rw [(hk.2 database hdb).1, (hk.2 database hdb).2.2 c hc]
  rfl

theorem hasAsString_collection (n : Node) (hk : PlanKeyed n) (database : String × Node)
    (hdb : database ∈ (n.hasAsChildren planColPrefix).1) (c : String × Node)
    (hc : c ∈ database.2.children) :
    (c.2.hasAsString "distributeShardsLike").1 = n.strAt (dslPath database.1 c.1) := by
  rw [dslPath_keyed n hk database hdb c hc]
  unfold Node.strAt
  rw [Node.getSegs_append, getSegs_collection n hk database hdb c hc]
  simp only [Option.some_bind]
  unfold Node.hasAsString Node.get
  have hs : splitPath "distributeShardsLike" = ["distributeShardsLike"] := by decide
  rw [hs]
  cases hg : c.2.getSegs ["distributeShardsLike"] with
  | none => rfl
  | some x =>
    cases x with
    | value v => cases v <;> rfl
    | object cs => rfl

theorem concatRounds_nil {α β : Type} (l : List β) (f : β → Option (List α))
    (h : ∀ x ∈ l, f x = some []) : concatRounds (l.map f) = some [] := by
  induction l with
  | nil => rfl
  | cons x rest ih =>
    rw [List.map_cons, h x (List.mem_cons_self _ _)]
    simp only [concatRounds]
    rw [ih fun y hy => h y (List.mem_cons_of_mem _ hy)]
    rfl

/-- The structure of the plan survives a write that keeps the names of the
children of every node. -/
theorem planKeyed_of_keys (k m : Node) (hk : PlanKeyed k)
    (hkeys : ∀ q, (m.getSegs q).map Node.keys = (k.getSegs q).map Node.keys) :
    PlanKeyed m ∧
    ∀ database ∈ (m.hasAsChildren planColPrefix).1, ∀ c ∈ database.2.children,
      ∃ database2 ∈ (k.hasAsChildren planColPrefix).1, ∃ c2 ∈ database2.2.children,
        database2.1 = database.1 ∧ c2.1 = c.1 := by
  have hnames : (m.hasAsChildren planColPrefix).1.map Prod.fst =
      (k.hasAsChildren planColPrefix).1.map Prod.fst := by
    rw [planNames_eq, planNames_eq, hkeys]
  have hnd : ((m.hasAsChildren planColPrefix).1.map Prod.fst).Nodup := by
    rw [hnames]
    exact hk.1
  have hdbs : ∀ database ∈ (m.hasAsChildren planColPrefix).1,
      ∃ database2 ∈ (k.hasAsChildren planColPrefix).1, database2.1 = database.1 ∧
        database.2.children.map Prod.fst = database2.2.children.map Prod.fst := by
    intro database hdb
    have h1 : database.1 ∈ (k.hasAsChildren planColPrefix).1.map Prod.fst := by
      rw [← hnames]
      exact List.mem_map.mpr ⟨database, hdb, rfl⟩
    obtain ⟨database2, hdb2, he⟩ := List.mem_map.mp h1
    refine ⟨database2, hdb2, he, ?_⟩
    have h2 := hkeys ["Plan", "Collections", database.1]
    rw [getSegs_database m database hnd hdb] at h2
    rw [← he, getSegs_database k database2 hk.1 hdb2] at h2
    simp only [Option.map_some', Option.some.injEq] at h2
    exact h2
  refine ⟨⟨hnd, ?_⟩, ?_⟩
  · intro database hdb
    obtain ⟨database2, hdb2, he, hch⟩ := hdbs database hdb
    obtain ⟨a1, a2, a3⟩ := hk.2 database2 hdb2
    refine ⟨?_, ?_, ?_⟩
    · rw [← he]
      exact a1
    · rw [hch]
      exact a2
    · intro c hc
      have h1 : c.1 ∈ database2.2.children.map Prod.fst := by
        rw [← hch]
        exact List.mem_map.mpr ⟨c, hc, rfl⟩
      obtain ⟨c2, hc2, he2⟩ := List.mem_map.mp h1
      rw [← he2]
      exact a3 c2 hc2
  · intro database hdb c hc
    obtain ⟨database2, hdb2, he, hch⟩ := hdbs database hdb
    have h1 : c.1 ∈ database2.2.children.map Prod.fst := by
      rw [← hch]
      exact List.mem_map.mpr ⟨c, hc, rfl⟩
    obtain ⟨c2, hc2, he2⟩ := List.mem_map.mp h1
    exact ⟨database2, hdb2, c2, hc2, he, he2⟩


theorem dslPath_database (db coll db2 coll2 : String) (h1 : splitPath db = [db])
    (h2 : splitPath db2 = [db2]) (h : dslPath db coll = dslPath db2 coll2) : db = db2 := by
  unfold dslPath at h
  rw [h1, h2] at h
  simp only [List.cons_append, List.nil_append, List.cons.injEq, true_and] at h
  exact h.1

/-- After the tuples of `fixPrototypeChain` were applied, `fixPrototypeChain`
has nothing left to write. -/
theorem fixPrototypeChain_fixed (fuel : Nat) (k m : Node) (chain : List VPack)
    (hk : PlanKeyed k) (h1 : fixPrototypeChain fuel k = some chain)
    (h2 : applyEnvelope k chain = some m) (f : Nat) :
    fixPrototypeChain (f + 1) m = some [] := by
  obtain ⟨tf, tc⟩ := fixPrototypeChain_some fuel k chain h1
  have hT : ∀ t ∈ chain, ∃ path new old, t = rewriteTuple path new old ∧ old ≠ "" ∧
      (∀ db coll, splitPath db = [db] → splitPath path = dslPath db coll →
        prototypeOf k db new = "") := by
    intro t ht
    obtain ⟨database, hdb, c, hc, -, hne, u, hu, hteq⟩ := tf t ht
    refine ⟨_, u, _, hteq.trans (prototypeTuple_rewrite _ _ _ _), hne, ?_⟩
    intro db coll hsdb hsp
    rw [dslPath_eq] at hsp
    have hdbeq := dslPath_database _ _ _ _ (hk.2 database hdb).1 hsdb hsp
    rw [← hdbeq]
    exact resolve_end k _ _ u fuel hu
  obtain ⟨i1, i2, i3⟩ := applyEnvelope_rewrites
    (fun path new => ∀ db coll, splitPath db = [db] → splitPath path = dslPath db coll →
        prototypeOf k db new = "") chain k m hT h2
  obtain ⟨hkm, hback⟩ := planKeyed_of_keys k m hk i1
  unfold fixPrototypeChain
  apply concatRounds_nil
  intro database hdb
  unfold fixDatabase
  apply concatRounds_nil
  intro c hc
  have hP : (c.2.hasAsString "distributeShardsLike").1 = m.strAt (dslPath database.1 c.1) :=
    hasAsString_collection m hkm database hdb c hc
  unfold fixCollection
  by_cases hhas : c.2.has "distributeShardsLike" = true
  swap
  · rw [if_neg hhas]
  rw [if_pos hhas]
  by_cases hem : (c.2.hasAsString "distributeShardsLike").1 = ""
  · rw [if_neg (not_not.mpr hem)]
  rw [if_pos hem]
  obtain ⟨database2, hdb2, c2, hc2, he, he2⟩ := hback database hdb c hc
  have hPk : (c2.2.hasAsString "distributeShardsLike").1 = k.strAt (dslPath database.1 c.1) := by
    rw [← he, ← he2]
    exact hasAsString_collection k hk database2 hdb2 c2 hc2
  have hkne : k.strAt (dslPath database.1 c.1) ≠ "" := by
    intro h
    apply hem
    rw [hP]
    exact i3 _ h
  have hhas2 : c2.2.has "distributeShardsLike" = true := by
    cases hh : c2.2.has "distributeShardsLike"
    · exact absurd (hPk.symm.trans (Node.hasAsString_of_not_has hh)) hkne
    · rfl
  obtain ⟨u, hu, hor⟩ := tc database2 hdb2 c2 hc2 hhas2 (by rw [hPk]; exact hkne)
  have hend : prototypeOf k database.1 (c.2.hasAsString "distributeShardsLike").1 = "" := by
    rcases i2 (dslPath database.1 c.1) with ⟨path, new, hg, hsp, hnew⟩ | ⟨hno, hsame⟩
    · rw [hP, hnew]
      exact hg database.1 c.1 (hkm.2 database hdb).1 hsp
    · rcases hor with hself | hmem
      · rw [hP, hsame, ← hPk, ← he]
        rw [hself] at hu
        exact resolve_self_end k _ _ fuel hu
      · exfalso
        rw [prototypeTuple_rewrite] at hmem
        apply hno _ _ _ hmem
        rw [dslPath_eq, he, he2]
  have hend2 : prototypeOf m database.1 (c.2.hasAsString "distributeShardsLike").1 = "" := by
    rw [prototypeOf_eq_strAt] at hend ⊢
    exact i3 _ hend
  have hres : resolve m database.1 (f + 1) (c.2.hasAsString "distributeShardsLike").1 =
      some (c.2.hasAsString "distributeShardsLike").1 := by
    unfold resolve
    rw [if_pos hend2]
  rw [hres]
  simp only [ne_eq, not_true_eq_false, if_false]
theorem apart_of_head (a b : String) (w q : List String) (h : a ≠ b) :
    ¬ (a :: w) <+: (b :: q) ∧ ¬ (b :: q) <+: (a :: w) := by
  constructor
  · intro hp
    exact h (List.cons_prefix_cons.mp hp).1
  · intro hp
    exact h (List.cons_prefix_cons.mp hp).1.symm

theorem getSegs_under (n m : Node) (a : String) (h : n.getSegs [a] = m.getSegs [a])
    (q : List String) : n.getSegs (a :: q) = m.getSegs (a :: q) := by
  have hq : a :: q = [a] ++ q := rfl
  rw [hq, Node.getSegs_append, Node.getSegs_append, h]

/-- The function `fixPrototypeChain` reads the snapshot below `/Plan` only. -/
theorem fixPrototypeChain_congr (n m : Node) (h : n.getSegs ["Plan"] = m.getSegs ["Plan"]) :
    (∀ f, fixPrototypeChain f n = fixPrototypeChain f m) ∧ (PlanKeyed n → PlanKeyed m) := by
  have hch : n.hasAsChildren planColPrefix = m.hasAsChildren planColPrefix := by
    have hs : splitPath planColPrefix = ["Plan", "Collections"] := by decide
    unfold Node.hasAsChildren Node.get
    rw [hs, getSegs_under n m "Plan" h]
  have hproto : ∀ db col, prototypeOf n db col = prototypeOf m db col := by
    intro db col
    rw [prototypeOf_eq_strAt, prototypeOf_eq_strAt]
    unfold Node.strAt dslPath
    rw [getSegs_under n m "Plan" h]
  have hres : ∀ db f col, resolve n db f col = resolve m db f col := by
    intro db f
    induction f with
    | zero => intro col; rfl
    | succ f ih =>
      intro col
      unfold resolve
      rw [hproto, ih]
  have hcol : ∀ f db c, fixCollection f n db c = fixCollection f m db c := by
    intro f db c
    unfold fixCollection
    rw [hres]
  have hdb : ∀ f database, fixDatabase f n database = fixDatabase f m database := by
    intro f database
    unfold fixDatabase
    rw [funext (hcol f database.1)]
  refine ⟨?_, ?_⟩
  · intro f
    unfold fixPrototypeChain
    rw [hch, funext (hdb f)]
  · intro hk
    unfold PlanKeyed at hk ⊢
    rw [← hch]
    exact hk

theorem applyOps_frame (q : List String) (ops : List (String × VPack)) :
    ∀ (n m : Node), applyOps n ops = some m →
      (∀ e ∈ ops, ¬ splitPath e.1 <+: q ∧ ¬ q <+: splitPath e.1) →
      m.getSegs q = n.getSegs q := by
  induction ops with
  | nil =>
    intro n m h _
    simp only [applyOps, Option.some.injEq] at h
    rw [h]
  | cons e rest ih =>
    intro n m h hap
    unfold applyOps at h
    split_ifs at h
    rw [ih _ m h fun e2 he2 => hap e2 (List.mem_cons_of_mem _ he2)]
    obtain ⟨a1, a2⟩ := hap e (List.mem_cons_self _ _)
    exact getSegs_setSegs_apart _ n _ q a1 a2

theorem applyEnvelope_frame (q : List String) (T : List VPack) :
    ∀ (k m : Node),
      (∀ t ∈ T, ∃ path new old, t = rewriteTuple path new old ∧
        ¬ splitPath path <+: q ∧ ¬ q <+: splitPath path) →
      applyEnvelope k T = some m → m.getSegs q = k.getSegs q := by
  induction T with
  | nil =>
    intro k m _ h
    simp only [applyEnvelope, Option.some.injEq] at h
    rw [h]
  | cons t rest ih =>
    intro k m hT h
    obtain ⟨k1, h1, h2⟩ := applyEnvelope_cons k m t rest h
    obtain ⟨path, new, old, ht, a1, a2⟩ := hT t (List.mem_cons_self _ _)
    subst ht
    obtain ⟨-, hk1⟩ := applyTuple_rewrite k k1 path new old h1
    rw [ih k1 m (fun t ht => hT t (List.mem_cons_of_mem _ ht)) h2, hk1]
    exact getSegs_setSegs_apart _ k _ q a1 a2

/-- The tuples of `fixPrototypeChain` write below `/Plan` only. -/
theorem fixPrototypeChain_frame (fuel : Nat) (n k m : Node) (chain : List VPack)
    (h1 : fixPrototypeChain fuel n = some chain) (h2 : applyEnvelope k chain = some m)
    (b : String) (q : List String) (hb : b ≠ "Plan") :
    m.getSegs (b :: q) = k.getSegs (b :: q) := by
  apply applyEnvelope_frame (b :: q) chain k m _ h2
  intro t ht
  obtain ⟨database, -, c, -, -, -, u, -, hteq⟩ := (fixPrototypeChain_some fuel n chain h1).1 t ht
  refine ⟨_, u, _, hteq.trans (prototypeTuple_rewrite _ _ _ _), ?_⟩
  rw [dslPath_eq]
  exact apart_of_head "Plan" b _ q (Ne.symm hb)

theorem upgradeZero_congr (n m : Node)
    (h : n.getSegs ["Target", "FailedServers"] = m.getSegs ["Target", "FailedServers"]) :
    upgradeZero n = upgradeZero m := by
  have hs : splitPath failedServersPrefix = ["Target", "FailedServers"] := by decide
  unfold upgradeZero Node.hasAsSlice Node.get
  rw [hs, h]

theorem upgradeOne_congr (n m : Node)
    (h : n.getSegs ["Agency", "Definition"] = m.getSegs ["Agency", "Definition"]) :
    upgradeOne n = upgradeOne m := by
  have hs : splitPath "Agency/Definition" = ["Agency", "Definition"] := by decide
  unfold upgradeOne Node.has Node.get
  rw [hs, h]

/-- After the tuple of `upgradeZero` was applied, `upgradeZero` has nothing
left to write, and the tuple has written `/Target/FailedServers` only. -/
theorem upgradeZero_applied (n k : Node) (zero : List VPack) (h1 : upgradeZero n = some zero)
    (h2 : applyEnvelope n zero = some k) :
    upgradeZero k = some [] ∧ k.getSegs ["Plan"] = n.getSegs ["Plan"] ∧
      k.getSegs ["Agency", "Definition"] = n.getSegs ["Agency", "Definition"] := by
  have hs : splitPath failedServersPrefix = ["Target", "FailedServers"] := by decide
  unfold upgradeZero at h1
  split at h1
  · next fails hsl =>
    simp only [Option.map_eq_some'] at h1
    obtain ⟨names, -, hz⟩ := h1
    subst hz
    obtain ⟨k1, h3, h4⟩ := applyEnvelope_cons n k _ _ h2
    simp only [applyEnvelope, Option.some.injEq] at h4
    subst h4
    simp only [applyTuple, applyOps] at h3
    split_ifs at h3
    simp only [Option.some.injEq] at h3
    subst h3
    refine ⟨?_, ?_, ?_⟩
    · unfold upgradeZero Node.hasAsSlice Node.get Node.set
      rw [hs, getSegs_setSegs_self]
      rfl
    · unfold Node.set
      rw [hs]
      exact getSegs_setSegs_apart _ n _ _ (by decide) (by decide)
    · unfold Node.set
      rw [hs]
      exact getSegs_setSegs_apart _ n _ _ (by decide) (by decide)
  · next hno =>
    simp only [Option.some.injEq] at h1
    subst h1
    simp only [applyEnvelope, Option.some.injEq] at h2
    subst h2
    refine ⟨?_, rfl, rfl⟩
    unfold upgradeZero
    split
    · next fails hsl => exact absurd hsl (hno fails)
    · rfl

/-- After the tuple of `upgradeOne` was applied, `upgradeOne` has nothing left
to write, and the tuple has written neither below `/Plan` nor
`/Target/FailedServers`. -/
theorem upgradeOne_applied (n k : Node) (h : applyEnvelope n (upgradeOne n) = some k) :
    upgradeOne k = [] ∧ k.getSegs ["Plan"] = n.getSegs ["Plan"] ∧
      k.getSegs ["Target", "FailedServers"] = n.getSegs ["Target", "FailedServers"] := by
  have hs : splitPath "Agency/Definition" = ["Agency", "Definition"] := by decide
  have ha : splitPath "/Agency/Definition" = ["Agency", "Definition"] := by decide
  have ht : splitPath "/Target/ToDo" = ["Target", "ToDo"] := by decide
  have hp : splitPath "/Target/Pending" = ["Target", "Pending"] := by decide
  by_cases hhas : n.has "Agency/Definition" = true
  · have hone : upgradeOne n = [] := by
      unfold upgradeOne
      simp [hhas]
    rw [hone] at h
    simp only [applyEnvelope, Option.some.injEq] at h
    subst h
    exact ⟨hone, rfl, rfl⟩
  · have hone : upgradeOne n =
        [.arr [.obj [("/Agency/Definition", .uint 1), ("/Target/ToDo", .obj []),
                 ("/Target/Pending", .obj [])],
           .obj [("/Agency/Definition", .obj [("oldEmpty", .bool true)])]]] := by
      unfold upgradeOne
      simp [hhas]
    rw [hone] at h
    obtain ⟨k1, h3, h4⟩ := applyEnvelope_cons n k _ _ h
    simp only [applyEnvelope, Option.some.injEq] at h4
    subst h4
    simp only [applyTuple] at h3
    split_ifs at h3
    refine ⟨?_, ?_, ?_⟩
    · have hk : k1.getSegs ["Agency", "Definition"] = some (.value (.uint 1)) := by
        simp only [applyOps, VPack.isOperation, List.lookup, Bool.false_eq_true, if_false,
          Option.isSome_none, Option.some.injEq] at h3
        rw [← h3]
        unfold Node.set
        rw [ha, ht, hp, getSegs_setSegs_apart _ _ _ _ (by decide) (by decide),
          getSegs_setSegs_apart _ _ _ _ (by decide) (by decide), getSegs_setSegs_self]
        rfl
      unfold upgradeOne Node.has Node.get
      rw [hs, hk]
      rfl
    · apply applyOps_frame _ _ n k1 h3
      intro e he
      simp only [List.mem_cons, List.mem_singleton, List.not_mem_nil, or_false] at he
      rcases he with rfl | rfl | rfl
      · rw [ha]; decide
      · rw [ht]; decide
      · rw [hp]; decide
    · apply applyOps_frame _ _ n k1 h3
      intro e he
      simp only [List.mem_cons, List.mem_singleton, List.not_mem_nil, or_false] at he
      rcases he with rfl | rfl | rfl
      · rw [ha]; decide
      · rw [ht]; decide
      · rw [hp]; decide

theorem upgradeHealthRecords_appended (n : Node) (now : String → String) :
    (upgradeHealthRecords n now).appended = [] ∨
      (upgradeHealthRecords n now).appended = [.arr [.obj []]] := by
  unfold upgradeHealthRecords
  simp only
  split_ifs
  · exact Or.inr rfl
  · exact Or.inl rfl
  · exact Or.inr rfl
  · exact Or.inl rfl

theorem applyEnvelope_emptyTuple (n k : Node) (env : List VPack)
    (he : env = [] ∨ env = [.arr [.obj []]]) (h : applyEnvelope n env = some k) : k = n := by
  rcases he with rfl | rfl
  · simp only [applyEnvelope, Option.some.injEq] at h
    exact h.symm
  · simp only [applyEnvelope, applyTuple, applyOps, Option.some.injEq] at h
    exact h.symm

/-! ## The second run of the upgrade -/

/-- C19: for every snapshot `S` whose names under `/Plan/Collections` are the
names of a tree of maps, if `upgradeAgency` builds the envelope `env` from `S`
and every tuple of `env` is applied, in its order, which gives the store `S1`,
then the envelope that `upgradeAgency` builds from `S1` is a no-op, for every
clock and every depth of at least one allowed to `resolve`: `upgradeZero`,
`fixPrototypeChain` and `upgradeOne` emit nothing, the envelope holds what
`upgradeHealthRecords` appends, which is nothing or the one tuple `[{}]`
without an operation, every tuple of the envelope leaves the store `S1` as it
is, and so does the envelope. -/
theorem upgradeAgency_idempotent (fuel : Nat) (S S1 : Node) (now now1 : String → String)
    (env : List VPack) (hk : PlanKeyed S) (h1 : upgradeAgency fuel S now = some env)
    (h2 : applyEnvelope S env = some S1) (f : Nat) (hf : 1 ≤ f) :
    upgradeZero S1 = some [] ∧ fixPrototypeChain f S1 = some [] ∧ upgradeOne S1 = [] ∧
    upgradeAgency f S1 now1 = some (upgradeHealthRecords S1 now1).appended ∧
    ((upgradeHealthRecords S1 now1).appended = [] ∨
      (upgradeHealthRecords S1 now1).appended = [.arr [.obj []]]) ∧
    (∀ tuple ∈ (upgradeHealthRecords S1 now1).appended, applyTuple S1 tuple = some S1) ∧
    applyEnvelope S1 (upgradeHealthRecords S1 now1).appended = some S1 := by
  unfold upgradeAgency at h1
  cases hz : upgradeZero S with
  | none => rw [hz] at h1; simp at h1
  | some zero =>
    cases hc : fixPrototypeChain fuel S with
    | none => rw [hz, hc] at h1; simp at h1
    | some chain =>
      rw [hz, hc] at h1
      simp only [Option.some.injEq] at h1
      subst h1
      obtain ⟨s3, e1, e2⟩ := applyEnvelope_append S S1 _ _ h2
      obtain ⟨m, e3, e4⟩ := applyEnvelope_append S s3 _ _ e1
      obtain ⟨k, e5, e6⟩ := applyEnvelope_append S m _ _ e3
      obtain ⟨z1, z2, z3⟩ := upgradeZero_applied S k zero hz e5
      obtain ⟨g1, g2⟩ := fixPrototypeChain_congr S k z2.symm
      have hck : fixPrototypeChain fuel k = some chain := by rw [← g1, hc]
      have hfix := fixPrototypeChain_fixed fuel k m chain (g2 hk) hck e6 (f - 1)
      rw [Nat.sub_add_cancel hf] at hfix
      have m1 : m.getSegs ["Target", "FailedServers"] = k.getSegs ["Target", "FailedServers"] :=
        fixPrototypeChain_frame fuel k k m chain hck e6 "Target" _ (by decide)
      have m2 : m.getSegs ["Agency", "Definition"] = k.getSegs ["Agency", "Definition"] :=
        fixPrototypeChain_frame fuel k k m chain hck e6 "Agency" _ (by decide)
      rw [upgradeOne_congr S m (z3.symm.trans m2.symm)] at e4
      obtain ⟨o1, o2, o3⟩ := upgradeOne_applied m s3 e4
      have hs : S1 = s3 :=
        applyEnvelope_emptyTuple s3 S1 _ (upgradeHealthRecords_appended S now) e2
      subst hs
      have r1 : upgradeZero S1 = some [] := by
        rw [upgradeZero_congr S1 k (o3.trans m1)]
        exact z1
      have r2 : fixPrototypeChain f S1 = some [] := by
        rw [(fixPrototypeChain_congr S1 m o2).1 f]
        exact hfix
      have r5 := upgradeHealthRecords_appended S1 now1
      refine ⟨r1, r2, o1, ?_, r5, ?_, ?_⟩
      · unfold upgradeAgency
        rw [r1, r2, o1]
        rfl
      · intro tuple ht
        rcases r5 with h | h
        · rw [h] at ht
          exact absurd ht (List.not_mem_nil _)
        · rw [h] at ht
          rw [List.mem_singleton.mp ht]
          rfl
      · rcases r5 with h | h
        · rw [h]
          rfl
        · rw [h]
          rfl

theorem upgradeAgency_idempotent_witness :
    PlanKeyed upgradeSnapshot ∧
    upgradeAgency 3 upgradeSnapshot (fun _ => "1970-01-01T00:00:10Z") = some upgradeEnvelope ∧
    applyEnvelope upgradeSnapshot upgradeEnvelope = some upgradedSnapshot ∧
    (upgradeZero upgradedSnapshot = some [] ∧
      fixPrototypeChain 1 upgradedSnapshot = some [] ∧ upgradeOne upgradedSnapshot = [] ∧
      upgradeAgency 1 upgradedSnapshot (fun _ => "1970-01-01T00:00:20Z") =
        some (upgradeHealthRecords upgradedSnapshot (fun _ => "1970-01-01T00:00:20Z")).appended ∧
      ((upgradeHealthRecords upgradedSnapshot (fun _ => "1970-01-01T00:00:20Z")).appended = [] ∨
        (upgradeHealthRecords upgradedSnapshot (fun _ => "1970-01-01T00:00:20Z")).appended =
          [.arr [.obj []]]) ∧
      (∀ tuple ∈
          (upgradeHealthRecords upgradedSnapshot (fun _ => "1970-01-01T00:00:20Z")).appended,
        applyTuple upgradedSnapshot tuple = some upgradedSnapshot) ∧
      applyEnvelope upgradedSnapshot
        (upgradeHealthRecords upgradedSnapshot (fun _ => "1970-01-01T00:00:20Z")).appended =
          some upgradedSnapshot) :=
  ⟨by decide, rfl, rfl,
    upgradeAgency_idempotent 3 upgradeSnapshot upgradedSnapshot
      (fun _ => "1970-01-01T00:00:10Z") (fun _ => "1970-01-01T00:00:20Z") upgradeEnvelope
      (by decide) rfl rfl 1 (Nat.le_refl 1)⟩

end Supervision
